import Mathlib

set_option linter.unusedVariables false
set_option linter.unreachableTactic false
set_option linter.unusedTactic false
set_option maxRecDepth 8000

/-!
Verification of the TG_Chat_Bot-D1 Cloudflare Worker (src/TG_Chat_Bot-D1.js)
against its natural-language specification.

The development is a shallow embedding of the worker's JavaScript source:
  * JS values that flow through the store and through JSON are modelled by
    the dynamic type `PV` (string / number / boolean / null / array / object).
  * Strings are Lean `String`s; JS string primitives (`trim`, `toUpperCase`,
    `slice`, `parseInt`, URL-encoded form parsing, ...) are re-implemented
    character by character.  JS string indices are UTF-16 units while Lean
    indexes code points; the two agree on the ASCII inputs the theorems use.
  * External collaborators keep their effect signatures but their internals
    are parameters: HMAC-SHA256 (`crypto.subtle`) is an abstract function
    `List Nat → List Nat → List Nat` over byte strings, `JSON.parse` is an
    abstract partial function `String → Option PV` (`none` models a parse
    exception), `new RegExp(p, "gi").test(t)` is an abstract
    `String → String → Except Unit Bool` (`.error` models a RegExp
    construction/match exception), and the Telegram chat API is an oracle
    assigning an outcome to every call the worker makes.
  * The D1 `users` table is an association list from `user_id` to a row of
    dynamically typed columns, matching the schema created by `dbInit`.
  * `async`/`await` control flow becomes explicit state passing; a thrown JS
    exception becomes the `Except.error` branch that the nearest source-level
    `try`/`catch` observes.
-/

/-- Dynamic JavaScript value (the subset that flows through this worker:
JSON values).  `o` is a JS object as an association list in insertion
order; `arr` is a JS array. -/
inductive PV where
  | s (v : String)
  | i (v : Int)
  | b (v : Bool)
  | nul
  | arr (xs : List PV)
  | o (fields : List (String × PV))

/-- JS truthiness of a `PV` ("" , 0, false, null are falsy; every array and
object is truthy). -/
def pvTruthy : PV → Bool
  | .s v => v ≠ ""
  | .i v => v ≠ 0
  | .b v => v
  | .nul => false
  | .arr _ => true
  | .o _ => true

/-- JS `x.toString()` for the primitive values the worker converts
(user ids are numbers or strings; the other arms are never reached on the
values the program stores but keep the function total). -/
def pvToStr : PV → String
  | .s v => v
  | .i v => toString v
  | .b v => if v then "true" else "false"
  | .nul => "null"
  | .arr _ => ""
  | .o _ => "[object Object]"

/-- Numeric view of a stored SQL integer column.  Every value the program
ever writes into `block_count` is an SQL INTEGER (`dbInit` default 0 and the
two integer writes in `handleVerifiedMsg` / `handlePrivate`), so only the
`.i` arm is ever exercised. -/
def pvAsInt : PV → Int
  | .i v => v
  | .b true => 1
  | _ => 0

/-- First binding of a key in a JS-object association list. -/
def alook {α : Type} : List (String × α) → String → Option α
  | [], _ => none
  | (k, v) :: r, key => if k = key then some v else alook r key

/-- Fields of a `PV` when it is an object, else the empty object (mirrors the
`typeof x === "object"` guards in the source; a JS array is also
`typeof "object"`, but no configuration the worker writes stores an array in
`user_info_json`, so the `.arr` arm is not exercised). -/
def pvObjFields : PV → List (String × PV)
  | .o fs => fs
  | _ => []

-- ---------------------------------------------------------------------------
-- JS string primitives
-- ---------------------------------------------------------------------------

/-- Whitespace recognised by JS `trim` / `parseInt` (ASCII subset). -/
def jsIsSpace (c : Char) : Bool :=
  c = ' ' ∨ c = '\t' ∨ c = '\n' ∨ c = '\r' ∨ c = '\x0b' ∨ c = '\x0c'

/-- JS `String.prototype.trim` (ASCII whitespace). -/
def jsTrim (s : String) : String :=
  String.mk (((s.data.dropWhile jsIsSpace).reverse.dropWhile jsIsSpace).reverse)

/-- JS `String.prototype.toUpperCase` (ASCII; configuration keys are ASCII). -/
def jsToUpper (s : String) : String := String.mk (s.data.map Char.toUpper)

/-- JS `String.prototype.toLowerCase` (ASCII; hex digests are ASCII). -/
def jsToLower (s : String) : String := String.mk (s.data.map Char.toLower)

/-- Boolean string-equality test used throughout (JS `===` on strings). -/
def strEq (a b : String) : Bool := a = b

/-- JS `String.prototype.startsWith` on code points. -/
def jsStarts : List Char → List Char → Bool
  | [], _ => true
  | _ :: _, [] => false
  | p :: ps, c :: cs => p = c ∧ jsStarts ps cs

def jsStartsWith (pre s : String) : Bool := jsStarts pre.data s.data

/-- JS `s.slice(0, n)` on code points. -/
def jsSlice0 (s : String) (n : Nat) : String := String.mk (s.data.take n)

/-- Decimal digits of a nonempty digit list. -/
def digitsVal (ds : List Char) : Nat :=
  ds.foldl (fun a c => a * 10 + (c.toNat - 48)) 0

/-- JS `parseInt(s, 10)`: skip whitespace, optional sign, longest decimal
digit prefix; `none` models `NaN`. -/
def jsParseInt (s : String) : Option Int :=
  let cs := s.data.dropWhile jsIsSpace
  let sign : Bool × List Char :=
    match cs with
    | '-' :: r => (true, r)
    | '+' :: r => (false, r)
    | _ => (false, cs)
  let ds := sign.2.takeWhile Char.isDigit
  if ds.isEmpty then none
  else some ((if sign.1 then -1 else 1) * (digitsVal ds : Int))

/-- JS `x || y` on strings (first operand when truthy). -/
def jsOrS (a b : String) : String := if a = "" then b else a

-- ---------------------------------------------------------------------------
-- Bytes, UTF-8, hex  (src/TG_Chat_Bot-D1.js lines 900-920)
-- ---------------------------------------------------------------------------

/-- UTF-8 encoding of one code point. -/
def utf8EncodeCharM (c : Char) : List Nat :=
  let n := c.toNat
  if n < 0x80 then [n]
  else if n < 0x800 then
    [0xC0 ||| (n >>> 6), 0x80 ||| (n &&& 0x3F)]
  else if n < 0x10000 then
    [0xE0 ||| (n >>> 12), 0x80 ||| ((n >>> 6) &&& 0x3F), 0x80 ||| (n &&& 0x3F)]
  else
    [0xF0 ||| (n >>> 18), 0x80 ||| ((n >>> 12) &&& 0x3F),
     0x80 ||| ((n >>> 6) &&& 0x3F), 0x80 ||| (n &&& 0x3F)]

/-- Model of `strToBytes` (`new TextEncoder().encode(s)`): UTF-8 bytes. -/
def strToBytes (s : String) : List Nat := (s.data.map utf8EncodeCharM).flatten

/-- Lowercase hex digit. -/
def hexDigitChar (n : Nat) : Char :=
  if n < 10 then Char.ofNat (48 + n) else Char.ofNat (87 + n)

/-- Model of `bytesToHex`: `b.toString(16).padStart(2, "0")` per byte. -/
def bytesToHex (bs : List Nat) : String :=
  String.mk (bs.foldr (fun b acc => hexDigitChar (b / 16 % 16) :: hexDigitChar (b % 16) :: acc) [])

/-- Model of `timingSafeEqualHex`: lowercase both strings, require equal
length, then OR together the XORs of the code units. -/
def timingSafeEqualHex (a b : String) : Bool :=
  let aa := (jsToLower a).data.map Char.toNat
  let bb := (jsToLower b).data.map Char.toNat
  if aa.length ≠ bb.length then false
  else (List.zipWith (fun x y => x ^^^ y) aa bb).foldl (fun r x => r ||| x) 0 = 0

-- ---------------------------------------------------------------------------
-- URLSearchParams (application/x-www-form-urlencoded parsing)
-- ---------------------------------------------------------------------------

/-- Value of a hex digit character, if any. -/
def hexVal (c : Char) : Option Nat :=
  if '0' ≤ c ∧ c ≤ '9' then some (c.toNat - 48)
  else if 'a' ≤ c ∧ c ≤ 'f' then some (c.toNat - 87)
  else if 'A' ≤ c ∧ c ≤ 'F' then some (c.toNat - 55)
  else none

/-- Percent-decoding of one form-urlencoded token: `+` becomes a space and
`%XX` becomes the byte `XX`; a `%` not followed by two hex digits is kept.
Decoded bytes are represented as code points (exact for ASCII data). -/
def pctDecode : List Char → List Char
  | [] => []
  | '+' :: r => ' ' :: pctDecode r
  | '%' :: a :: b :: r =>
    match hexVal a, hexVal b with
    | some x, some y => Char.ofNat (16 * x + y) :: pctDecode r
    | _, _ => '%' :: pctDecode (a :: b :: r)
  | c :: r => c :: pctDecode r

/-- Split a character list at every `&`. -/
def splitAmp : List Char → List Char → List (List Char)
  | [], acc => [acc.reverse]
  | '&' :: r, acc => acc.reverse :: splitAmp r []
  | c :: r, acc => splitAmp r (c :: acc)

/-- Split one `key=value` segment at the first `=` (a segment without `=` is
a key with empty value). -/
def splitEq : List Char → List Char → List Char × List Char
  | [], acc => (acc.reverse, [])
  | '=' :: r, acc => (acc.reverse, r)
  | c :: r, acc => splitEq r (c :: acc)

/-- Model of `new URLSearchParams(s)`: the decoded `(key, value)` pairs in
order; empty segments are skipped. -/
def formDecodePairs (s : String) : List (String × String) :=
  ((splitAmp s.data []).filter (fun seg => ¬ seg.isEmpty)).map fun seg =>
    let kv := splitEq seg []
    (String.mk (pctDecode kv.1), String.mk (pctDecode kv.2))

/-- Model of `params.get(k)`: first value bound to `k`. -/
def paramsGet (ps : List (String × String)) (k : String) : Option String := alook ps k

-- ---------------------------------------------------------------------------
-- Stable ascending sort by key (Array.prototype.sort with the comparator
-- `a[0] < b[0] ? -1 : a[0] > b[0] ? 1 : 0`; ECMAScript sort is stable)
-- ---------------------------------------------------------------------------

/-- Lexicographic `<` on code-point lists (JS `<` on strings, ASCII-exact). -/
def ltChars : List Char → List Char → Bool
  | [], [] => false
  | [], _ :: _ => true
  | _ :: _, [] => false
  | a :: as, b :: bs =>
    if a.toNat < b.toNat then true
    else if b.toNat < a.toNat then false
    else ltChars as bs

def ltStr (a b : String) : Bool := ltChars a.data b.data

/-- Stable insertion: place `p` after every pair whose key is `≤` its key. -/
def insertPair (p : String × String) : List (String × String) → List (String × String)
  | [] => [p]
  | q :: r => if ltStr q.1 p.1 ∨ q.1 = p.1 then q :: insertPair p r else p :: q :: r

/-- Stable ascending sort by key. -/
def sortPairs (ps : List (String × String)) : List (String × String) :=
  ps.foldl (fun acc p => insertPair p acc) []

-- ---------------------------------------------------------------------------
-- verifyTelegramInitData  (src/TG_Chat_Bot-D1.js lines 860-898)
-- ---------------------------------------------------------------------------

/-- Result of a successful `verifyTelegramInitData`. -/
structure InitParsed where
  userId : String
  authDate : Int

/-- Model of `verifyTelegramInitData(initData, botToken, maxAgeSec)`.
`hmac` is the abstract HMAC-SHA256 over bytes, `jsonp` the abstract
`JSON.parse`, `nowSec` the value of `Math.floor(Date.now() / 1000)`.
`Except.error e` models `throw new Error(e)`. -/
def verifyTelegramInitData
    (hmac : List Nat → List Nat → List Nat) (jsonp : String → Option PV)
    (nowSec : Int) (initData : String) (botToken : String) (maxAgeSec : Int) :
    Except String InitParsed :=
  let params := formDecodePairs initData
  let hash := (paramsGet params "hash").getD ""
  if hash = "" then .error "initData missing hash"
  else
    let authDateStr := (paramsGet params "auth_date").getD ""
    match jsParseInt authDateStr with
    | none => .error "initData missing auth_date"
    | some authDate =>
      if authDate = 0 then .error "initData missing auth_date"
      else if maxAgeSec ≠ 0 ∧ nowSec - authDate > maxAgeSec then .error "initData expired"
      else
        let pairs := params.filter fun p => p.1 ≠ "hash"
        let sorted := sortPairs pairs
        let dataCheckString := String.intercalate "\n" (sorted.map fun p => p.1 ++ "=" ++ p.2)
        let secretKey := hmac (strToBytes "WebAppData") (strToBytes botToken)
        let calcBytes := hmac secretKey (strToBytes dataCheckString)
        let calcHex := bytesToHex calcBytes
        if ¬ timingSafeEqualHex calcHex hash then .error "initData hash mismatch"
        else
          let userId :=
            match paramsGet params "user" with
            | none => ""
            | some uj =>
              match jsonp uj with
              | some (.o fs) =>
                match alook fs "id" with
                | some idv => if pvTruthy idv ∨ idv matches .i 0 then pvToStr idv else ""
                | none => ""
              | _ => ""
          .ok ⟨userId, authDate⟩

-- ---------------------------------------------------------------------------
-- D1 users table  (src/TG_Chat_Bot-D1.js lines 140-236)
-- ---------------------------------------------------------------------------

/-- One row of the `users` table.  Columns are dynamically typed, as in
SQLite; `user_info_json` holds the JSON value the stored text encodes
(`dbInit` default `'{}'` is the empty object). -/
structure Row where
  user_state : PV := .s "new"
  is_blocked : PV := .i 0
  block_count : PV := .i 0
  topic_id : PV := .nul
  user_info_json : PV := .o []

/-- The `users` table: association list from `user_id` to its row. -/
abbrev Users := List (String × Row)

/-- Row inserted by `getUser`'s `INSERT OR IGNORE` (explicit `user_state`
'new' and `user_info_json` '{}'; the remaining columns take the schema
defaults of `dbInit`). -/
def defaultRow : Row := {}

/-- Shallow JS object spread `{...a, ...b}`: the keys of `a` in order with
values overridden by `b`, followed by the keys of `b` that are new, in
order.  (The object literals the worker merges have distinct keys.) -/
def jsSpreadMerge (a b : List (String × PV)) : List (String × PV) :=
  a.map (fun kv => (kv.1, (alook b kv.1).getD kv.2)) ++
    b.filter fun kv => (alook a kv.1).isNone

/-- Model of `mergeUserInfo(id, patch, env)` (lines 191-199): read the
current `user_info_json` of the row, parse it (non-objects fall back to
`{}`), spread-merge the patch on top and return the merged JSON value.
A missing row yields `undefined`, which `safeParse` turns into `{}`. -/
def mergeUserInfo (id : String) (patch : PV) (users : Users) : PV :=
  let cur : PV := match alook users id with
    | some r => r.user_info_json
    | none => .o []
  .o (jsSpreadMerge (pvObjFields cur) (pvObjFields patch))

/-- The column whitelist of `updUser` (line 226). -/
def updWhitelist : List String :=
  ["user_state", "is_blocked", "block_count", "topic_id", "user_info_json"]

/-- JS `data[k] = v` on an object represented as an association list:
update in place when the key exists, else append. -/
def setKey (data : List (String × PV)) (k : String) (v : PV) : List (String × PV) :=
  if (alook data k).isSome then
    data.map fun kv => if kv.1 = k then (k, v) else kv
  else data ++ [(k, v)]

/-- JS `delete data[k]`. -/
def delKey (data : List (String × PV)) (k : String) : List (String × PV) :=
  data.filter fun kv => kv.1 ≠ k

/-- Step 1 of `updUser` (lines 218-221): when `data.user_info` is truthy,
replace it by the merged `user_info_json`. -/
def updRewriteInfo (id : String) (data : List (String × PV)) (users : Users) :
    List (String × PV) :=
  match alook data "user_info" with
  | some ui =>
    if pvTruthy ui then
      delKey (setKey data "user_info_json" (mergeUserInfo id ui users)) "user_info"
    else data
  | none => data

/-- The keys of the rewritten patch that survive the whitelist filter
(line 226); these are exactly the columns the UPDATE statement names. -/
def updCols (id : String) (data : List (String × PV)) (users : Users) : List String :=
  ((updRewriteInfo id data users).map Prod.fst).filter fun k => k ∈ updWhitelist

/-- Value conversion of `updUser` (line 230): JS booleans become 0/1. -/
def updConv : PV → PV
  | .b v => .i (if v then 1 else 0)
  | v => v

/-- Apply `SET k = v` for one whitelisted column. -/
def setCol (r : Row) (k : String) (v : PV) : Row :=
  if k = "user_state" then { r with user_state := v }
  else if k = "is_blocked" then { r with is_blocked := v }
  else if k = "block_count" then { r with block_count := v }
  else if k = "topic_id" then { r with topic_id := v }
  else if k = "user_info_json" then { r with user_info_json := v }
  else r

/-- Model of `updUser(id, data, env)` (lines 217-236): rewrite `user_info`,
drop non-whitelisted keys, and when any column remains run
`UPDATE users SET ... WHERE user_id = id`. -/
def updUser (id : String) (data : List (String × PV)) (users : Users) : Users :=
  let data' := updRewriteInfo id data users
  if data'.isEmpty then users
  else
    let safeKeys := (data'.map Prod.fst).filter fun k => k ∈ updWhitelist
    if safeKeys.isEmpty then users
    else
      users.map fun ur =>
        if ur.1 = id then
          (ur.1, safeKeys.foldl (fun r k => setCol r k (updConv ((alook data' k).getD .nul))) ur.2)
        else ur

/-- The JS user object `getUser` returns (lines 201-215): the row with
`is_blocked` coerced to a boolean and `user_info` parsed. -/
structure UserObj where
  user_id : String
  user_state : PV
  is_blocked : Bool
  block_count : PV
  topic_id : PV
  user_info : List (String × PV)

def viewRow (id : String) (r : Row) : UserObj :=
  { user_id := id
    user_state := r.user_state
    is_blocked := pvTruthy r.is_blocked
    block_count := r.block_count
    topic_id := r.topic_id
    user_info := pvObjFields r.user_info_json }

-- ---------------------------------------------------------------------------
-- getCfg with cache  (src/TG_Chat_Bot-D1.js lines 11-17, 19-52, 166-188)
-- ---------------------------------------------------------------------------

/-- The `DEFAULTS` table (lines 19-52). -/
def DEFAULTS : List (String × String) :=
  [("welcome_msg", "欢迎 {name}！请先完成验证。"),
   ("enable_verify", "true"),
   ("enable_qa_verify", "true"),
   ("captcha_mode", "turnstile"),
   ("verif_q", "1+1=?\n提示：答案在简介中。"),
   ("verif_a", "2"),
   ("block_threshold", "5"),
   ("enable_admin_receipt", "true"),
   ("enable_image_forwarding", "true"),
   ("enable_link_forwarding", "true"),
   ("enable_text_forwarding", "true"),
   ("enable_channel_forwarding", "true"),
   ("enable_forward_forwarding", "true"),
   ("enable_audio_forwarding", "true"),
   ("enable_sticker_forwarding", "true"),
   ("backup_group_id", ""),
   ("unread_topic_id", ""),
   ("blocked_topic_id", ""),
   ("busy_mode", "false"),
   ("busy_msg", "当前是非营业时间，消息已收到，管理员稍后回复。"),
   ("block_keywords", "[]"),
   ("keyword_responses", "[]"),
   ("authorized_admins", "[]")]

/-- Model of `k.toUpperCase().replace(/_MSG|_Q|_A/, m => ...)`: a non-global
regex replace rewrites the leftmost match only, trying `_MSG`, `_Q`, `_A`
in alternation order at each position. -/
def envRewriteGo : List Char → List Char
  | '_' :: 'M' :: 'S' :: 'G' :: r => '_' :: 'M' :: 'E' :: 'S' :: 'S' :: 'A' :: 'G' :: 'E' :: r
  | '_' :: 'Q' :: r => '_' :: 'Q' :: 'U' :: 'E' :: 'S' :: 'T' :: 'I' :: 'O' :: 'N' :: r
  | '_' :: 'A' :: r => '_' :: 'A' :: 'N' :: 'S' :: 'W' :: 'E' :: 'R' :: r
  | c :: r => c :: envRewriteGo r
  | [] => []

/-- The environment-variable name `getCfg` derives from a key (line 178-180). -/
def envKeyOf (k : String) : String := String.mk (envRewriteGo (jsToUpper k).data)

/-- The in-process configuration cache (`CACHE.data` / `CACHE.ts`;
`CACHE.ttl` is the constant 60000 ms). -/
structure CacheSt where
  data : List (String × String)
  ts : Int

/-- Model of `getCfg(k, env)` (lines 166-182).  `now` is `Date.now()`;
`dbRows` is the result of `SELECT * FROM config` (`none` models a failed
query, whose `rows?.results` guard skips the cache refresh); `envv` is the
worker environment.  Returns the value and the updated cache. -/
def getCfg (k : String) (cache : CacheSt) (now : Int)
    (dbRows : Option (List (String × String))) (envv : String → Option String) :
    String × CacheSt :=
  if k = "" then ("", cache)
  else if cache.ts ≠ 0 ∧ now - cache.ts < 60000 ∧ (alook cache.data k).isSome then
    ((alook cache.data k).getD "", cache)
  else
    let cache' := match dbRows with
      | some rows => { data := rows, ts := now }
      | none => cache
    let fallback := match envv (envKeyOf k) with
      | some v => if v = "" then (alook DEFAULTS k).getD "" else v
      | none => (alook DEFAULTS k).getD ""
    (match alook cache'.data k with
     | some v => v
     | none => fallback, cache')

-- ---------------------------------------------------------------------------
-- Execution context, world state and the Telegram API trace
-- ---------------------------------------------------------------------------

/-- One call to the Telegram Bot API (`api(token, method, body)`), recording
the fields the specification's claims talk about. -/
inductive ApiCall where
  | sendMessage (chatId : String) (text : String)
  | sendMedia (method : String) (chatId : String) (caption : String)
  | createForumTopic (name : String)
  | forwardMessage (fromChat : String) (msgId : Nat) (threadId : String)
  | copyMessage (toChat : String) (fromChat : String) (msgId : Nat)
  | setMessageReaction (chatId : String) (msgId : Nat)
  | pinChatMessage (msgId : Nat)
  | deleteMessage (chatId : String) (msgId : Nat)
  | editMessageText (msgId : Nat) (text : String)
  | registerCommandsCall
  | adminFlow (tag : String)
deriving DecidableEq

/-- Outcome the platform gives one API call: the numeric id it returns
(`message_id` / `message_thread_id`), or the error description thrown. -/
inductive ApiOutcome where
  | ok (v : Nat)
  | err (s : String)

/-- Execution context: environment variables, the configuration valuation,
and the abstract external collaborators.  `cfg k` is the string `getCfg(k)`
resolves to during this run (the cache dynamics of `getCfg` are verified
separately); `api n` is the outcome of the n-th chat API call of the run. -/
structure Ctx where
  ADMIN_IDS : String := ""
  ADMIN_GROUP_ID : String := ""
  BOT_TOKEN : String := ""
  WORKER_URL : String := ""
  cfg : String → String
  jsonp : String → Option PV
  re : String → String → Except Unit Bool
  api : Nat → ApiOutcome
  nowMs : Int := 0
  hmac : List Nat → List Nat → List Nat := fun _ _ => []
  siteverify : Except String Bool := .ok false

/-- Mutable world: the D1 tables, the configuration writes performed by
`setCfg`, the in-process expiring lock map, and the ordered trace of chat
API calls issued so far. -/
structure W where
  users : Users
  msgs : List (String × Nat × String × Int) := []
  cfgWrites : List (String × String) := []
  locks : List (String × Int) := []
  trace : List ApiCall := []
  nApi : Nat := 0

/-- Issue one chat API call: record it and consult the oracle; an `err`
outcome models `api` throwing `new Error(description)`. -/
def callApi (c : ApiCall) (ctx : Ctx) (w : W) : Except String Nat × W :=
  let out := ctx.api w.nApi
  let w' := { w with trace := w.trace ++ [c], nApi := w.nApi + 1 }
  (match out with | .ok v => .ok v | .err s => .error s, w')

/-- Sequence a fallible step (`await f(...)`) into its continuation;
an error short-circuits to the caller (a thrown exception). -/
def bindE {α β : Type} (r : Except String α × W) (f : α → W → Except String β × W) :
    Except String β × W :=
  match r with
  | (.ok a, w) => f a w
  | (.error e, w) => (.error e, w)

/-- Discard the outcome of a fire-and-forget call (`.catch(() => {})`). -/
def ignoreE {α : Type} (r : Except String α × W) : W := r.2

/-- Model of `getUser(id, env)` (lines 201-215): return the row, inserting
the default row first when absent (`INSERT OR IGNORE`). -/
def getUserW (id : String) (w : W) : UserObj × W :=
  match alook w.users id with
  | some r => (viewRow id r, w)
  | none => (viewRow id defaultRow, { w with users := w.users ++ [(id, defaultRow)] })

/-- Model of `updUser` acting on the world. -/
def updUserW (id : String) (data : List (String × PV)) (w : W) : W :=
  { w with users := updUser id data w.users }

/-- Model of `setCfg(k, v, env)` (lines 184-188): record the
`INSERT OR REPLACE` into the config table (the cache-timestamp reset is part
of the separately verified `getCfg` model). -/
def setCfgW (k v : String) (w : W) : W :=
  { w with cfgWrites := w.cfgWrites ++ [(k, v)] }

-- ---------------------------------------------------------------------------
-- Locks  (src/TG_Chat_Bot-D1.js lines 70-85)
-- ---------------------------------------------------------------------------

/-- Model of `lockHas(key)`: held iff an entry exists whose deadline is
still in the future (`exp <= now` counts as expired). -/
def lockHas (locks : List (String × Int)) (now : Int) (key : String) : Bool :=
  match alook locks key with
  | some exp => now < exp
  | none => false

/-- Model of `lockSet(key, ttlMs)`. -/
def lockSet (key : String) (ttlMs : Int) (now : Int) (locks : List (String × Int)) :
    List (String × Int) :=
  (key, now + max 1 ttlMs) :: locks.filter fun kv => kv.1 ≠ key

/-- Model of `lockDel(key)`. -/
def lockDel (key : String) (locks : List (String × Int)) : List (String × Int) :=
  locks.filter fun kv => kv.1 ≠ key

-- ---------------------------------------------------------------------------
-- Permission / utility helpers  (src/TG_Chat_Bot-D1.js lines 254-307)
-- ---------------------------------------------------------------------------

/-- Separator class of `parseIdSet`'s split regex `/[,，\s]+/`. -/
def idSep (c : Char) : Bool := c = ',' ∨ c = '，' ∨ c.isWhitespace

/-- Tokenize on runs of separators. -/
def tokenizeIds : List Char → List Char → List String
  | [], acc => if acc.isEmpty then [] else [String.mk acc.reverse]
  | c :: r, acc =>
    if idSep c then
      (if acc.isEmpty then tokenizeIds r [] else String.mk acc.reverse :: tokenizeIds r [])
    else tokenizeIds r (c :: acc)

/-- Model of `parseIdSet(raw)`: the set of comma/whitespace-separated
non-empty tokens (trimming is subsumed by the split). -/
def parseIdSet (raw : String) : List String := tokenizeIds raw.data []

/-- Model of `safeParse(str, fb)` (lines 120-127) on a dynamic value: only
strings are parsed, and a parse exception falls back. -/
def safeParse (jsonp : String → Option PV) (v : PV) (fb : PV) : PV :=
  match v with
  | .s str => (jsonp str).getD fb
  | _ => fb

/-- Model of `getBool(k, e)`. -/
def getBoolC (ctx : Ctx) (k : String) : Bool := ctx.cfg k = "true"

/-- Model of `getJsonCfg(k, e)`: `safeParse(await getCfg(k, e), [])`. -/
def getJsonCfg (ctx : Ctx) (k : String) : PV :=
  safeParse ctx.jsonp (.s (ctx.cfg k)) (.arr [])

/-- Model of `escape(t)`: HTML-escape `&`, `<`, `>`. -/
def escapeHtml (t : String) : String :=
  String.mk (t.data.foldr (fun c acc =>
    if c = '&' then '&' :: 'a' :: 'm' :: 'p' :: ';' :: acc
    else if c = '<' then '&' :: 'l' :: 't' :: ';' :: acc
    else if c = '>' then '&' :: 'g' :: 't' :: ';' :: acc
    else c :: acc) [])

/-- Model of `safeRegexTest(pattern, text)` (lines 268-278): non-strings,
empty or overlong patterns never match, and a RegExp exception is a
non-match. -/
def safeRegexTest (re : String → String → Except Unit Bool) (pattern : PV)
    (text : String) : Bool :=
  match pattern with
  | .s p0 =>
    if p0 = "" then false
    else
      let p := jsTrim p0
      if p = "" then false
      else if p.length > 256 then false
      else match re p text with
        | .ok v => v
        | .error _ => false
  | _ => false

/-- Model of `isAuthAdmin(id, e)` (lines 280-286). -/
def isAuthAdmin (ctx : Ctx) (id : String) : Bool :=
  if id ∈ parseIdSet ctx.ADMIN_IDS then true
  else match getJsonCfg ctx "authorized_admins" with
    | .arr xs => xs.any fun x => pvToStr x = id
    | _ => false

/-- Identity metadata `getUMeta(tgUser, dbUser, d)` computes (lines 288-299).
The rendered timestamp string is locale output of the platform and is
abstracted to the raw seconds value. -/
structure UMeta where
  userId : String
  name : String
  topicName : String
  card : String

/-- Telegram user as the update envelope carries it (ids are decimal
strings; Telegram numeric ids print in decimal, which is how the worker
always consumes them via `.toString()`). -/
structure TgUser where
  id : String
  first_name : Option String := none
  last_name : Option String := none
  is_bot : Bool := false

def getUMeta (tgUser : TgUser) (dbUser : UserObj) (d : Int) : UMeta :=
  let id := tgUser.id
  let name := jsOrS (jsTrim ((tgUser.first_name.getD "") ++ " " ++ (tgUser.last_name.getD ""))) "User"
  let note := match alook dbUser.user_info "note" with
    | some n => if pvTruthy n then "\n📝 <b>备注:</b> " ++ escapeHtml (pvToStr n) else ""
    | none => ""
  { userId := id
    name := name
    topicName := jsSlice0 (name ++ " | " ++ id) 128
    card := "<b>🪪 用户资料</b>\n👤: <code>" ++ escapeHtml name ++ "</code>\n🆔: <code>" ++ id
            ++ "</code>" ++ note ++ "\n🕒: <code>" ++ toString d ++ "</code>" }

-- ---------------------------------------------------------------------------
-- Messages and typed-content classification  (src/TG_Chat_Bot-D1.js 54-67)
-- ---------------------------------------------------------------------------

/-- JS `v === "lit"` for dynamic values against a string literal. -/
def pvIsStr (v : PV) (lit : String) : Bool :=
  match v with
  | .s x => x = lit
  | _ => false

/-- JS property access `r.k` with a dynamic receiver (`undefined` is `nul`). -/
def pvField (r : PV) (k : String) : PV :=
  match r with
  | .o fs => (alook fs k).getD .nul
  | _ => .nul

/-- Numeric message id stored in `user_info` (always written as an SQL
integer coming from a Telegram `message_id`). -/
def pvNatOf (v : PV) : Nat := (pvAsInt v).toNat

/-- JS `hay.includes(needle)`. -/
def listIncludes (needle : List Char) : List Char → Bool
  | [] => needle.isEmpty
  | c :: t => jsStarts needle (c :: t) ∨ listIncludes needle t

def strIncludes (hay needle : String) : Bool := listIncludes needle.data hay.data

/-- JS `s.charAt(0).toUpperCase() + s.slice(1)`. -/
def capitalizeFirst (s : String) : String :=
  match s.data with
  | [] => ""
  | c :: r => String.mk (Char.toUpper c :: r)

/-- JS `s.replace(/\/$/, "")`: drop one trailing slash. -/
def stripTrailingSlash (s : String) : String :=
  match s.data.reverse with
  | '/' :: r => String.mk r.reverse
  | _ => s

/-- Global replacement of the placeholders of `welcome_msg`
(`txt.replace(/{name}|{user}/g, name)`). -/
def replaceNameGo (name : List Char) : List Char → List Char
  | '\x7b' :: 'n' :: 'a' :: 'm' :: 'e' :: '\x7d' :: r => name ++ replaceNameGo name r
  | '\x7b' :: 'u' :: 's' :: 'e' :: 'r' :: '\x7d' :: r => name ++ replaceNameGo name r
  | c :: r => c :: replaceNameGo name r
  | [] => []

def replaceNamePlaceholders (txt name : String) : String :=
  String.mk (replaceNameGo name.data txt.data)

/-- Inbound Telegram message (the envelope fields this worker reads).
Media/forward markers are presence flags; `entities` is the list of entity
type tags; `forward_from_chat` carries the chat type when present. -/
structure Msg where
  chatId : String
  message_id : Nat := 1
  date : Int := 0
  text : Option String := none
  caption : Option String := none
  fromUser : TgUser
  forward_from : Bool := false
  forward_from_chat : Option String := none
  audio : Bool := false
  voice : Bool := false
  sticker : Bool := false
  animation : Bool := false
  photo : Bool := false
  video : Bool := false
  document : Bool := false
  entities : List String := []

/-- One entry of `MSG_TYPES`. -/
structure MsgType where
  check : Msg → Bool
  key : String
  name : String
  isChannelForward : Msg → Bool := fun _ => false

/-- The `MSG_TYPES` table (lines 55-67), in source order. -/
def MSG_TYPES : List MsgType :=
  [{ check := fun m => m.forward_from ∨ m.forward_from_chat.isSome
     key := "enable_forward_forwarding", name := "转发消息"
     isChannelForward := fun m => m.forward_from_chat = some "channel" },
   { check := fun m => m.audio ∨ m.voice, key := "enable_audio_forwarding", name := "语音/音频" },
   { check := fun m => m.sticker ∨ m.animation, key := "enable_sticker_forwarding", name := "贴纸/GIF" },
   { check := fun m => m.photo ∨ m.video ∨ m.document, key := "enable_image_forwarding", name := "媒体文件" },
   { check := fun m => m.entities.any fun e => e = "url" ∨ e = "text_link"
     key := "enable_link_forwarding", name := "链接" },
   { check := fun m => m.text.getD "" ≠ "", key := "enable_text_forwarding", name := "纯文本" }]

-- ---------------------------------------------------------------------------
-- Relay engine  (src/TG_Chat_Bot-D1.js lines 516-716)
-- ---------------------------------------------------------------------------

/-- Model of `markDelivered` (lines 517-535): emoji reaction, with the text
receipt "✅ 已送达" as fallback when the reaction fails. -/
def markDelivered (ctx : Ctx) (chatId : String) (messageId : Nat) (w : W) : W :=
  match callApi (.setMessageReaction chatId messageId) ctx w with
  | (.ok _, w) => w
  | (.error _, w) => ignoreE (callApi (.sendMessage chatId "✅ 已送达") ctx w)

/-- Model of `sendInfoCardToTopic` (lines 625-648): send the pinned info
card, record its message id in `user_info.card_msg_id`; any failure yields
`null` (the whole body is inside `try`/`catch`). -/
def sendInfoCardToTopic (ctx : Ctx) (u : UserObj) (tgUser : TgUser) (tid : String)
    (date : Option Int) (w : W) : Option Nat × W :=
  let meta := getUMeta tgUser u (date.getD (ctx.nowMs / 1000))
  match callApi (.sendMessage ctx.ADMIN_GROUP_ID meta.card) ctx w with
  | (.error _, w) => (none, w)
  | (.ok cardId, w) =>
    let w := updUserW u.user_id [("user_info", .o [("card_msg_id", .i cardId)])] w
    let w := ignoreE (callApi (.pinChatMessage cardId) ctx w)
    (some cardId, w)

/-- INSERT OR REPLACE into the `messages` table. -/
def msgsPut (uid : String) (mid : Nat) (text : String) (date : Int)
    (msgs : List (String × Nat × String × Int)) : List (String × Nat × String × Int) :=
  (msgs.filter fun e => ¬ (e.1 = uid ∧ e.2.1 = mid)) ++ [(uid, mid, text, date)]

/-- Fresh inbox card posting of `handleInbox` (lines 694-705): send a new
card and record it; a lost inbox thread resets `unread_topic_id`. -/
def inboxSendNew (ctx : Ctx) (uid : String) (cardText : String) (w : W) : W :=
  match callApi (.sendMessage ctx.ADMIN_GROUP_ID cardText) ctx w with
  | (.ok nm, w) =>
    updUserW uid [("user_info", .o [("last_notify", .i ctx.nowMs), ("inbox_msg_id", .i nm)])] w
  | (.error e, w) =>
    if e ≠ "" ∧ strIncludes e "thread" then setCfgW "unread_topic_id" "" w else w

/-- Card update of `handleInbox` (lines 676-705): edit the recorded card
when one exists, else post a fresh one. -/
def inboxCore (ctx : Ctx) (u : UserObj) (cardText : String) (w : W) : W :=
  let inboxMsg := (alook u.user_info "inbox_msg_id").getD .nul
  if pvTruthy inboxMsg then
    match callApi (.editMessageText (pvNatOf inboxMsg) cardText) ctx w with
    | (.ok _, w) => updUserW u.user_id [("user_info", .o [("last_notify", .i ctx.nowMs)])] w
    | (.error _, w) => inboxSendNew ctx u.user_id cardText w
  else inboxSendNew ctx u.user_id cardText w

/-- The inbox card text (lines 666-668). -/
def inboxCardText (msg : Msg) (uMeta : UMeta) : String :=
  let preview := match msg.text with
    | some t =>
      if t ≠ "" then (if t.length > 20 then jsSlice0 t 20 ++ "..." else t) else "[媒体消息]"
    | none => "[媒体消息]"
  "<b>🔔 新消息</b>\n" ++ uMeta.card ++ "\n📝 <b>预览:</b> " ++ escapeHtml preview

/-- Model of `handleInbox` (lines 650-706): inbox-board card update behind
the 3 s `inbox:<uid>` lock, creating the board topic on first use. -/
def handleInbox (ctx : Ctx) (msg : Msg) (u : UserObj) (tid : String) (uMeta : UMeta)
    (w : W) : W :=
  let lk := "inbox:" ++ u.user_id
  if lockHas w.locks ctx.nowMs lk then w
  else
    let w := { w with locks := lockSet lk 3000 ctx.nowMs w.locks }
    if ctx.cfg "unread_topic_id" = "" then
      match callApi (.createForumTopic "🔔 未读消息") ctx w with
      | (.error _, w) => w
      | (.ok t, w) =>
        inboxCore ctx u (inboxCardText msg uMeta) (setCfgW "unread_topic_id" (toString t) w)
    else inboxCore ctx u (inboxCardText msg uMeta) w

/-- Model of `handleBackup` (lines 708-716). -/
def handleBackup (ctx : Ctx) (msg : Msg) (meta : UMeta) (w : W) : W :=
  let bid := ctx.cfg "backup_group_id"
  if bid = "" then w
  else
    match callApi (.copyMessage bid msg.chatId msg.message_id) ctx w with
    | (.ok _, w) => w
    | (.error _, w) =>
      match msg.text with
      | some t =>
        if t ≠ "" then
          ignoreE (callApi (.sendMessage bid ("<b>备份</b> " ++ meta.name ++ ":\n" ++ t)) ctx w)
        else w
      | none => w

/-- Card posting / removal of `manageBlacklist` (lines 729-748), given the
resolved board id. -/
def mblCore (ctx : Ctx) (u : UserObj) (tgUser : TgUser) (isBlocking : Bool) (bid : String)
    (w : W) : W :=
  if bid = "" then w
  else if isBlocking then
    let meta := getUMeta tgUser u (ctx.nowMs / 1000)
    match callApi (.sendMessage ctx.ADMIN_GROUP_ID ("<b>🚫 用户已屏蔽</b>\n" ++ meta.card)) ctx w with
    | (.ok m, w) => updUserW u.user_id [("user_info", .o [("blacklist_msg_id", .i m)])] w
    | (.error _, w) => w
  else
    let mid := (alook u.user_info "blacklist_msg_id").getD .nul
    if pvTruthy mid then
      let w := ignoreE (callApi (.deleteMessage ctx.ADMIN_GROUP_ID (pvNatOf mid)) ctx w)
      updUserW u.user_id [("user_info", .o [("blacklist_msg_id", .nul)])] w
    else w

/-- Model of `manageBlacklist` (lines 718-749): post (or remove) the
blacklist card; the board topic is created on first blocking use.  The
function never throws (every API call is guarded). -/
def manageBlacklist (ctx : Ctx) (u : UserObj) (tgUser : TgUser) (isBlocking : Bool)
    (w : W) : W :=
  let bid0 := ctx.cfg "blocked_topic_id"
  if bid0 = "" ∧ isBlocking then
    match callApi (.createForumTopic "🚫 黑名单") ctx w with
    | (.error _, w) => w
    | (.ok t, w) =>
      mblCore ctx u tgUser isBlocking (toString t) (setCfgW "blocked_topic_id" (toString t) w)
  else mblCore ctx u tgUser isBlocking bid0 w

/-- Post-delivery effects of `relayToTopic` (lines 607-621): the delivery
acknowledgement, the `messages` record, and the inbox/backup fan-out. -/
def deliverFanout (ctx : Ctx) (msg : Msg) (u : UserObj) (uMeta : UMeta) (tid : String)
    (w : W) : Except String Nat × W :=
  let w := if msg.message_id ≠ 0 then markDelivered ctx u.user_id msg.message_id w else w
  let w := match msg.text with
    | some t =>
      if t ≠ "" then { w with msgs := msgsPut u.user_id msg.message_id t msg.date w.msgs }
      else w
    | none => w
  let w := handleInbox ctx msg u tid uMeta w
  let w := handleBackup ctx msg uMeta w
  (.ok 0, w)

/-- Delivery phase of `relayToTopic` (lines 574-621): forward, degrade to
copy, classify a final failure as topic-lost, and on success acknowledge,
record the text and fan out to the inbox board and the backup group. -/
def deliverToTopic (ctx : Ctx) (msg : Msg) (u : UserObj) (uMeta : UMeta) (tid : String)
    (w : W) : Except String Nat × W :=
  match callApi (.forwardMessage u.user_id msg.message_id tid) ctx w with
  | (.ok _, w) => deliverFanout ctx msg u uMeta tid w
  | (.error _, w) =>
    match callApi (.copyMessage ctx.ADMIN_GROUP_ID u.user_id msg.message_id) ctx w with
    | (.ok _, w) => deliverFanout ctx msg u uMeta tid w
    | (.error e, w) =>
      if e ≠ "" ∧ (strIncludes e "thread" ∨ strIncludes e "not found") then
        let w := updUserW u.user_id [("topic_id", .nul)] w
        callApi (.sendMessage u.user_id "⚠️ 会话已过期，请重发") ctx w
      else (.ok 0, w)

/-- Model of `relayToTopic` (lines 538-622).  Topic binding: when the user
object carries no topic, drop the message if the `topic_create:<uid>` lock
is held, else take the lock, re-read the row, and only create a topic when
the re-read still shows none; the lock is released on every exit of the
binding phase (the `finally`). -/
def relayToTopic (ctx : Ctx) (msg : Msg) (u : UserObj) (w : W) : Except String Nat × W :=
  let uid := u.user_id
  let uMeta := getUMeta msg.fromUser u msg.date
  let lockKey := "topic_create:" ++ uid
  if pvTruthy u.topic_id then deliverToTopic ctx msg u uMeta (pvToStr u.topic_id) w
  else if lockHas w.locks ctx.nowMs lockKey then (.ok 0, w)
  else
    let w := { w with locks := lockSet lockKey 5000 ctx.nowMs w.locks }
    let (fresh, w) := getUserW uid w
    if pvTruthy fresh.topic_id then
      let w := { w with locks := lockDel lockKey w.locks }
      deliverToTopic ctx msg u uMeta (pvToStr fresh.topic_id) w
    else
      match callApi (.createForumTopic uMeta.topicName) ctx w with
      | (.ok t, w) =>
        let tid := toString t
        let w := updUserW uid [("topic_id", .s tid)] w
        let u' := { u with topic_id := .s tid }
        let (_, w) := sendInfoCardToTopic ctx u' msg.fromUser tid none w
        let w := { w with locks := lockDel lockKey w.locks }
        deliverToTopic ctx msg u' uMeta tid w
      | (.error _, w) =>
        let (exist, w) := getUserW uid w
        if pvTruthy exist.topic_id then
          let w := { w with locks := lockDel lockKey w.locks }
          deliverToTopic ctx msg u uMeta (pvToStr exist.topic_id) w
        else
          let w := { w with locks := lockDel lockKey w.locks }
          callApi (.sendMessage uid "⚠️ 系统繁忙，请稍后重试") ctx w

-- ---------------------------------------------------------------------------
-- Policy pipeline and private-message handling  (src/TG_Chat_Bot-D1.js 322-514)
-- ---------------------------------------------------------------------------

/-- The parsed entries of a JSON-list configuration value (the
`Array.isArray(l) ? l : []` guard). -/
def pvArrElems : PV → List PV
  | .arr xs => xs
  | _ => []

/-- The configured block threshold: `parseInt(cfg, 10) || 5` (`NaN` and `0`
are falsy). -/
def blockThresholdOf (s : String) : Int :=
  match jsParseInt s with
  | some n => if n = 0 then 5 else n
  | none => 5

/-- Stages C (auto-reply), D (quiet hours) and E (relay) of
`handleVerifiedMsg` (lines 494-513).  Note that a matching auto-reply rule
sends its response fire-and-forget and the function then falls through to
the busy reply and the relay. -/
def handleVerifiedTail (ctx : Ctx) (msg : Msg) (u : UserObj) (text : String) (w : W) :
    Except String Nat × W :=
  let id := u.user_id
  let w :=
    if text ≠ "" then
      let rules := pvArrElems (getJsonCfg ctx "keyword_responses")
      let t := jsSlice0 text 2000
      match rules.find? (fun r => pvTruthy r ∧ safeRegexTest ctx.re (pvField r "keywords") t) with
      | some r => ignoreE (callApi (.sendMessage id (pvToStr (pvField r "response"))) ctx w)
      | none => w
    else w
  let w :=
    if getBoolC ctx "busy_mode" then
      let last := pvAsInt ((alook u.user_info "last_busy_reply").getD .nul)
      if ctx.nowMs - last > 300000 then
        let w := ignoreE (callApi (.sendMessage id ("🌙 " ++ ctx.cfg "busy_msg")) ctx w)
        updUserW id [("user_info", .o [("last_busy_reply", .i ctx.nowMs)])] w
      else w
    else w
  relayToTopic ctx msg u w

/-- Stage A detection of `handleVerifiedMsg` (lines 460-463): some
configured block keyword matches the message text truncated to 2000
characters. -/
def blockKeywordHit (ctx : Ctx) (text : String) : Bool :=
  if text = "" then false
  else
    let kws := pvArrElems (getJsonCfg ctx "block_keywords")
    let t := jsSlice0 text 2000
    kws.any fun k => safeRegexTest ctx.re k t

/-- Model of `handleVerifiedMsg` (lines 455-514): block-keyword accrual,
typed-content switches, auto-reply, quiet-hours reply, relay — in that
source order, where a keyword hit or a rejected content type returns
immediately. -/
def handleVerifiedMsg (ctx : Ctx) (msg : Msg) (u : UserObj) (w : W) :
    Except String Nat × W :=
  let id := u.user_id
  let text := jsOrS (msg.text.getD "") (msg.caption.getD "")
  if blockKeywordHit ctx text then
    let c := pvAsInt u.block_count + 1
    let maxT := blockThresholdOf (ctx.cfg "block_threshold")
    let w := updUserW id [("block_count", .i c), ("is_blocked", .b (c ≥ maxT))] w
    if c ≥ maxT then
      let w := manageBlacklist ctx u msg.fromUser true w
      callApi (.sendMessage id "❌ 您已被系统自动封禁") ctx w
    else
      callApi (.sendMessage id ("⚠️ 含有违禁词，请勿发送 (" ++ toString c ++ "/" ++ toString maxT ++ ")")) ctx w
  else
    match MSG_TYPES.find? (fun t => t.check msg) with
    | some t =>
      if ¬ getBoolC ctx t.key ∧ ¬ isAuthAdmin ctx id then
        callApi (.sendMessage id ("⚠️ 系统不接收 " ++ t.name)) ctx w
      else if t.key = "enable_forward_forwarding" ∧ t.isChannelForward msg
          ∧ ¬ getBoolC ctx "enable_channel_forwarding" ∧ ¬ isAuthAdmin ctx id then
        callApi (.sendMessage id "⚠️ 系统不接收 频道转发") ctx w
      else handleVerifiedTail ctx msg u text w
    | none => handleVerifiedTail ctx msg u text w

/-- Verification-stage entry of `sendStart` (lines 437-451): move the user
into the configured admission state and prompt accordingly. -/
def sendStartStage (ctx : Ctx) (id : String) (w : W) : Except String Nat × W :=
  let url := stripTrailingSlash ctx.WORKER_URL
  if getBoolC ctx "enable_verify" ∧ url ≠ "" then
    let w := updUserW id [("user_state", .s "pending_turnstile")] w
    (.ok 0, ignoreE (callApi (.sendMessage id "🛡️ <b>安全验证</b>\n请点击下方按钮完成人机验证以继续。") ctx w))
  else if getBoolC ctx "enable_qa_verify" then
    let w := updUserW id [("user_state", .s "pending_verification")] w
    (.ok 0, ignoreE (callApi (.sendMessage id ("❓ <b>安全提问</b>\n" ++ ctx.cfg "verif_q")) ctx w))
  else (.ok 0, updUserW id [("user_state", .s "verified")] w)

/-- Welcome-message delivery of `sendStart` (lines 407-435) for the
computed media object and final text, followed by the verification stage. -/
def sendStartWelcome (ctx : Ctx) (id : String) (media : PV) (txt : String) (w : W) :
    Except String Nat × W :=
  bindE
    (if pvTruthy media ∧ pvTruthy (pvField media "type") then
      match callApi (.sendMedia ("send" ++ capitalizeFirst (pvToStr (pvField media "type"))) id txt) ctx w with
      | (.ok v, w) => (.ok v, w)
      | (.error _, w) => callApi (.sendMessage id txt) ctx w
    else callApi (.sendMessage id txt) ctx w)
    fun _ w => sendStartStage ctx id w

/-- Model of `sendStart` (lines 383-452): for a verified user with a bound
topic just refresh the card and confirm the session; otherwise send the
welcome message (text or media JSON) and enter the configured verification
stage. -/
def sendStart (ctx : Ctx) (id : String) (msg : Msg) (w : W) : Except String Nat × W :=
  let (u, w) := getUserW id w
  if pvTruthy u.topic_id ∧ pvIsStr u.user_state "verified" then
    let (_, w) := sendInfoCardToTopic ctx u msg.fromUser (pvToStr u.topic_id) none w
    callApi (.sendMessage id "✅ <b>会话已连接</b>\n您可以直接发送消息，管理员会收到。") ctx w
  else
    let welcomeRaw := ctx.cfg "welcome_msg"
    let name := escapeHtml (jsOrS (msg.fromUser.first_name.getD "") "User")
    let media : PV :=
      if jsStartsWith "\x7b" (jsTrim welcomeRaw) then safeParse ctx.jsonp (.s welcomeRaw) .nul
      else .nul
    let txt0 :=
      if pvTruthy media then
        (let c := pvField media "caption"; if pvTruthy c then pvToStr c else "")
      else welcomeRaw
    let txt := replaceNamePlaceholders txt0 name
    sendStartWelcome ctx id media txt w

/-- Model of `verifyAnswer` (lines 923-932). -/
def verifyAnswer (ctx : Ctx) (id : String) (ans : String) (msg : Msg) (w : W) :
    Except String Nat × W :=
  if jsTrim ans = jsTrim (ctx.cfg "verif_a") then
    let w := updUserW id [("user_state", .s "verified")] w
    bindE (callApi (.sendMessage id "✅ 验证通过！") ctx w) fun _ w =>
      let (u, w) := getUserW id w
      relayToTopic ctx msg u w
  else callApi (.sendMessage id "❌ 错误") ctx w

/-- Model of `handlePrivate` (lines 322-381).  The admin console
(`handleAdminConfig`, `handleAdminInput`, `registerCommands`) is outside
every claim; entering it is recorded as an `adminFlow` trace event and its
internal effects are not modelled — all claim theorems range over non-admin
runs that cannot reach those branches. -/
def handlePrivate (ctx : Ctx) (msg : Msg) (w : W) : Except String Nat × W :=
  let id := msg.chatId
  let text := msg.text.getD ""
  let isAdm := id ∈ parseIdSet ctx.ADMIN_IDS
  let isStart := jsStartsWith "/start" text
  if isStart ∧ isAdm then
    (.ok 0, { w with trace := w.trace ++ [.adminFlow "registerCommands", .adminFlow "handleAdminConfig"] })
  else if text = "/help" ∧ isAdm then
    callApi (.sendMessage id "ℹ️ <b>帮助</b>\n• 回复消息即对话\n• /start 打开面板") ctx w
  else
    let (u, w) := getUserW id w
    if u.is_blocked then
      if isStart then
        let w := updUserW id [("is_blocked", .i 0), ("block_count", .i 0)] w
        let w := manageBlacklist ctx u msg.fromUser false w
        sendStart ctx id msg w
      else (.ok 0, w)
    else
      let w :=
        if isAuthAdmin ctx id ∧ ¬ pvIsStr u.user_state "verified" then
          updUserW id [("user_state", .s "verified")] w
        else w
      let adminInput : Bool :=
        isAdm ∧
          (let stateStr := ctx.cfg ("admin_state:" ++ id)
           stateStr ≠ "" ∧
             (let st := safeParse ctx.jsonp (.s stateStr) .nul
              pvTruthy st ∧ pvIsStr (pvField st "action") "input"))
      if adminInput then
        (.ok 0, { w with trace := w.trace ++ [.adminFlow "handleAdminInput"] })
      else
        let verifyOn := getBoolC ctx "enable_verify"
        let qaOn := getBoolC ctx "enable_qa_verify"
        if ¬ pvIsStr u.user_state "verified" ∧ (verifyOn ∨ qaOn) then
          if pvIsStr u.user_state "pending_verification" ∧ text ≠ "" then
            verifyAnswer ctx id text msg w
          else sendStart ctx id msg w
        else if isStart then sendStart ctx id msg w
        else handleVerifiedMsg ctx msg u w

-- ---------------------------------------------------------------------------
-- /submit_token  (src/TG_Chat_Bot-D1.js lines 797-857)
-- ---------------------------------------------------------------------------

/-- Parsed JSON body of a `/submit_token` request. -/
structure SubmitBody where
  token : PV := .nul
  userId : PV := .nul
  initData : PV := .nul

/-- HTTP response of `/submit_token`. -/
structure HResp where
  status : Nat
  success : Bool
  error : Option String

/-- Topic provisioning on a no-QA `/submit_token` success (lines 838-847):
if the promoted user has no topic yet, create one and send the info card. -/
def submitProvisionTopic (ctx : Ctx) (userId : String) (w : W) : Except String Nat × W :=
  let (u, w) := getUserW userId w
  if ¬ pvTruthy u.topic_id then
    let meta := getUMeta { id := userId, first_name := some "User" } u (ctx.nowMs / 1000)
    bindE (callApi (.createForumTopic meta.topicName) ctx w) fun t w =>
      let tid := toString t
      let w := updUserW userId [("topic_id", .s tid)] w
      let u' := { u with topic_id := .s tid }
      let (_, w) := sendInfoCardToTopic ctx u'
        { id := userId, first_name := some "User" } tid (some (ctx.nowMs / 1000)) w
      (.ok 0, w)
  else (.ok 0, w)

/-- Model of `handleTokenSubmit` (lines 797-857): server-side captcha
re-verification (the `siteverify` oracle models the provider call), then
mandatory `initData` HMAC verification; the authoritative user id is
`initData.user.id` and only that user's state is touched.  Every thrown
error becomes a 400 `{success:false, error}` response. -/
def handleTokenSubmit (ctx : Ctx) (body : SubmitBody) (w : W) : HResp × W :=
  let run : Except String Nat × W :=
    match ctx.siteverify with
    | .error e => (.error e, w)
    | .ok false => (.error "Token Invalid", w)
    | .ok true =>
      let initData := if pvTruthy body.initData then pvToStr body.initData else ""
      if initData = "" then (.error "Missing initData", w)
      else
        match verifyTelegramInitData ctx.hmac ctx.jsonp (ctx.nowMs / 1000) initData ctx.BOT_TOKEN 600 with
        | .error e => (.error e, w)
        | .ok parsed =>
          let userId := parsed.userId
          if userId = "" then (.error "No user in initData", w)
          else if getBoolC ctx "enable_qa_verify" then
            let w := updUserW userId [("user_state", .s "pending_verification")] w
            callApi (.sendMessage userId ("✅ 验证通过！\n请继续回答：\n" ++ ctx.cfg "verif_q")) ctx w
          else
            let w := updUserW userId [("user_state", .s "verified")] w
            bindE (callApi (.sendMessage userId "✅ 验证通过！") ctx w) fun _ w =>
              submitProvisionTopic ctx userId w
  match run with
  | (.ok _, w) => ({ status := 200, success := true, error := none }, w)
  | (.error e, w) =>
    ({ status := 400, success := false, error := some (jsOrS e "failed") }, w)

-- ---------------------------------------------------------------------------
-- Concurrent topic binding (two overlapping `relayToTopic` invocations)
-- ---------------------------------------------------------------------------

/-!
Two Worker tasks handling messages of the same user run `relayToTopic`
concurrently.  JS interleaves tasks only at `await` boundaries, so the
topic-binding phase of `relayToTopic` (lines 543-570) decomposes into these
atomic steps:

  * `start`      — the synchronous block from function entry to `lockSet`
                   (lines 543-548): with a non-null `topic_id` snapshot the
                   binding phase is skipped entirely; otherwise drop when
                   `lockHas` holds, else acquire the lock;
  * `readUser`   — `await getUser` returns (line 550): a topic found in the
                   re-read is used and the `finally` releases the lock;
  * `createCall` — `await api("createForumTopic")` returns (line 554;
                   modelled as succeeding — the claim counts creations);
  * `writeTopic` — `await updUser({topic_id})` persists the id (line 556);
  * `unlock`     — the `finally` `lockDel` runs (line 568).

The lock is the `topic_create:<uid>` entry of the expiring lock map; time
is supplied by the schedule, and `lockHas` treats a deadline `≤ now` as
expired, exactly as in `lockHas` of the source.
-/

/-- Program counter of one relay task's topic-binding phase. -/
inductive TPc where
  | start
  | readUser
  | createCall
  | writeTopic
  | unlock
  | done
  | dropped
deriving DecidableEq

/-- One relay task: the `u.topic_id` snapshot it was invoked with, and its
program counter. -/
structure TaskSt where
  snap : PV
  pc : TPc

/-- Shared state of the two-task system: the `topic_create:<uid>` lock
deadline, the user's persisted `topic_id` column, and how many user topics
have been created. -/
structure CSys where
  lock : Option Int := none
  topic : Option String := none
  created : Nat := 0
  t1 : TaskSt
  t2 : TaskSt

/-- Model of `lockHas` for the single `topic_create:<uid>` key: held iff
the deadline is in the future. -/
def lockHeldB (lock : Option Int) (time : Int) : Bool :=
  match lock with
  | some d => time < d
  | none => false

/-- One atomic step of a task, at the schedule time `time`. -/
def taskStep (lock : Option Int) (topic : Option String) (created : Nat)
    (t : TaskSt) (time : Int) : Option Int × Option String × Nat × TaskSt :=
  match t.pc with
  | .start =>
    if pvTruthy t.snap then (lock, topic, created, { t with pc := .done })
    else if lockHeldB lock time then
      (lock, topic, created, { t with pc := .dropped })
    else (some (time + 5000), topic, created, { t with pc := .readUser })
  | .readUser =>
    match topic with
    | some _ => (none, topic, created, { t with pc := .done })
    | none => (lock, topic, created, { t with pc := .createCall })
  | .createCall => (lock, topic, created + 1, { t with pc := .writeTopic })
  | .writeTopic => (lock, some "T", created, { t with pc := .unlock })
  | .unlock => (none, topic, created, { t with pc := .done })
  | .done => (lock, topic, created, t)
  | .dropped => (lock, topic, created, t)

/-- Run one scheduled step (`who = true` advances task 1). -/
def sysStep (sys : CSys) (who : Bool) (time : Int) : CSys :=
  if who then
    let r := taskStep sys.lock sys.topic sys.created sys.t1 time
    { sys with lock := r.1, topic := r.2.1, created := r.2.2.1, t1 := r.2.2.2 }
  else
    let r := taskStep sys.lock sys.topic sys.created sys.t2 time
    { sys with lock := r.1, topic := r.2.1, created := r.2.2.1, t2 := r.2.2.2 }

/-- Run a schedule: a list of (task, timestamp) pairs. -/
def sysRun (sys : CSys) : List (Bool × Int) → CSys
  | [] => sys
  | (who, time) :: rest => sysRun (sysStep sys who time) rest

/-- Initial system for two concurrent messages of a user whose stored
`topic_id` is `snap₁` / `snap₂` at the moment each task read it. -/
def sysInit (snap₁ snap₂ : PV) : CSys :=
  { t1 := { snap := snap₁, pc := .start }, t2 := { snap := snap₂, pc := .start } }

/-- A task inside the topic-binding critical section (it acquired the
`topic_create` lock and has not yet run the `finally`). -/
def crit (t : TaskSt) : Prop :=
  t.pc = .readUser ∨ t.pc = .createCall ∨ t.pc = .writeTopic ∨ t.pc = .unlock

/-- A task that has finished (delivered, used an existing topic, or dropped
its message). -/
def finishedT (t : TaskSt) : Prop := t.pc = .done ∨ t.pc = .dropped

/-- Inductive invariant of the two-task binding system for a new user
(both snapshots null), relative to the schedule window start `t0`. -/
def invP (t0 : Int) (lock : Option Int) (topic : Option String) (created : Nat)
    (a b : TaskSt) : Prop :=
  a.snap = PV.nul ∧ b.snap = PV.nul
  ∧ (∀ d, lock = some d → t0 + 5000 ≤ d)
  ∧ ¬ (crit a ∧ crit b)
  ∧ (crit a → lock ≠ none)
  ∧ (crit b → lock ≠ none)
  ∧ (lock ≠ none → crit a ∨ crit b)
  ∧ (a.pc = .createCall ∨ a.pc = .writeTopic → topic = none)
  ∧ (b.pc = .createCall ∨ b.pc = .writeTopic → topic = none)
  ∧ (a.pc = .unlock → topic ≠ none)
  ∧ (b.pc = .unlock → topic ≠ none)
  ∧ created = ((if topic = none then 0 else 1)
      + (if a.pc = .writeTopic then 1 else 0)
      + (if b.pc = .writeTopic then 1 else 0))
  ∧ (a.pc = .done → topic ≠ none)
  ∧ (b.pc = .done → topic ≠ none)
  ∧ ¬ (a.pc = .dropped ∧ b.pc = .dropped)

/-- The system invariant. -/
def sysInv (t0 : Int) (sys : CSys) : Prop :=
  invP t0 sys.lock sys.topic sys.created sys.t1 sys.t2

/-- State of a system whose two tasks both started with a non-null
`topic_id` snapshot: neither ever enters the binding phase. -/
def allQuiet (sys : CSys) : Prop :=
  pvTruthy sys.t1.snap = true ∧ pvTruthy sys.t2.snap = true
  ∧ (sys.t1.pc = .start ∨ sys.t1.pc = .done)
  ∧ (sys.t2.pc = .start ∨ sys.t2.pc = .done)
  ∧ sys.created = 0 ∧ sys.topic = none ∧ sys.lock = none

-- ---------------------------------------------------------------------------
-- Specification-side definitions and theorem-level helpers
-- ---------------------------------------------------------------------------

/-- Acceptance test of an `Except` result. -/
def exOk {e a : Type} : Except e a → Bool
  | .ok _ => true
  | .error _ => false

/-- Acceptance predicate of claim C2, written from the specification's
words: the string contains a `hash` field, a numeric `auth_date` at most
600 seconds old, and the lowercase-hex HMAC-SHA256 — keyed by
`HMAC_SHA256(key="WebAppData", data=bot_token)` — of the remaining
`key=value` pairs sorted ascending by key and joined by newlines equals the
supplied hash. -/
def initDataSpecAccepts (hmac : List Nat → List Nat → List Nat) (nowSec : Int)
    (initData botToken : String) : Bool :=
  let params := formDecodePairs initData
  match paramsGet params "hash" with
  | none => false
  | some hash =>
    let ad := (paramsGet params "auth_date").getD ""
    decide (ad ≠ "") && ad.data.all Char.isDigit
      && decide (nowSec - (digitsVal ad.data : Int) ≤ 600)
      && (let pairs := sortPairs (params.filter fun p => p.1 ≠ "hash")
          let dcs := String.intercalate "\n" (pairs.map fun p => p.1 ++ "=" ++ p.2)
          decide (bytesToHex (hmac (hmac (strToBytes "WebAppData") (strToBytes botToken))
            (strToBytes dcs)) = hash))

/-- Acceptance condition that `verifyTelegramInitData` actually implements
(the amended claim C2): a nonempty `hash` value, an `auth_date` that
`parseInt` turns into a nonzero integer at most 600 seconds old, and the
hex HMAC of the sorted remaining pairs equal to the supplied hash after
lowercasing it. -/
def initDataAcceptAmended (hmac : List Nat → List Nat → List Nat) (nowSec : Int)
    (initData botToken : String) : Bool :=
  let params := formDecodePairs initData
  let hash := (paramsGet params "hash").getD ""
  decide (hash ≠ "")
    && (match jsParseInt ((paramsGet params "auth_date").getD "") with
        | some n => decide (n ≠ 0) && decide (nowSec - n ≤ 600)
        | none => false)
    && (let pairs := sortPairs (params.filter fun p => p.1 ≠ "hash")
        let dcs := String.intercalate "\n" (pairs.map fun p => p.1 ++ "=" ++ p.2)
        decide (jsToLower hash
          = bytesToHex (hmac (hmac (strToBytes "WebAppData") (strToBytes botToken)) (strToBytes dcs))))

/-- Environment-variable naming of claim C9, written from the
specification's words: uppercase the key and rewrite only a suffix
`_MSG`/`_Q`/`_A`; other keys are merely uppercased. -/
def specEnvKey (k : String) : String :=
  let u := jsToUpper k
  if jsStarts ("GSM_".data) u.data.reverse then
    String.mk (u.data.take (u.data.length - 4)) ++ "_MESSAGE"
  else if jsStarts ("Q_".data) u.data.reverse then
    String.mk (u.data.take (u.data.length - 2)) ++ "_QUESTION"
  else if jsStarts ("A_".data) u.data.reverse then
    String.mk (u.data.take (u.data.length - 2)) ++ "_ANSWER"
  else u

/-- The chat API calls a run added on top of an earlier trace. -/
def newCalls (pre post : List ApiCall) : List ApiCall := post.drop pre.length

/-- Count of forum-topic creation calls in a trace. -/
def countCreate (tr : List ApiCall) : Nat :=
  tr.countP fun c => c matches .createForumTopic _

/-- Detects a relay attempt in a trace: a `forwardMessage` or `copyMessage`
into the operator group. -/
def relayAttempted (tr : List ApiCall) : Bool :=
  tr.any fun c =>
    match c with
    | .forwardMessage _ _ _ => true
    | .copyMessage _ _ _ => true
    | _ => false

/-- Repeated delivery of the same private message (one `handleUpdate` task
per copy, sequentially). -/
def runN (ctx : Ctx) (msg : Msg) : Nat → W → W
  | 0, w => w
  | n + 1, w => (handlePrivate ctx msg (runN ctx msg n w)).2

/-- Finite configuration valuation for concrete runs. -/
def mkCfg (l : List (String × String)) : String → String := fun k => (alook l k).getD ""

/-- HMAC oracle used by concrete counterexamples: constant digest `ab`. -/
def hmacAB : List Nat → List Nat → List Nat := fun _ _ => [171]

/-- Context of the `/submit_token` counterexamples: Turnstile verification
succeeds, QA is enabled, `initData.user` parses to id 7, clock at 5 s. -/
def ctxSubmit : Ctx :=
  { cfg := mkCfg [("enable_qa_verify", "true"), ("captcha_mode", "turnstile"), ("verif_q", "Q")]
    jsonp := fun s => if s = "x" then some (.o [("id", .i 7)]) else none
    re := fun _ _ => .ok false
    api := fun _ => .ok 99
    nowMs := 5000
    hmac := hmacAB
    siteverify := .ok true
    BOT_TOKEN := "tok" }

/-- Store with the single user 7 in its post-`/start` state. -/
def wSubmit : W := { users := [("7", { user_state := .s "pending_turnstile" })] }

/-- Context of the accrual scenarios: block keyword `spam`, threshold 3. -/
def ctxAccrual : Ctx :=
  { cfg := mkCfg [("block_keywords", "KW"), ("block_threshold", "3"), ("enable_verify", "true")]
    jsonp := fun s => if s = "KW" then some (.arr [.s "spam"]) else none
    re := fun p t => .ok (p = "spam" ∧ strIncludes t "spam")
    api := fun _ => .ok 42
    nowMs := 777000 }

def msgSpam : Msg :=
  { chatId := "5", fromUser := { id := "5", first_name := some "Al" }, text := some "spam here" }

def wVerified : W := { users := [("5", { user_state := .s "verified" })] }

/-- Context of the blocked-user scenarios: blacklist board topic 9. -/
def ctxBlocked : Ctx :=
  { cfg := mkCfg [("blocked_topic_id", "9"), ("enable_verify", "true"), ("welcome_msg", "hi")]
    jsonp := fun _ => none
    re := fun _ _ => .ok false
    api := fun _ => .ok 42
    nowMs := 1000
    WORKER_URL := "http://w"
    ADMIN_GROUP_ID := "-100777" }

/-- A blocked, verified user with a bound topic and a blacklist card. -/
def rowBlocked : Row :=
  { user_state := .s "verified", is_blocked := .i 1, block_count := .i 2,
    topic_id := .s "77", user_info_json := .o [("blacklist_msg_id", .i 55)] }

def msgStart : Msg :=
  { chatId := "5", fromUser := { id := "5", first_name := some "Al" }, text := some "/start" }

def msgHello : Msg :=
  { chatId := "5", fromUser := { id := "5", first_name := some "Al" }, text := some "hello" }

def wBlocked : W := { users := [("5", rowBlocked)] }

/-- Context of the pipeline scenarios: auto-reply rule `price`, busy mode
off, all content switches default to enabled via absent keys being "". -/
def ctxPipeline : Ctx :=
  { cfg := mkCfg [("keyword_responses", "AR"), ("enable_text_forwarding", "true"),
                  ("unread_topic_id", "8")]
    jsonp := fun s => if s = "AR" then some (.arr [.o [("keywords", .s "price"), ("response", .s "call us")]]) else none
    re := fun p t => .ok (p = "price" ∧ strIncludes t "price")
    api := fun _ => .ok 42
    nowMs := 1000
    ADMIN_GROUP_ID := "-100777" }

def msgPrice : Msg :=
  { chatId := "5", fromUser := { id := "5", first_name := some "Al" }, text := some "price?" }

/-- A verified user already bound to topic 77. -/
def rowTopic : Row := { user_state := .s "verified", topic_id := .s "77" }

def wTopic : W := { users := [("5", rowTopic)] }

/-- The world `w'` extends the API trace of `w` (the handler between the two
only appended calls). -/
def traceExt (w w' : W) : Prop := ∃ t, w'.trace = w.trace ++ t

/-- The world `w'` extends the trace of `w` by calls none of which is a
relay attempt (`forwardMessage`/`copyMessage`). -/
def relayFreeExt (w w' : W) : Prop :=
  ∃ t, w'.trace = w.trace ++ t ∧ relayAttempted t = false

/-- The `is_blocked` and `block_count` columns of `uid`'s row agree between
two worlds (the step between them wrote neither column). -/
def keepBC (uid : String) (w w' : W) : Prop :=
  (alook w'.users uid).map Row.is_blocked = (alook w.users uid).map Row.is_blocked ∧
  (alook w'.users uid).map Row.block_count = (alook w.users uid).map Row.block_count

/-- All five columns of `uid`'s row except `user_info_json` agree between two
worlds. -/
def keep4 (uid : String) (w w' : W) : Prop :=
  (alook w'.users uid).map Row.user_state = (alook w.users uid).map Row.user_state ∧
  (alook w'.users uid).map Row.is_blocked = (alook w.users uid).map Row.is_blocked ∧
  (alook w'.users uid).map Row.block_count = (alook w.users uid).map Row.block_count ∧
  (alook w'.users uid).map Row.topic_id = (alook w.users uid).map Row.topic_id

-- ===========================================================================
-- Shared lemmas about the users table
-- ===========================================================================

theorem alook_map_ne {f : Row → Row} (id uid : String) (h : uid ≠ id) :
    ∀ users : Users,
      alook (users.map fun ur => if ur.1 = id then (ur.1, f ur.2) else ur) uid
        = alook users uid := by
  intro users
  induction users with
  | nil => rfl
  | cons p r ih =>
    obtain ⟨k, v⟩ := p
    simp only [List.map_cons]
    split
    · next heq =>
        have hk : k = id := heq
        have hku : ¬ (k = uid) := fun e => h (e.symm.trans hk)
        simp [alook, hku, ih]
    · next hne =>
        by_cases hu : k = uid
        · simp [alook, hu]
        · simp [alook, hu, ih]

theorem alook_map_self {f : Row → Row} (id : String) :
    ∀ users : Users,
      alook (users.map fun ur => if ur.1 = id then (ur.1, f ur.2) else ur) id
        = (alook users id).map f := by
  intro users
  induction users with
  | nil => rfl
  | cons p r ih =>
    obtain ⟨k, v⟩ := p
    simp only [List.map_cons]
    split
    · next heq =>
        have hk : k = id := heq
        simp [alook, hk]
    · next hne =>
        have hk : ¬ (k = id) := hne
        simp [alook, hk, ih]

theorem setCol_ne_user_state (r : Row) (k : String) (v : PV) (hk : k ≠ "user_state") :
    (setCol r k v).user_state = r.user_state := by
  unfold setCol
  repeat' split
  all_goals first | rfl | exact absurd (by assumption) hk

theorem setCol_ne_is_blocked (r : Row) (k : String) (v : PV) (hk : k ≠ "is_blocked") :
    (setCol r k v).is_blocked = r.is_blocked := by
  unfold setCol
  repeat' split
  all_goals first | rfl | exact absurd (by assumption) hk

theorem setCol_ne_block_count (r : Row) (k : String) (v : PV) (hk : k ≠ "block_count") :
    (setCol r k v).block_count = r.block_count := by
  unfold setCol
  repeat' split
  all_goals first | rfl | exact absurd (by assumption) hk

theorem setCol_ne_topic_id (r : Row) (k : String) (v : PV) (hk : k ≠ "topic_id") :
    (setCol r k v).topic_id = r.topic_id := by
  unfold setCol
  repeat' split
  all_goals first | rfl | exact absurd (by assumption) hk

theorem setCol_ne_user_info_json (r : Row) (k : String) (v : PV) (hk : k ≠ "user_info_json") :
    (setCol r k v).user_info_json = r.user_info_json := by
  unfold setCol
  repeat' split
  all_goals first | rfl | exact absurd (by assumption) hk

theorem foldl_setCol_user_state (g : String → PV) :
    ∀ ks : List String, "user_state" ∉ ks →
      ∀ r : Row, (ks.foldl (fun r k => setCol r k (g k)) r).user_state = r.user_state := by
  intro ks
  induction ks with
  | nil => intro _ r; rfl
  | cons k t ih =>
    intro h r
    have hk : k ≠ "user_state" := fun e => h (e ▸ List.mem_cons_self k t)
    have ht : "user_state" ∉ t := fun e => h (List.mem_cons_of_mem k e)
    rw [List.foldl_cons, ih ht, setCol_ne_user_state r k (g k) hk]

theorem foldl_setCol_is_blocked (g : String → PV) :
    ∀ ks : List String, "is_blocked" ∉ ks →
      ∀ r : Row, (ks.foldl (fun r k => setCol r k (g k)) r).is_blocked = r.is_blocked := by
  intro ks
  induction ks with
  | nil => intro _ r; rfl
  | cons k t ih =>
    intro h r
    have hk : k ≠ "is_blocked" := fun e => h (e ▸ List.mem_cons_self k t)
    have ht : "is_blocked" ∉ t := fun e => h (List.mem_cons_of_mem k e)
    rw [List.foldl_cons, ih ht, setCol_ne_is_blocked r k (g k) hk]

theorem foldl_setCol_block_count (g : String → PV) :
    ∀ ks : List String, "block_count" ∉ ks →
      ∀ r : Row, (ks.foldl (fun r k => setCol r k (g k)) r).block_count = r.block_count := by
  intro ks
  induction ks with
  | nil => intro _ r; rfl
  | cons k t ih =>
    intro h r
    have hk : k ≠ "block_count" := fun e => h (e ▸ List.mem_cons_self k t)
    have ht : "block_count" ∉ t := fun e => h (List.mem_cons_of_mem k e)
    rw [List.foldl_cons, ih ht, setCol_ne_block_count r k (g k) hk]

theorem foldl_setCol_topic_id (g : String → PV) :
    ∀ ks : List String, "topic_id" ∉ ks →
      ∀ r : Row, (ks.foldl (fun r k => setCol r k (g k)) r).topic_id = r.topic_id := by
  intro ks
  induction ks with
  | nil => intro _ r; rfl
  | cons k t ih =>
    intro h r
    have hk : k ≠ "topic_id" := fun e => h (e ▸ List.mem_cons_self k t)
    have ht : "topic_id" ∉ t := fun e => h (List.mem_cons_of_mem k e)
    rw [List.foldl_cons, ih ht, setCol_ne_topic_id r k (g k) hk]

theorem foldl_setCol_user_info_json (g : String → PV) :
    ∀ ks : List String, "user_info_json" ∉ ks →
      ∀ r : Row, (ks.foldl (fun r k => setCol r k (g k)) r).user_info_json = r.user_info_json := by
  intro ks
  induction ks with
  | nil => intro _ r; rfl
  | cons k t ih =>
    intro h r
    have hk : k ≠ "user_info_json" := fun e => h (e ▸ List.mem_cons_self k t)
    have ht : "user_info_json" ∉ t := fun e => h (List.mem_cons_of_mem k e)
    rw [List.foldl_cons, ih ht, setCol_ne_user_info_json r k (g k) hk]

theorem updUser_eq (id : String) (data : List (String × PV)) (users : Users) :
    updUser id data users =
      if (updCols id data users).isEmpty then users
      else
        users.map fun ur =>
          if ur.1 = id then
            (ur.1, (updCols id data users).foldl
              (fun r k => setCol r k (updConv ((alook (updRewriteInfo id data users) k).getD .nul))) ur.2)
          else ur := by
  unfold updUser updCols
  rcases h : updRewriteInfo id data users with _ | ⟨p, t⟩
  · simp
  · simp [List.isEmpty]

/-- C10: `updUser(id, patch)` can change only the five whitelisted columns
of the target row: rows of other users are untouched, a patch with no
whitelisted key (after the `user_info → user_info_json` rewrite) performs no
store write at all, and every column not named by a surviving patch key
keeps its value. -/
theorem C10_updUser_frame (id : String) (data : List (String × PV)) (users : Users) :
    (∀ uid, uid ≠ id → alook (updUser id data users) uid = alook users uid)
  ∧ (updCols id data users = [] → updUser id data users = users)
  ∧ (∀ r r', alook users id = some r → alook (updUser id data users) id = some r' →
      ("user_state" ∉ updCols id data users → r'.user_state = r.user_state)
    ∧ ("is_blocked" ∉ updCols id data users → r'.is_blocked = r.is_blocked)
    ∧ ("block_count" ∉ updCols id data users → r'.block_count = r.block_count)
    ∧ ("topic_id" ∉ updCols id data users → r'.topic_id = r.topic_id)
    ∧ ("user_info_json" ∉ updCols id data users → r'.user_info_json = r.user_info_json)) := by
  rw [updUser_eq]
  by_cases he : (updCols id data users).isEmpty
  · rw [if_pos he]
    refine ⟨fun _ _ => rfl, fun _ => rfl, fun r r' hr hr' => ?_⟩
    rw [hr] at hr'
    cases hr'
    exact ⟨fun _ => rfl, fun _ => rfl, fun _ => rfl, fun _ => rfl, fun _ => rfl⟩
  · rw [if_neg he]
    refine ⟨fun uid hne =>
      @alook_map_ne
        (fun r => (updCols id data users).foldl
          (fun r k => setCol r k (updConv ((alook (updRewriteInfo id data users) k).getD PV.nul))) r)
        id uid hne users, ?_, ?_⟩
    · intro hnil
      exact absurd (List.isEmpty_iff.mpr hnil) he
    · intro r r' hr hr'
      rw [@alook_map_self
        (fun r => (updCols id data users).foldl
          (fun r k => setCol r k (updConv ((alook (updRewriteInfo id data users) k).getD PV.nul))) r)
        id users, hr] at hr'
      cases hr'
      exact ⟨fun hm => foldl_setCol_user_state _ _ hm r,
             fun hm => foldl_setCol_is_blocked _ _ hm r,
             fun hm => foldl_setCol_block_count _ _ hm r,
             fun hm => foldl_setCol_topic_id _ _ hm r,
             fun hm => foldl_setCol_user_info_json _ _ hm r⟩

/-- Witness for C10 at a concrete store and patch: the patch
`{user_state: "verified", evil: "x"}` touches only user 5's `user_state`;
a patch with only non-whitelisted keys writes nothing. -/
theorem C10_updUser_frame_witness :
    alook (updUser "5" [("user_state", PV.s "verified"), ("evil", PV.s "x")]
      [("5", defaultRow), ("6", defaultRow)]) "6"
        = alook [("5", defaultRow), ("6", defaultRow)] "6"
  ∧ updUser "5" [("evil", PV.s "x")] [("5", defaultRow), ("6", defaultRow)]
      = [("5", defaultRow), ("6", defaultRow)]
  ∧ ∀ r r',
      alook [("5", defaultRow), ("6", defaultRow)] "5" = some r →
      alook (updUser "5" [("user_state", PV.s "verified"), ("evil", PV.s "x")]
        [("5", defaultRow), ("6", defaultRow)]) "5" = some r' →
      r'.topic_id = r.topic_id := by
  refine ⟨(C10_updUser_frame "5" _ _).1 "6" (by decide), ?_, ?_⟩
  · exact (C10_updUser_frame "5" [("evil", PV.s "x")] _).2.1 (by decide)
  · intro r r' hr hr'
    exact (((C10_updUser_frame "5" _ _).2.2 r r' hr hr').2.2.2.1 (by decide))

theorem alook_updUser_ne (id uid : String) (h : uid ≠ id) (data : List (String × PV))
    (users : Users) : alook (updUser id data users) uid = alook users uid := by
  rw [updUser_eq]
  by_cases he : (updCols id data users).isEmpty
  · rw [if_pos he]
  · rw [if_neg he]
    exact @alook_map_ne
      (fun r => (updCols id data users).foldl
        (fun r k => setCol r k (updConv ((alook (updRewriteInfo id data users) k).getD PV.nul))) r)
      id uid h users

theorem alook_append_single_ne (id uid : String) (h : uid ≠ id) (r0 : Row) :
    ∀ users : Users, alook (users ++ [(id, r0)]) uid = alook users uid := by
  intro users
  induction users with
  | nil => simp [alook, Ne.symm h]
  | cons p t ih =>
    by_cases hp : p.1 = uid
    · simp [alook, hp]
    · simp [alook, hp, ih]

theorem callApi_users (c : ApiCall) (ctx : Ctx) (w : W) :
    (callApi c ctx w).2.users = w.users := rfl

theorem getUserW_users_alook_ne (id uid : String) (h : uid ≠ id) (w : W) :
    alook (getUserW id w).2.users uid = alook w.users uid := by
  unfold getUserW
  rcases hr : alook w.users id with _ | r
  · simp [alook_append_single_ne id uid h defaultRow]
  · rfl

theorem sendInfoCard_users_alook_ne (ctx : Ctx) (u : UserObj) (tg : TgUser) (tid : String)
    (d : Option Int) (w : W) (uid : String) (h : uid ≠ u.user_id) :
    alook (sendInfoCardToTopic ctx u tg tid d w).2.users uid = alook w.users uid := by
  unfold sendInfoCardToTopic
  rcases ha : callApi (.sendMessage ctx.ADMIN_GROUP_ID (getUMeta tg u (d.getD (ctx.nowMs / 1000))).card) ctx w
    with ⟨e | cardId, w'⟩
  · simp only [ha]
    have : w'.users = w.users := by
      have := callApi_users (.sendMessage ctx.ADMIN_GROUP_ID (getUMeta tg u (d.getD (ctx.nowMs / 1000))).card) ctx w
      rw [ha] at this
      exact this
    rw [this]
  · simp only [ha, updUserW, ignoreE, callApi_users]
    have hw' : w'.users = w.users := by
      have := callApi_users (.sendMessage ctx.ADMIN_GROUP_ID (getUMeta tg u (d.getD (ctx.nowMs / 1000))).card) ctx w
      rw [ha] at this
      exact this
    simp [alook_updUser_ne u.user_id uid h, hw']

theorem submitProvisionTopic_users_ne (ctx : Ctx) (uidT uid : String) (h : uid ≠ uidT)
    (w : W) : alook (submitProvisionTopic ctx uidT w).2.users uid = alook w.users uid := by
  unfold submitProvisionTopic
  have hu : (getUserW uidT w).1.user_id = uidT := by
    unfold getUserW
    rcases alook w.users uidT with _ | r <;> rfl
  have hg : alook (getUserW uidT w).2.users uid = alook w.users uid :=
    getUserW_users_alook_ne uidT uid h w
  by_cases htop : pvTruthy (getUserW uidT w).1.topic_id
  · simp [htop, hg]
  · simp only [htop, Bool.not_eq_true, bindE, callApi]
    rcases ha : ctx.api (getUserW uidT w).2.nApi with v | e
    · simp only [ha, if_true]
      rw [sendInfoCard_users_alook_ne]
      · simp only [updUserW]
        rw [alook_updUser_ne uidT uid h]
        exact hg
      · simpa [hu] using h
    · simpa [ha] using hg

/-- C1: the user promoted by `/submit_token` is identified solely by the id
inside the HMAC-verified `initData`: the handler's entire outcome is
independent of the request body's `userId` field, and any user row the
handler touches belongs to the id that `verifyTelegramInitData` extracted
from `initData.user.id`. -/
theorem C1_submit_binds_initData_user (ctx : Ctx) (body : SubmitBody) (w : W) (u1 u2 : PV) :
    handleTokenSubmit ctx { body with userId := u1 } w
      = handleTokenSubmit ctx { body with userId := u2 } w
  ∧ (∀ uid,
      (∀ p, verifyTelegramInitData ctx.hmac ctx.jsonp (ctx.nowMs / 1000)
          (if pvTruthy body.initData then pvToStr body.initData else "") ctx.BOT_TOKEN 600
        = .ok p → uid ≠ p.userId) →
      alook (handleTokenSubmit ctx body w).2.users uid = alook w.users uid) := by
  constructor
  · rfl
  · intro uid hud
    unfold handleTokenSubmit
    rcases hsv : ctx.siteverify with e | b
    · simp [hsv]
    · cases b
      · simp [hsv]
      · simp only [hsv]
        by_cases hid : (if pvTruthy body.initData then pvToStr body.initData else "") = ""
        · simp [hid]
        · rcases hv : verifyTelegramInitData ctx.hmac ctx.jsonp (ctx.nowMs / 1000)
              (if pvTruthy body.initData then pvToStr body.initData else "") ctx.BOT_TOKEN 600
            with e | p
          · simp [hv, hid]
          · by_cases hu0 : p.userId = ""
            · simp [hv, hid, hu0]
            · have hne : uid ≠ p.userId := hud p hv
              by_cases hqa : getBoolC ctx "enable_qa_verify"
              · simp only [hv, hid, hu0, hqa, if_neg, if_pos, ite_false, ite_true]
                simp only [callApi, updUserW]
                rcases ha1 : ctx.api w.nApi with v | e
                · simp [ha1, alook_updUser_ne p.userId uid hne]
                · simp [ha1, alook_updUser_ne p.userId uid hne]
              · simp only [hv, hid, hu0, hqa]
                simp only [callApi, bindE, updUserW]
                rcases ha1 : ctx.api w.nApi with v | e
                · simp only [ha1, if_false, Bool.false_eq_true, ite_false]
                  rcases hr : submitProvisionTopic ctx p.userId
                      { users := updUser p.userId [("user_state", PV.s "verified")] w.users,
                        msgs := w.msgs, cfgWrites := w.cfgWrites, locks := w.locks,
                        trace := w.trace ++ [ApiCall.sendMessage p.userId "✅ 验证通过！"],
                        nApi := w.nApi + 1 }
                    with ⟨res, w'⟩
                  have hfr := submitProvisionTopic_users_ne ctx p.userId uid hne
                      { users := updUser p.userId [("user_state", PV.s "verified")] w.users,
                        msgs := w.msgs, cfgWrites := w.cfgWrites, locks := w.locks,
                        trace := w.trace ++ [ApiCall.sendMessage p.userId "✅ 验证通过！"],
                        nApi := w.nApi + 1 }
                  rw [hr] at hfr
                  cases res <;>
                    · refine hfr.trans ?_
                      show alook (updUser p.userId [("user_state", PV.s "verified")] w.users) uid
                        = alook w.users uid
                      exact alook_updUser_ne p.userId uid hne _ _
                · simp [ha1, alook_updUser_ne p.userId uid hne]

-- ===========================================================================
-- C2: initData verification
-- ===========================================================================

theorem nat_or_eq_zero (a b : Nat) : a ||| b = 0 ↔ a = 0 ∧ b = 0 := by
  constructor
  · intro h
    have ha := Nat.testBit_or a b
    constructor
    · apply Nat.eq_of_testBit_eq
      intro i
      have := ha i
      rw [h] at this
      simp at this
      simp [this.1]
    · apply Nat.eq_of_testBit_eq
      intro i
      have := ha i
      rw [h] at this
      simp at this
      simp [this.2]
  · rintro ⟨rfl, rfl⟩
    rfl

theorem foldl_or_eq_zero (l : List Nat) :
    ∀ a, (l.foldl (fun r x => r ||| x) a = 0) ↔ (a = 0 ∧ ∀ x ∈ l, x = 0) := by
  induction l with
  | nil => intro a; simp
  | cons x t ih =>
    intro a
    rw [List.foldl_cons, ih (a ||| x)]
    rw [nat_or_eq_zero]
    constructor
    · rintro ⟨⟨ha, hx⟩, ht⟩
      exact ⟨ha, by simpa [hx] using ht⟩
    · rintro ⟨ha, ht⟩
      refine ⟨⟨ha, ht x (List.mem_cons_self x t)⟩, fun y hy => ht y (List.mem_cons_of_mem x hy)⟩

theorem char_toNat_inj (a b : Char) (h : a.toNat = b.toNat) : a = b := by
  apply Char.eq_of_val_eq
  apply UInt32.eq_of_toBitVec_eq
  apply BitVec.eq_of_toNat_eq
  exact h

theorem strMkData (s : String) : String.mk s.data = s := by
  cases s
  rfl

theorem zip_xor_all_zero : ∀ (xs ys : List Char), xs.length = ys.length →
    ((∀ z ∈ List.zipWith (fun x y => x ^^^ y) (xs.map Char.toNat) (ys.map Char.toNat), z = 0)
      ↔ xs = ys) := by
  intro xs
  induction xs with
  | nil =>
    intro ys h
    cases ys with
    | nil => simp
    | cons b t => simp at h
  | cons a s ih =>
    intro ys h
    cases ys with
    | nil => simp at h
    | cons b t =>
      simp only [List.map_cons, List.zipWith_cons_cons, List.mem_cons, List.length_cons] at h ⊢
      rw [List.cons.injEq]
      constructor
      · intro hz
        have h1 : a = b := char_toNat_inj a b (Nat.xor_eq_zero.mp (hz _ (Or.inl rfl)))
        have h2 : s = t := (ih t (Nat.succ_injective h)).mp fun z hz' => hz z (Or.inr hz')
        exact ⟨h1, h2⟩
      · rintro ⟨rfl, rfl⟩
        intro z hz
        rcases hz with h1 | h2
        · rw [h1]; exact Nat.xor_eq_zero.mpr rfl
        · exact ((ih s rfl).mpr rfl) z h2

theorem timingSafeEqualHex_eq (a b : String) :
    timingSafeEqualHex a b = decide (jsToLower a = jsToLower b) := by
  unfold timingSafeEqualHex
  by_cases hl : ((jsToLower a).data.map Char.toNat).length
      = ((jsToLower b).data.map Char.toNat).length
  · rw [if_neg (by simpa using hl)]
    have hlen : (jsToLower a).data.length = (jsToLower b).data.length := by simpa using hl
    have key : (List.foldl (fun r x => r ||| x) 0
        (List.zipWith (fun x y => x ^^^ y) ((jsToLower a).data.map Char.toNat)
          ((jsToLower b).data.map Char.toNat)) = 0) ↔ (jsToLower a = jsToLower b) := by
      rw [foldl_or_eq_zero]
      constructor
      · rintro ⟨-, hz⟩
        have hd := (zip_xor_all_zero _ _ hlen).mp hz
        calc jsToLower a = String.mk (jsToLower a).data := (strMkData _).symm
          _ = String.mk (jsToLower b).data := by rw [hd]
          _ = jsToLower b := strMkData _
      · intro he
        exact ⟨rfl, (zip_xor_all_zero _ _ hlen).mpr (congrArg String.data he)⟩
    exact decide_eq_decide.mpr key
  · rw [if_pos (by simpa using hl)]
    have hne : jsToLower a ≠ jsToLower b := fun e => hl (by rw [e])
    simp [hne]

theorem hexDigitChar_lower : ∀ n : Nat, n < 16 → Char.toLower (hexDigitChar n) = hexDigitChar n := by
  decide

theorem bytesToHex_lower (bs : List Nat) : jsToLower (bytesToHex bs) = bytesToHex bs := by
  unfold jsToLower bytesToHex
  congr 1
  show List.map Char.toLower
      (bs.foldr (fun b acc => hexDigitChar (b / 16 % 16) :: hexDigitChar (b % 16) :: acc) []) = _
  induction bs with
  | nil => rfl
  | cons x t ih =>
    simp only [List.foldr_cons, List.map_cons]
    rw [hexDigitChar_lower _ (Nat.mod_lt _ (by norm_num)),
        hexDigitChar_lower _ (Nat.mod_lt _ (by norm_num)), ih]

/-- C2 (amended): `verifyTelegramInitData` accepts an initData string iff
it carries a nonempty `hash` value, an `auth_date` that `parseInt` reads as
a nonzero integer at most 600 seconds old, and the lowercase-hex
HMAC-SHA256 — keyed by HMAC-SHA256(key="WebAppData", data=bot_token) — of
the remaining pairs sorted ascending by key and joined by newlines equals
the supplied hash after lowercasing it (the comparison is
case-insensitive). -/
theorem C2_initData_accept_amended (hmac : List Nat → List Nat → List Nat)
    (jsonp : String → Option PV) (now : Int) (s tok : String) :
    exOk (verifyTelegramInitData hmac jsonp now s tok 600)
      = initDataAcceptAmended hmac now s tok := by
  simp only [verifyTelegramInitData, initDataAcceptAmended]
  by_cases h1 : ((paramsGet (formDecodePairs s) "hash").getD "") = ""
  · simp [h1, exOk]
  · rw [if_neg h1]
    rcases hp : jsParseInt ((paramsGet (formDecodePairs s) "auth_date").getD "") with _ | n
    · simp [hp, exOk, h1]
    · simp only [hp]
      by_cases h0 : n = 0
      · simp [h0, exOk, h1]
      · rw [if_neg h0]
        by_cases hgt : now - n > 600
        · have he : (600 : Int) ≠ 0 ∧ now - n > 600 := ⟨by norm_num, hgt⟩
          have hle : ¬ (now - n ≤ 600) := not_le.mpr hgt
          simp [he, hle, exOk, h0, h1]
        · have he : ¬ ((600 : Int) ≠ 0 ∧ now - n > 600) := fun h => hgt h.2
          have hle : now - n ≤ 600 := le_of_not_lt hgt
          rw [if_neg he]
          by_cases ht : timingSafeEqualHex
              (bytesToHex (hmac (hmac (strToBytes "WebAppData") (strToBytes tok))
                (strToBytes (String.intercalate "\n"
                  ((sortPairs ((formDecodePairs s).filter fun p => p.1 ≠ "hash")).map
                    fun p => p.1 ++ "=" ++ p.2)))))
              ((paramsGet (formDecodePairs s) "hash").getD "")
          · rw [if_neg (by simpa using ht)]
            have := ht
            rw [timingSafeEqualHex_eq, bytesToHex_lower, decide_eq_true_eq] at this
            simp [exOk, h1, h0, hle, this.symm]
          · rw [if_pos (by simpa using ht)]
            have : ¬ (jsToLower ((paramsGet (formDecodePairs s) "hash").getD "")
                = bytesToHex (hmac (hmac (strToBytes "WebAppData") (strToBytes tok))
                  (strToBytes (String.intercalate "\n"
                    ((sortPairs ((formDecodePairs s).filter fun p => p.1 ≠ "hash")).map
                      fun p => p.1 ++ "=" ++ p.2))))) := by
              intro e
              apply ht
              rw [timingSafeEqualHex_eq, bytesToHex_lower]
              exact decide_eq_true_eq.mpr e.symm
            simp only [exOk, h1, h0, hle]
            simp [h1, h0, hle]
            simpa using this

/-- C2 counterexample: the claim's acceptance condition requires the
lowercase-hex digest to equal the supplied hash, but the worker lowercases
the supplied hash before comparing: with an HMAC oracle whose digest is
`ab`, the initData `auth_date=5&hash=AB` is accepted by
`verifyTelegramInitData` while the claim's condition rejects it, so the
claimed "if and only if" is false on this input. -/
theorem C2_counterexample_uppercase_hash :
    exOk (verifyTelegramInitData hmacAB (fun _ => none) 5 "auth_date=5&hash=AB" "tok" 600) = true
  ∧ initDataSpecAccepts hmacAB 5 "auth_date=5&hash=AB" "tok" = false := by
  constructor <;> rfl

-- ===========================================================================
-- C3: failing /submit_token requests
-- ===========================================================================

/-- C3 (amended): every `/submit_token` request that fails captcha
re-verification, carries no `initData`, carries an expired `auth_date`, or
carries a hash that does not match the recomputed digest (after
case-normalization) is answered with HTTP 400 `{success:false, error}` and
leaves the entire store — user rows, messages, configuration — unchanged;
a tampering of `initData` is rejected exactly when it changes the parsed
parameters or the case-normalized hash. -/
theorem C3_submit_failure_amended (ctx : Ctx) (body : SubmitBody) (w : W) :
    (ctx.siteverify = .ok false →
      handleTokenSubmit ctx body w
        = ({ status := 400, success := false, error := some "Token Invalid" }, w))
  ∧ (ctx.siteverify = .ok true →
      (if pvTruthy body.initData then pvToStr body.initData else "") = "" →
      handleTokenSubmit ctx body w
        = ({ status := 400, success := false, error := some "Missing initData" }, w))
  ∧ (∀ s e, ctx.siteverify = .ok true →
      (if pvTruthy body.initData then pvToStr body.initData else "") = s → s ≠ "" →
      verifyTelegramInitData ctx.hmac ctx.jsonp (ctx.nowMs / 1000) s ctx.BOT_TOKEN 600
        = .error e →
      handleTokenSubmit ctx body w
        = ({ status := 400, success := false, error := some (jsOrS e "failed") }, w))
  ∧ (∀ s n, (paramsGet (formDecodePairs s) "hash").getD "" ≠ "" →
      jsParseInt ((paramsGet (formDecodePairs s) "auth_date").getD "") = some n → n ≠ 0 →
      ctx.nowMs / 1000 - n > 600 →
      verifyTelegramInitData ctx.hmac ctx.jsonp (ctx.nowMs / 1000) s ctx.BOT_TOKEN 600
        = .error "initData expired")
  ∧ (∀ s n, (paramsGet (formDecodePairs s) "hash").getD "" ≠ "" →
      jsParseInt ((paramsGet (formDecodePairs s) "auth_date").getD "") = some n → n ≠ 0 →
      ¬ (ctx.nowMs / 1000 - n > 600) →
      timingSafeEqualHex
        (bytesToHex (ctx.hmac (ctx.hmac (strToBytes "WebAppData") (strToBytes ctx.BOT_TOKEN))
          (strToBytes (String.intercalate "\n"
            ((sortPairs ((formDecodePairs s).filter fun p => p.1 ≠ "hash")).map
              fun p => p.1 ++ "=" ++ p.2)))))
        ((paramsGet (formDecodePairs s) "hash").getD "") = false →
      verifyTelegramInitData ctx.hmac ctx.jsonp (ctx.nowMs / 1000) s ctx.BOT_TOKEN 600
        = .error "initData hash mismatch") := by
  refine ⟨?_, ?_, ?_, ?_, ?_⟩
  · intro hsv
    simp [handleTokenSubmit, hsv, jsOrS]
  · intro hsv hid
    simp [handleTokenSubmit, hsv, hid, jsOrS]
  · intro s e hsv hid hne hv
    simp [handleTokenSubmit, hsv, hid, hne, hv]
  · intro s n hh hp h0 hgt
    simp only [verifyTelegramInitData]
    rw [if_neg (by simpa using hh), hp]
    simp only [h0, ite_false, if_neg]
    rw [if_pos ⟨by norm_num, hgt⟩]
  · intro s n hh hp h0 hgt ht
    simp only [verifyTelegramInitData]
    rw [if_neg (by simpa using hh), hp]
    simp only [h0, ite_false, if_neg]
    rw [if_neg (fun h : (600 : Int) ≠ 0 ∧ _ => hgt h.2)]
    rw [if_pos (by simpa using ht)]

/-- Witness for C3 at concrete requests: a failed captcha, a missing
initData, an expired auth_date and a wrong hash each produce the 400
response with the untouched store. -/
theorem C3_submit_failure_amended_witness :
    handleTokenSubmit { ctxSubmit with siteverify := Except.ok false }
        { initData := PV.s "auth_date=5&hash=ab" } wSubmit
      = ({ status := 400, success := false, error := some "Token Invalid" }, wSubmit)
  ∧ handleTokenSubmit ctxSubmit { initData := PV.nul } wSubmit
      = ({ status := 400, success := false, error := some "Missing initData" }, wSubmit)
  ∧ handleTokenSubmit { ctxSubmit with nowMs := 700000 }
        { initData := PV.s "auth_date=5&hash=ab" } wSubmit
      = ({ status := 400, success := false, error := some "initData expired" }, wSubmit)
  ∧ handleTokenSubmit ctxSubmit { initData := PV.s "auth_date=5&hash=ff" } wSubmit
      = ({ status := 400, success := false, error := some "initData hash mismatch" }, wSubmit)
  ∧ verifyTelegramInitData ctxSubmit.hmac ctxSubmit.jsonp 700 "auth_date=5&hash=ab"
        ctxSubmit.BOT_TOKEN 600 = .error "initData expired"
  ∧ verifyTelegramInitData ctxSubmit.hmac ctxSubmit.jsonp 5 "auth_date=5&hash=ff"
        ctxSubmit.BOT_TOKEN 600 = .error "initData hash mismatch" := by
  refine ⟨(C3_submit_failure_amended { ctxSubmit with siteverify := Except.ok false }
            { initData := PV.s "auth_date=5&hash=ab" } wSubmit).1 rfl,
          (C3_submit_failure_amended ctxSubmit { initData := PV.nul } wSubmit).2.1 rfl rfl,
          ?_, ?_, ?_, ?_⟩
  · exact (C3_submit_failure_amended { ctxSubmit with nowMs := 700000 }
      { initData := PV.s "auth_date=5&hash=ab" } wSubmit).2.2.1
      "auth_date=5&hash=ab" "initData expired" rfl rfl (by decide) (by rfl)
  · exact (C3_submit_failure_amended ctxSubmit
      { initData := PV.s "auth_date=5&hash=ff" } wSubmit).2.2.1
      "auth_date=5&hash=ff" "initData hash mismatch" rfl rfl (by decide) (by rfl)
  · exact (C3_submit_failure_amended { ctxSubmit with nowMs := 700000 }
      { initData := PV.s "auth_date=5&hash=ab" } wSubmit).2.2.2.1
      "auth_date=5&hash=ab" 5 (by decide) (by rfl) (by decide) (by decide)
  · exact (C3_submit_failure_amended ctxSubmit
      { initData := PV.s "auth_date=5&hash=ff" } wSubmit).2.2.2.2
      "auth_date=5&hash=ff" 5 (by decide) (by rfl) (by decide) (by decide) (by rfl)

/-- C3 counterexample: flipping one byte of a valid `initData` — the hash
hex digit `b` to `B` — does not yield a 400: the worker still answers 200
and promotes the user, because the hash comparison lowercases the supplied
hash.  The original and tampered strings have equal length and differ in
exactly one position. -/
theorem C3_counterexample_tampered_byte_accepted :
    (handleTokenSubmit ctxSubmit { initData := PV.s "auth_date=5&hash=ab&user=x" } wSubmit).1.status
      = 200
  ∧ (handleTokenSubmit ctxSubmit { initData := PV.s "auth_date=5&hash=aB&user=x" } wSubmit).1.status
      = 200
  ∧ (handleTokenSubmit ctxSubmit { initData := PV.s "auth_date=5&hash=aB&user=x" } wSubmit).1.success
      = true
  ∧ alook wSubmit.users "7" = some { user_state := PV.s "pending_turnstile" }
  ∧ alook (handleTokenSubmit ctxSubmit
      { initData := PV.s "auth_date=5&hash=aB&user=x" } wSubmit).2.users "7"
      = some { user_state := PV.s "pending_verification" }
  ∧ ((List.zipWith (fun a b => decide (a ≠ b)) "auth_date=5&hash=ab&user=x".data
      "auth_date=5&hash=aB&user=x".data).count true) = 1
  ∧ "auth_date=5&hash=ab&user=x".data.length = "auth_date=5&hash=aB&user=x".data.length := by
  exact ⟨rfl, rfl, rfl, rfl, rfl, by decide, by decide⟩

/-- Witness for C1 at a concrete request: the body's `userId` field (999
vs 42) does not change the outcome, and user 999's row is untouched — only
user 7, the id inside the verified initData, is. -/
theorem C1_submit_binds_initData_user_witness :
    handleTokenSubmit ctxSubmit
        { initData := PV.s "auth_date=5&hash=ab&user=x", userId := PV.s "999" } wSubmit
      = handleTokenSubmit ctxSubmit
        { initData := PV.s "auth_date=5&hash=ab&user=x", userId := PV.s "42" } wSubmit
  ∧ alook (handleTokenSubmit ctxSubmit
        { initData := PV.s "auth_date=5&hash=ab&user=x" } wSubmit).2.users "999"
      = alook wSubmit.users "999" := by
  refine ⟨(C1_submit_binds_initData_user ctxSubmit
    { initData := PV.s "auth_date=5&hash=ab&user=x" } wSubmit (PV.s "999") (PV.s "42")).1, ?_⟩
  refine (C1_submit_binds_initData_user ctxSubmit
    { initData := PV.s "auth_date=5&hash=ab&user=x" } wSubmit PV.nul PV.nul).2 "999" ?_
  intro p hp
  have h0 : verifyTelegramInitData ctxSubmit.hmac ctxSubmit.jsonp (ctxSubmit.nowMs / 1000)
      (if pvTruthy (PV.s "auth_date=5&hash=ab&user=x")
        then pvToStr (PV.s "auth_date=5&hash=ab&user=x") else "") ctxSubmit.BOT_TOKEN 600
      = .ok ⟨"7", 5⟩ := by rfl
  rw [h0] at hp
  injection hp with h
  rw [← h]
  decide

-- ===========================================================================
-- C9: configuration resolution
-- ===========================================================================

/-- C9 counterexample: the claim says the fallback environment variable is
the uppercased key with a suffix rewrite, other keys merely uppercased.
The code instead rewrites the first occurrence of `_MSG`/`_Q`/`_A`
anywhere: for `authorized_admins` it consults `AUTHORIZED_ANSWERDMINS`, so
an environment variable `AUTHORIZED_ADMINS` is ignored and the built-in
default is returned. -/
theorem C9_counterexample_env_key :
    envKeyOf "authorized_admins" = "AUTHORIZED_ANSWERDMINS"
  ∧ specEnvKey "authorized_admins" = "AUTHORIZED_ADMINS"
  ∧ envKeyOf "authorized_admins" ≠ specEnvKey "authorized_admins"
  ∧ (getCfg "authorized_admins" { data := [], ts := 0 } 0 (some [])
      (fun k => if k = "AUTHORIZED_ADMINS" then some "[\x225\x22]" else none)).1 = "[]" := by
  exact ⟨rfl, rfl, by decide, rfl⟩

/-- C9 (amended): `getCfg` resolves a key as: the cached value when the
cache is fresh (nonzero timestamp, younger than the 60 s TTL) and holds the
key; otherwise all config rows are reloaded in one query and become the new
cache; a key absent from the store falls back to the environment variable
named by uppercasing the key and rewriting the first occurrence of
`_MSG`/`_Q`/`_A` to `_MESSAGE`/`_QUESTION`/`_ANSWER` (keys without such a
substring are merely uppercased); an unset or empty environment variable
falls back to the built-in default. -/
theorem C9_getCfg_resolution_amended (k : String) (cache : CacheSt) (now : Int)
    (rows : List (String × String)) (envv : String → Option String) (hk : k ≠ "") :
    (cache.ts ≠ 0 → now - cache.ts < 60000 → ∀ v, alook cache.data k = some v →
       getCfg k cache now (some rows) envv = (v, cache))
  ∧ (¬ (cache.ts ≠ 0 ∧ now - cache.ts < 60000 ∧ (alook cache.data k).isSome) →
       (getCfg k cache now (some rows) envv).2 = { data := rows, ts := now }
       ∧ ∀ v, alook rows k = some v → (getCfg k cache now (some rows) envv).1 = v)
  ∧ (¬ (cache.ts ≠ 0 ∧ now - cache.ts < 60000 ∧ (alook cache.data k).isSome) →
       alook rows k = none → ∀ v, envv (envKeyOf k) = some v → v ≠ "" →
       (getCfg k cache now (some rows) envv).1 = v)
  ∧ (¬ (cache.ts ≠ 0 ∧ now - cache.ts < 60000 ∧ (alook cache.data k).isSome) →
       alook rows k = none →
       (envv (envKeyOf k) = none ∨ envv (envKeyOf k) = some "") →
       (getCfg k cache now (some rows) envv).1 = (alook DEFAULTS k).getD "") := by
  refine ⟨?_, ?_, ?_, ?_⟩
  · intro h1 h2 v hv
    unfold getCfg
    rw [if_neg hk, if_pos ⟨h1, h2, by rw [hv]; rfl⟩, hv]
    rfl
  · intro hmiss
    unfold getCfg
    rw [if_neg hk, if_neg hmiss]
    refine ⟨rfl, ?_⟩
    intro v hv
    simp only [hv]
  · intro hmiss hrow v henv hne
    unfold getCfg
    rw [if_neg hk, if_neg hmiss]
    simp only [hrow, henv, hne, ite_false, if_neg]
  · intro hmiss hrow henv
    unfold getCfg
    rw [if_neg hk, if_neg hmiss]
    rcases henv with h | h <;> simp [hrow, h]

/-- Witness for C9 at concrete caches: a fresh cache hit, a reload, the
(rewritten-name) environment fallback, and the default fallback. -/
theorem C9_getCfg_resolution_amended_witness :
    getCfg "busy_mode" { data := [("busy_mode", "true")], ts := 10 } 20 (some []) (fun _ => none)
      = ("true", { data := [("busy_mode", "true")], ts := 10 })
  ∧ (getCfg "busy_mode" { data := [], ts := 0 } 20 (some [("busy_mode", "x")]) (fun _ => none)).1
      = "x"
  ∧ (getCfg "verif_q" { data := [], ts := 0 } 20 (some [])
      (fun k => if k = "VERIF_QUESTION" then some "env-q" else none)).1 = "env-q"
  ∧ (getCfg "busy_mode" { data := [], ts := 0 } 20 (some []) (fun _ => none)).1 = "false" := by
  refine ⟨?_, ?_, ?_, ?_⟩
  · exact (C9_getCfg_resolution_amended "busy_mode" { data := [("busy_mode", "true")], ts := 10 }
      20 [] (fun _ => none) (by decide)).1 (by decide) (by decide) "true" rfl
  · exact ((C9_getCfg_resolution_amended "busy_mode" { data := [], ts := 0 }
      20 [("busy_mode", "x")] (fun _ => none) (by decide)).2.1 (by simp)).2 "x" rfl
  · exact (C9_getCfg_resolution_amended "verif_q" { data := [], ts := 0 }
      20 [] (fun k => if k = "VERIF_QUESTION" then some "env-q" else none) (by decide)).2.2.1
      (by simp) rfl "env-q" rfl (by decide)
  · exact (C9_getCfg_resolution_amended "busy_mode" { data := [], ts := 0 }
      20 [] (fun _ => none) (by decide)).2.2.2 (by simp) rfl (Or.inl rfl)

-- ===========================================================================
-- C8: regex safety
-- ===========================================================================

/-- C8 counterexample: the claim ignores any over-256-character pattern,
but the code measures the pattern after trimming: a raw pattern of 257
characters (256 `a`s and one trailing space) whose trimmed form has 256
characters is still tested and can match. -/
theorem C8_counterexample_overlong_untrimmed :
    (String.mk (List.replicate 256 'a' ++ [' '])).length = 257
  ∧ safeRegexTest (fun _ _ => .ok true)
      (.s (String.mk (List.replicate 256 'a' ++ [' ']))) "x" = true := by
  exact ⟨by decide, by decide⟩

/-- C8 (amended): block-keyword matching never raises — a non-string,
empty, or syntactically invalid pattern is a non-match, and so is any
pattern whose trimmed form exceeds 256 characters (the length guard applies
to the trimmed pattern); an admissible pattern is tested by the
case-insensitive regex oracle, and the keyword stage tests it against the
message text truncated to 2000 characters. -/
theorem C8_safeRegexTest_amended (re : String → String → Except Unit Bool) (text : String) :
    (∀ p : PV, (∀ v, p ≠ .s v) → safeRegexTest re p text = false)
  ∧ (∀ p0, jsTrim p0 = "" → safeRegexTest re (.s p0) text = false)
  ∧ (∀ p0, (jsTrim p0).length > 256 → safeRegexTest re (.s p0) text = false)
  ∧ (∀ p0, re (jsTrim p0) text = .error () → safeRegexTest re (.s p0) text = false)
  ∧ (∀ p0 b, p0 ≠ "" → jsTrim p0 ≠ "" → ¬ (jsTrim p0).length > 256 →
       re (jsTrim p0) text = .ok b → safeRegexTest re (.s p0) text = b)
  ∧ (∀ ctx : Ctx, ∀ t1 t2 : String, jsSlice0 t1 2000 = jsSlice0 t2 2000 →
       t1 ≠ "" → t2 ≠ "" → blockKeywordHit ctx t1 = blockKeywordHit ctx t2) := by
  refine ⟨?_, ?_, ?_, ?_, ?_, ?_⟩
  · intro p hp
    cases p with
    | s v => exact absurd rfl (hp v)
    | i v => rfl
    | b v => rfl
    | nul => rfl
    | arr xs => rfl
    | o fs => rfl
  · intro p0 ht
    unfold safeRegexTest
    by_cases h0 : p0 = ""
    · simp [h0]
    · simp [h0, ht]
  · intro p0 hlen
    unfold safeRegexTest
    by_cases h0 : p0 = ""
    · simp [h0]
    · have htne : jsTrim p0 ≠ "" := by
        intro e
        rw [e] at hlen
        simp at hlen
      simp [h0, htne, hlen]
  · intro p0 herr
    unfold safeRegexTest
    by_cases h0 : p0 = ""
    · simp [h0]
    · by_cases ht : jsTrim p0 = ""
      · simp [h0, ht]
      · by_cases hlen : (jsTrim p0).length > 256
        · simp [h0, ht, hlen]
        · simp [h0, ht, hlen, herr]
  · intro p0 b h0 ht hlen hok
    unfold safeRegexTest
    simp [h0, ht, hlen, hok]
  · intro ctx t1 t2 hsl h1 h2
    unfold blockKeywordHit
    rw [if_neg h1, if_neg h2, hsl]

/-- Witness for C8 at concrete patterns: a non-string, a whitespace-only
pattern, an overlong trimmed pattern and an invalid regex are non-matches;
an admissible pattern matches per the oracle; the keyword stage only sees
the first 2000 characters. -/
theorem C8_safeRegexTest_amended_witness :
    safeRegexTest (fun _ _ => .ok true) (PV.i 3) "x" = false
  ∧ safeRegexTest (fun _ _ => .ok true) (.s "   ") "x" = false
  ∧ safeRegexTest (fun _ _ => .ok true) (.s (String.mk (List.replicate 300 'a'))) "x" = false
  ∧ safeRegexTest (fun _ _ => .error ()) (.s "spam") "x" = false
  ∧ safeRegexTest (fun p t => .ok (p = "spam" ∧ strIncludes t "spam")) (.s " spam ") "spam x"
      = true
  ∧ blockKeywordHit ctxAccrual (String.mk ('s' :: 'p' :: 'a' :: 'm' :: List.replicate 2100 'x'))
      = blockKeywordHit ctxAccrual
          (String.mk ('s' :: 'p' :: 'a' :: 'm' :: List.replicate 2100 'x')) := by
  refine ⟨(C8_safeRegexTest_amended (fun _ _ => .ok true) "x").1 (PV.i 3)
            (fun v h => PV.noConfusion h),
          (C8_safeRegexTest_amended (fun _ _ => .ok true) "x").2.1 "   " (by decide),
          (C8_safeRegexTest_amended (fun _ _ => .ok true) "x").2.2.1
            (String.mk (List.replicate 300 'a')) (by decide),
          (C8_safeRegexTest_amended (fun _ _ => .error ()) "x").2.2.2.1 "spam" rfl,
          (C8_safeRegexTest_amended (fun p t => .ok (p = "spam" ∧ strIncludes t "spam"))
            "spam x").2.2.2.2.1 " spam " true (by decide) (by decide) (by decide) (by rfl),
          (C8_safeRegexTest_amended (fun _ _ => .ok true) "y").2.2.2.2.2 ctxAccrual
            (String.mk ('s' :: 'p' :: 'a' :: 'm' :: List.replicate 2100 'x'))
            (String.mk ('s' :: 'p' :: 'a' :: 'm' :: List.replicate 2100 'x'))
            rfl (by decide) (by decide)⟩

-- ===========================================================================
-- Trace extension lemmas (every handler only appends to the API trace)
-- ===========================================================================


theorem traceExt_refl (w : W) : traceExt w w := ⟨[], by simp⟩

theorem traceExt_trans {w1 w2 w3 : W} (h1 : traceExt w1 w2) (h2 : traceExt w2 w3) :
    traceExt w1 w3 := by
  obtain ⟨t1, e1⟩ := h1
  obtain ⟨t2, e2⟩ := h2
  exact ⟨t1 ++ t2, by rw [e2, e1, List.append_assoc]⟩

theorem traceExt_of_eq {w w' : W} (h : w'.trace = w.trace) : traceExt w w' := ⟨[], by simp [h]⟩

theorem traceExt_callApi (c : ApiCall) (ctx : Ctx) (w : W) : traceExt w (callApi c ctx w).2 :=
  ⟨[c], rfl⟩

theorem traceExt_callApi_pair {c : ApiCall} {ctx : Ctx} {w : W} {res : Except String Nat}
    {w' : W} (h : callApi c ctx w = (res, w')) : traceExt w w' := by
  have := traceExt_callApi c ctx w
  rw [h] at this
  exact this

theorem traceExt_updUserW (id : String) (d : List (String × PV)) (w : W) :
    traceExt w (updUserW id d w) := traceExt_of_eq rfl

theorem traceExt_setCfgW (k v : String) (w : W) : traceExt w (setCfgW k v w) :=
  traceExt_of_eq rfl

theorem traceExt_getUserW (id : String) (w : W) : traceExt w (getUserW id w).2 := by
  unfold getUserW
  rcases alook w.users id with _ | r
  · exact traceExt_of_eq rfl
  · exact traceExt_of_eq rfl

theorem traceExt_markDelivered (ctx : Ctx) (cid : String) (mid : Nat) (w : W) :
    traceExt w (markDelivered ctx cid mid w) := by
  simp only [markDelivered]
  rcases h : callApi (.setMessageReaction cid mid) ctx w with ⟨res, w1⟩
  cases res with
  | ok v => exact traceExt_callApi_pair h
  | error e =>
    exact traceExt_trans (traceExt_callApi_pair h)
      (traceExt_callApi (.sendMessage cid "✅ 已送达") ctx w1)

theorem traceExt_sendInfoCard (ctx : Ctx) (u : UserObj) (tg : TgUser) (tid : String)
    (d : Option Int) (w : W) : traceExt w (sendInfoCardToTopic ctx u tg tid d w).2 := by
  simp only [sendInfoCardToTopic]
  rcases h : callApi (.sendMessage ctx.ADMIN_GROUP_ID
      (getUMeta tg u (d.getD (ctx.nowMs / 1000))).card) ctx w with ⟨res, w1⟩
  cases res with
  | error e => exact traceExt_callApi_pair h
  | ok v =>
    exact traceExt_trans (traceExt_callApi_pair h)
      (traceExt_trans (traceExt_updUserW _ _ _) (traceExt_callApi (.pinChatMessage v) ctx _))


theorem traceExt_withLocks (w : W) (l : List (String × Int)) :
    traceExt w { w with locks := l } := ⟨[], by simp⟩

theorem traceExt_inboxSendNew (ctx : Ctx) (uid cardText : String) (w : W) :
    traceExt w (inboxSendNew ctx uid cardText w) := by
  simp only [inboxSendNew]
  rcases h : callApi (.sendMessage ctx.ADMIN_GROUP_ID cardText) ctx w with ⟨res, w1⟩
  cases res with
  | ok nm => exact traceExt_trans (traceExt_callApi_pair h) (traceExt_updUserW _ _ _)
  | error e =>
    have hw : traceExt w1
        (if e ≠ "" ∧ strIncludes e "thread" = true then setCfgW "unread_topic_id" "" w1
         else w1) := by
      by_cases hc : e ≠ "" ∧ strIncludes e "thread" = true
      · rw [if_pos hc]; exact traceExt_setCfgW _ _ _
      · rw [if_neg hc]; exact traceExt_refl _
    exact traceExt_trans (traceExt_callApi_pair h) hw

theorem traceExt_inboxCore (ctx : Ctx) (u : UserObj) (cardText : String) (w : W) :
    traceExt w (inboxCore ctx u cardText w) := by
  simp only [inboxCore]
  by_cases hm : pvTruthy ((alook u.user_info "inbox_msg_id").getD .nul) = true
  · rw [if_pos hm]
    rcases h : callApi (.editMessageText
        (pvNatOf ((alook u.user_info "inbox_msg_id").getD .nul)) cardText) ctx w with ⟨res, w1⟩
    cases res with
    | ok v => exact traceExt_trans (traceExt_callApi_pair h) (traceExt_updUserW _ _ _)
    | error e =>
      exact traceExt_trans (traceExt_callApi_pair h) (traceExt_inboxSendNew ctx u.user_id cardText w1)
  · rw [if_neg hm]; exact traceExt_inboxSendNew _ _ _ _

theorem traceExt_handleInbox (ctx : Ctx) (msg : Msg) (u : UserObj) (tid : String)
    (uMeta : UMeta) (w : W) : traceExt w (handleInbox ctx msg u tid uMeta w) := by
  simp only [handleInbox]
  by_cases hl : lockHas w.locks ctx.nowMs ("inbox:" ++ u.user_id) = true
  · rw [if_pos hl]; exact traceExt_refl _
  · rw [if_neg hl]
    by_cases hc : ctx.cfg "unread_topic_id" = ""
    · rw [if_pos hc]
      rcases h : callApi (.createForumTopic "🔔 未读消息") ctx
          { w with locks := lockSet ("inbox:" ++ u.user_id) 3000 ctx.nowMs w.locks } with ⟨res, w1⟩
      cases res with
      | error e => exact traceExt_trans (traceExt_withLocks w _) (traceExt_callApi_pair h)
      | ok t =>
        exact traceExt_trans (traceExt_withLocks w _)
          (traceExt_trans (traceExt_callApi_pair h)
            (traceExt_trans (traceExt_setCfgW _ _ _) (traceExt_inboxCore _ _ _ _)))
    · rw [if_neg hc]
      exact traceExt_trans (traceExt_withLocks w _) (traceExt_inboxCore _ _ _ _)

theorem traceExt_handleBackup (ctx : Ctx) (msg : Msg) (meta : UMeta) (w : W) :
    traceExt w (handleBackup ctx msg meta w) := by
  simp only [handleBackup]
  by_cases hb : ctx.cfg "backup_group_id" = ""
  · rw [if_pos hb]; exact traceExt_refl _
  · rw [if_neg hb]
    rcases h : callApi (.copyMessage (ctx.cfg "backup_group_id") msg.chatId msg.message_id)
        ctx w with ⟨res, w1⟩
    cases res with
    | ok v => exact traceExt_callApi_pair h
    | error e =>
      rcases msg.text with _ | t
      · exact traceExt_callApi_pair h
      · simp only []
        by_cases ht : t ≠ ""
        · rw [if_pos ht]
          exact traceExt_trans (traceExt_callApi_pair h) (traceExt_callApi _ ctx w1)
        · rw [if_neg ht]; exact traceExt_callApi_pair h

theorem traceExt_mblCore (ctx : Ctx) (u : UserObj) (tg : TgUser) (bk : Bool)
    (bid : String) (w : W) : traceExt w (mblCore ctx u tg bk bid w) := by
  simp only [mblCore]
  by_cases hz : bid = ""
  · rw [if_pos hz]; exact traceExt_refl _
  · rw [if_neg hz]
    by_cases hb : bk = true
    · rw [if_pos hb]
      rcases h : callApi (.sendMessage ctx.ADMIN_GROUP_ID
          ("<b>🚫 用户已屏蔽</b>\n" ++ (getUMeta tg u (ctx.nowMs / 1000)).card)) ctx w with ⟨res, w1⟩
      cases res with
      | ok m => exact traceExt_trans (traceExt_callApi_pair h) (traceExt_updUserW _ _ _)
      | error e => exact traceExt_callApi_pair h
    · rw [if_neg hb]
      by_cases hm : pvTruthy ((alook u.user_info "blacklist_msg_id").getD .nul) = true
      · rw [if_pos hm]
        exact traceExt_trans (traceExt_callApi _ ctx w) (traceExt_updUserW _ _ _)
      · rw [if_neg hm]; exact traceExt_refl _

theorem traceExt_manageBlacklist (ctx : Ctx) (u : UserObj) (tg : TgUser) (bk : Bool)
    (w : W) : traceExt w (manageBlacklist ctx u tg bk w) := by
  simp only [manageBlacklist]
  by_cases hb : ctx.cfg "blocked_topic_id" = "" ∧ bk = true
  · rw [if_pos hb]
    rcases h : callApi (.createForumTopic "🚫 黑名单") ctx w with ⟨res, w1⟩
    cases res with
    | error e => exact traceExt_callApi_pair h
    | ok t =>
      exact traceExt_trans (traceExt_callApi_pair h)
        (traceExt_trans (traceExt_setCfgW _ _ _) (traceExt_mblCore _ _ _ _ _ _))
  · rw [if_neg hb]; exact traceExt_mblCore _ _ _ _ _ _

theorem traceExt_deliverFanout (ctx : Ctx) (msg : Msg) (u : UserObj) (uMeta : UMeta)
    (tid : String) (w : W) : traceExt w (deliverFanout ctx msg u uMeta tid w).2 := by
  simp only [deliverFanout]
  have hA : ∀ w : W,
      traceExt w (if msg.message_id ≠ 0 then markDelivered ctx u.user_id msg.message_id w else w) := by
    intro w
    by_cases h : msg.message_id ≠ 0
    · rw [if_pos h]; exact traceExt_markDelivered _ _ _ _
    · rw [if_neg h]; exact traceExt_refl _
  have hB : ∀ w : W, traceExt w (match msg.text with
      | some t =>
        if t ≠ "" then { w with msgs := msgsPut u.user_id msg.message_id t msg.date w.msgs }
        else w
      | none => w) := by
    intro w
    rcases msg.text with _ | t
    · exact traceExt_refl _
    · simp only []
      by_cases h : t ≠ ""
      · rw [if_pos h]; exact traceExt_of_eq rfl
      · rw [if_neg h]; exact traceExt_refl _
  exact traceExt_trans (hA w) (traceExt_trans (hB _)
    (traceExt_trans (traceExt_handleInbox _ _ _ _ _ _) (traceExt_handleBackup _ _ _ _)))

theorem traceExt_deliverToTopic (ctx : Ctx) (msg : Msg) (u : UserObj) (uMeta : UMeta)
    (tid : String) (w : W) : traceExt w (deliverToTopic ctx msg u uMeta tid w).2 := by
  simp only [deliverToTopic]
  rcases h : callApi (.forwardMessage u.user_id msg.message_id tid) ctx w with ⟨res, w1⟩
  cases res with
  | ok v => exact traceExt_trans (traceExt_callApi_pair h) (traceExt_deliverFanout _ _ _ _ _ _)
  | error e =>
    simp only []
    rcases h2 : callApi (.copyMessage ctx.ADMIN_GROUP_ID u.user_id msg.message_id) ctx w1
      with ⟨res2, w2⟩
    cases res2 with
    | ok v =>
      exact traceExt_trans (traceExt_callApi_pair h)
        (traceExt_trans (traceExt_callApi_pair h2) (traceExt_deliverFanout _ _ _ _ _ _))
    | error e2 =>
      have hc : ∀ w : W, traceExt w
          ((if e2 ≠ "" ∧ (strIncludes e2 "thread" = true ∨ strIncludes e2 "not found" = true) then
              callApi (.sendMessage u.user_id "⚠️ 会话已过期，请重发") ctx
                (updUserW u.user_id [("topic_id", PV.nul)] w)
            else ((Except.ok 0 : Except String Nat), w))).2 := by
        intro w
        by_cases hx : e2 ≠ "" ∧ (strIncludes e2 "thread" = true ∨ strIncludes e2 "not found" = true)
        · rw [if_pos hx]
          exact traceExt_trans (traceExt_updUserW _ _ _) (traceExt_callApi _ ctx _)
        · rw [if_neg hx]; exact traceExt_refl _
      exact traceExt_trans (traceExt_callApi_pair h)
        (traceExt_trans (traceExt_callApi_pair h2) (hc w2))

theorem traceExt_relayToTopic (ctx : Ctx) (msg : Msg) (u : UserObj) (w : W) :
    traceExt w (relayToTopic ctx msg u w).2 := by
  simp only [relayToTopic]
  by_cases h1 : pvTruthy u.topic_id = true
  · rw [if_pos h1]; exact traceExt_deliverToTopic _ _ _ _ _ _
  · rw [if_neg h1]
    by_cases h2 : lockHas w.locks ctx.nowMs ("topic_create:" ++ u.user_id) = true
    · rw [if_pos h2]; exact traceExt_refl _
    · rw [if_neg h2]
      rcases hg : getUserW u.user_id
          { w with locks := lockSet ("topic_create:" ++ u.user_id) 5000 ctx.nowMs w.locks }
        with ⟨fresh, w1⟩
      have hgw : traceExt w w1 := by
        have hx := traceExt_getUserW u.user_id
          { w with locks := lockSet ("topic_create:" ++ u.user_id) 5000 ctx.nowMs w.locks }
        rw [hg] at hx
        exact traceExt_trans (traceExt_withLocks w _) hx
      simp only []
      by_cases h3 : pvTruthy fresh.topic_id = true
      · rw [if_pos h3]
        exact traceExt_trans hgw
          (traceExt_trans (traceExt_withLocks w1 _) (traceExt_deliverToTopic _ _ _ _ _ _))
      · rw [if_neg h3]
        rcases hc : callApi (.createForumTopic (getUMeta msg.fromUser u msg.date).topicName)
            ctx w1 with ⟨res, w2⟩
        cases res with
        | ok t =>
          simp only []
          rcases hs : sendInfoCardToTopic ctx { u with topic_id := .s (toString t) }
              msg.fromUser (toString t) none
              (updUserW u.user_id [("topic_id", PV.s (toString t))] w2) with ⟨r2, w3⟩
          have hsw : traceExt w2 w3 := by
            have hx := traceExt_sendInfoCard ctx { u with topic_id := PV.s (toString t) }
              msg.fromUser (toString t) none
              (updUserW u.user_id [("topic_id", PV.s (toString t))] w2)
            rw [hs] at hx
            exact traceExt_trans (traceExt_updUserW _ _ _) hx
          exact traceExt_trans hgw (traceExt_trans (traceExt_callApi_pair hc)
            (traceExt_trans hsw
              (traceExt_trans (traceExt_withLocks w3 _) (traceExt_deliverToTopic _ _ _ _ _ _))))
        | error e =>
          simp only []
          rcases hg2 : getUserW u.user_id w2 with ⟨exist, w3⟩
          have hg2w : traceExt w2 w3 := by
            have hx := traceExt_getUserW u.user_id w2
            rw [hg2] at hx
            exact hx
          simp only []
          by_cases h4 : pvTruthy exist.topic_id = true
          · rw [if_pos h4]
            exact traceExt_trans hgw (traceExt_trans (traceExt_callApi_pair hc)
              (traceExt_trans hg2w
                (traceExt_trans (traceExt_withLocks w3 _) (traceExt_deliverToTopic _ _ _ _ _ _))))
          · rw [if_neg h4]
            exact traceExt_trans hgw (traceExt_trans (traceExt_callApi_pair hc)
              (traceExt_trans hg2w
                (traceExt_trans (traceExt_withLocks w3 _) (traceExt_callApi _ ctx _))))

-- ===========================================================================
-- Column-frame lemmas for composite handlers
-- ===========================================================================

theorem alook_append_isSome {α : Type} (l l2 : List (String × α)) (uid : String)
    (h : (alook l uid).isSome) : alook (l ++ l2) uid = alook l uid := by
  induction l with
  | nil => simp [alook] at h
  | cons p t ih =>
    obtain ⟨k, v⟩ := p
    by_cases hk : k = uid
    · simp [alook, hk]
    · have h2 : (alook t uid).isSome := by simpa [alook, hk] using h
      simp [alook, hk, ih h2]

theorem getUserW_alook_some (id uid : String) (w : W) (h : (alook w.users uid).isSome) :
    alook (getUserW id w).2.users uid = alook w.users uid := by
  unfold getUserW
  rcases hr : alook w.users id with _ | r
  · exact alook_append_isSome w.users [(id, defaultRow)] uid h
  · rfl

theorem getUserW_found (id : String) (w : W) (r : Row) (hr : alook w.users id = some r) :
    getUserW id w = (viewRow id r, w) := by
  unfold getUserW
  rw [hr]

theorem updCols_info (id : String) (x : PV) (users : Users) :
    updCols id [("user_info", x)] users = [] ∨
      updCols id [("user_info", x)] users = ["user_info_json"] := by
  by_cases h : pvTruthy x = true
  · right
    simp [updCols, updRewriteInfo, h, setKey, delKey, alook, updWhitelist]
  · left
    simp [updCols, updRewriteInfo, alook, h, updWhitelist]

theorem updCols_plain (id k : String) (v : PV) (users : Users)
    (h1 : k ≠ "user_info") (h2 : k ∈ updWhitelist) :
    updCols id [(k, v)] users = [k] := by
  simp [updCols, updRewriteInfo, alook, h1, h2]

theorem updUser_col_user_state (id : String) (data : List (String × PV)) (users : Users)
    (uid : String) (h : "user_state" ∉ updCols id data users) :
    (alook (updUser id data users) uid).map Row.user_state
      = (alook users uid).map Row.user_state := by
  by_cases he : uid = id
  · subst he
    rw [updUser_eq]
    by_cases hemp : (updCols uid data users).isEmpty
    · rw [if_pos hemp]
    · rw [if_neg hemp, @alook_map_self
        (fun r => (updCols uid data users).foldl
          (fun r k => setCol r k (updConv ((alook (updRewriteInfo uid data users) k).getD PV.nul))) r)
        uid users]
      rcases alook users uid with _ | r
      · rfl
      · simp [foldl_setCol_user_state _ _ h r]
  · rw [alook_updUser_ne id uid he data users]

theorem updUser_col_is_blocked (id : String) (data : List (String × PV)) (users : Users)
    (uid : String) (h : "is_blocked" ∉ updCols id data users) :
    (alook (updUser id data users) uid).map Row.is_blocked
      = (alook users uid).map Row.is_blocked := by
  by_cases he : uid = id
  · subst he
    rw [updUser_eq]
    by_cases hemp : (updCols uid data users).isEmpty
    · rw [if_pos hemp]
    · rw [if_neg hemp, @alook_map_self
        (fun r => (updCols uid data users).foldl
          (fun r k => setCol r k (updConv ((alook (updRewriteInfo uid data users) k).getD PV.nul))) r)
        uid users]
      rcases alook users uid with _ | r
      · rfl
      · simp [foldl_setCol_is_blocked _ _ h r]
  · rw [alook_updUser_ne id uid he data users]

theorem updUser_col_block_count (id : String) (data : List (String × PV)) (users : Users)
    (uid : String) (h : "block_count" ∉ updCols id data users) :
    (alook (updUser id data users) uid).map Row.block_count
      = (alook users uid).map Row.block_count := by
  by_cases he : uid = id
  · subst he
    rw [updUser_eq]
    by_cases hemp : (updCols uid data users).isEmpty
    · rw [if_pos hemp]
    · rw [if_neg hemp, @alook_map_self
        (fun r => (updCols uid data users).foldl
          (fun r k => setCol r k (updConv ((alook (updRewriteInfo uid data users) k).getD PV.nul))) r)
        uid users]
      rcases alook users uid with _ | r
      · rfl
      · simp [foldl_setCol_block_count _ _ h r]
  · rw [alook_updUser_ne id uid he data users]

theorem updUser_col_topic_id (id : String) (data : List (String × PV)) (users : Users)
    (uid : String) (h : "topic_id" ∉ updCols id data users) :
    (alook (updUser id data users) uid).map Row.topic_id
      = (alook users uid).map Row.topic_id := by
  by_cases he : uid = id
  · subst he
    rw [updUser_eq]
    by_cases hemp : (updCols uid data users).isEmpty
    · rw [if_pos hemp]
    · rw [if_neg hemp, @alook_map_self
        (fun r => (updCols uid data users).foldl
          (fun r k => setCol r k (updConv ((alook (updRewriteInfo uid data users) k).getD PV.nul))) r)
        uid users]
      rcases alook users uid with _ | r
      · rfl
      · simp [foldl_setCol_topic_id _ _ h r]
  · rw [alook_updUser_ne id uid he data users]

theorem keep4_refl (uid : String) (w : W) : keep4 uid w w := ⟨rfl, rfl, rfl, rfl⟩

theorem keep4_trans {uid : String} {w1 w2 w3 : W} (a : keep4 uid w1 w2) (b : keep4 uid w2 w3) :
    keep4 uid w1 w3 :=
  ⟨b.1.trans a.1, b.2.1.trans a.2.1, b.2.2.1.trans a.2.2.1, b.2.2.2.trans a.2.2.2⟩

theorem keep4_of_users_eq {uid : String} {w w' : W} (h : w'.users = w.users) :
    keep4 uid w w' := by
  unfold keep4
  rw [h]
  exact ⟨rfl, rfl, rfl, rfl⟩

theorem keep4_of_alook_eq {uid : String} {w w' : W}
    (h : alook w'.users uid = alook w.users uid) : keep4 uid w w' := by
  unfold keep4
  rw [h]
  exact ⟨rfl, rfl, rfl, rfl⟩

theorem keep4_callApi (c : ApiCall) (ctx : Ctx) (uid : String) (w : W) :
    keep4 uid w (callApi c ctx w).2 := keep4_of_users_eq rfl

theorem keep4_updUserW_info (id : String) (x : PV) (uid : String) (w : W) :
    keep4 uid w (updUserW id [("user_info", x)] w) := by
  have hni : ∀ col : String, col ≠ "user_info_json" → col ∉ updCols id [("user_info", x)] w.users := by
    intro col hcol hmem
    rcases updCols_info id x w.users with he | he <;> rw [he] at hmem
    · exact absurd hmem (List.not_mem_nil col)
    · exact hcol (List.mem_singleton.mp hmem)
  exact ⟨updUser_col_user_state id _ w.users uid (hni _ (by decide)),
         updUser_col_is_blocked id _ w.users uid (hni _ (by decide)),
         updUser_col_block_count id _ w.users uid (hni _ (by decide)),
         updUser_col_topic_id id _ w.users uid (hni _ (by decide))⟩

theorem keep4_sendInfoCard (ctx : Ctx) (u : UserObj) (tg : TgUser) (tid : String)
    (d : Option Int) (uid : String) (w : W) :
    keep4 uid w (sendInfoCardToTopic ctx u tg tid d w).2 := by
  simp only [sendInfoCardToTopic]
  rcases h : callApi (.sendMessage ctx.ADMIN_GROUP_ID
      (getUMeta tg u (d.getD (ctx.nowMs / 1000))).card) ctx w with ⟨res, w1⟩
  have h1 : keep4 uid w w1 := by
    have hx := keep4_callApi (.sendMessage ctx.ADMIN_GROUP_ID
      (getUMeta tg u (d.getD (ctx.nowMs / 1000))).card) ctx uid w
    rw [h] at hx
    exact hx
  cases res with
  | error e => exact h1
  | ok cardId =>
    exact keep4_trans h1
      (keep4_trans (keep4_updUserW_info u.user_id (PV.o [("card_msg_id", PV.i cardId)]) uid w1)
        (keep4_of_users_eq rfl))

theorem keep4_mblCore (ctx : Ctx) (u : UserObj) (tg : TgUser) (bk : Bool) (bid : String)
    (uid : String) (w : W) : keep4 uid w (mblCore ctx u tg bk bid w) := by
  simp only [mblCore]
  by_cases hz : bid = ""
  · rw [if_pos hz]; exact keep4_refl uid w
  · rw [if_neg hz]
    by_cases hb : bk = true
    · rw [if_pos hb]
      rcases h : callApi (.sendMessage ctx.ADMIN_GROUP_ID
          ("<b>🚫 用户已屏蔽</b>\n" ++ (getUMeta tg u (ctx.nowMs / 1000)).card)) ctx w with ⟨res, w1⟩
      have h1 : keep4 uid w w1 := by
        have hx := keep4_callApi (.sendMessage ctx.ADMIN_GROUP_ID
          ("<b>🚫 用户已屏蔽</b>\n" ++ (getUMeta tg u (ctx.nowMs / 1000)).card)) ctx uid w
        rw [h] at hx
        exact hx
      cases res with
      | ok m => exact keep4_trans h1 (keep4_updUserW_info _ _ _ _)
      | error e => exact h1
    · rw [if_neg hb]
      by_cases hm : pvTruthy ((alook u.user_info "blacklist_msg_id").getD .nul) = true
      · rw [if_pos hm]
        exact keep4_trans (keep4_of_users_eq rfl) (keep4_updUserW_info _ _ _ _)
      · rw [if_neg hm]; exact keep4_refl uid w

theorem keep4_manageBlacklist (ctx : Ctx) (u : UserObj) (tg : TgUser) (bk : Bool)
    (uid : String) (w : W) : keep4 uid w (manageBlacklist ctx u tg bk w) := by
  simp only [manageBlacklist]
  by_cases hb : ctx.cfg "blocked_topic_id" = "" ∧ bk = true
  · rw [if_pos hb]
    rcases h : callApi (.createForumTopic "🚫 黑名单") ctx w with ⟨res, w1⟩
    have h1 : keep4 uid w w1 := by
      have hx := keep4_callApi (.createForumTopic "🚫 黑名单") ctx uid w
      rw [h] at hx
      exact hx
    cases res with
    | error e => exact h1
    | ok t =>
      exact keep4_trans h1 (keep4_trans (keep4_of_users_eq rfl) (keep4_mblCore _ _ _ _ _ _ _))
  · rw [if_neg hb]; exact keep4_mblCore _ _ _ _ _ _ _

theorem keepBC_of_keep4 {uid : String} {w w' : W} (h : keep4 uid w w') : keepBC uid w w' :=
  ⟨h.2.1, h.2.2.1⟩

theorem keepBC_refl (uid : String) (w : W) : keepBC uid w w := ⟨rfl, rfl⟩

theorem keepBC_trans {uid : String} {w1 w2 w3 : W} (a : keepBC uid w1 w2)
    (b : keepBC uid w2 w3) : keepBC uid w1 w3 := ⟨b.1.trans a.1, b.2.trans a.2⟩

theorem keepBC_updUserW_state (id : String) (x : PV) (uid : String) (w : W) :
    keepBC uid w (updUserW id [("user_state", x)] w) := by
  have hcols : updCols id [("user_state", x)] w.users = ["user_state"] :=
    updCols_plain id "user_state" x w.users (by decide) (by decide)
  refine ⟨?_, ?_⟩
  · exact updUser_col_is_blocked id _ w.users uid (by rw [hcols]; decide)
  · exact updUser_col_block_count id _ w.users uid (by rw [hcols]; decide)

theorem keepBC_isSome {uid : String} {w w' : W} (h : keepBC uid w w')
    (hs : (alook w.users uid).isSome) : (alook w'.users uid).isSome := by
  rcases ha : alook w.users uid with _ | r
  · rw [ha] at hs; simp at hs
  · have := h.1
    rw [ha] at this
    rcases hb : alook w'.users uid with _ | r'
    · rw [hb] at this; simp at this
    · simp

theorem keepBC_callApi (c : ApiCall) (ctx : Ctx) (uid : String) (w : W) :
    keepBC uid w (callApi c ctx w).2 := ⟨rfl, rfl⟩

theorem keepBC_callApi_pair {c : ApiCall} {ctx : Ctx} {w : W} {res : Except String Nat}
    {w' : W} (uid : String) (h : callApi c ctx w = (res, w')) : keepBC uid w w' := by
  have hx := keepBC_callApi c ctx uid w
  rw [h] at hx
  exact hx

/-- The verification-stage tail of `sendStart` writes only `user_state`. -/
theorem keepBC_sendStartStage (ctx : Ctx) (id uid : String) (w : W) :
    keepBC uid w (sendStartStage ctx id w).2 := by
  simp only [sendStartStage]
  split
  · exact keepBC_trans (keepBC_updUserW_state id (PV.s "pending_turnstile") uid w) ⟨rfl, rfl⟩
  · split
    · exact keepBC_trans (keepBC_updUserW_state id (PV.s "pending_verification") uid w) ⟨rfl, rfl⟩
    · exact keepBC_updUserW_state id (PV.s "verified") uid w

/-- The welcome-message phase writes only `user_state`. -/
theorem keepBC_sendStartWelcome (ctx : Ctx) (id : String) (media : PV) (txt : String)
    (uid : String) (w : W) : keepBC uid w (sendStartWelcome ctx id media txt w).2 := by
  simp only [sendStartWelcome]
  by_cases hme : pvTruthy media = true ∧ pvTruthy (pvField media "type") = true
  · rw [if_pos hme]
    split
    next v w2 heq2 =>
      exact keepBC_trans (keepBC_callApi_pair uid heq2) (keepBC_sendStartStage ctx id uid w2)
    next e w2 heq2 =>
      have h2 : keepBC uid w w2 := keepBC_callApi_pair uid heq2
      simp only [bindE]
      split
      next v w3 heq3 =>
        exact keepBC_trans h2 (keepBC_trans (keepBC_callApi_pair uid heq3)
          (keepBC_sendStartStage ctx id uid w3))
      next e3 w3 heq3 =>
        exact keepBC_trans h2 (keepBC_callApi_pair uid heq3)
  · rw [if_neg hme]
    simp only [bindE]
    split
    next v w2 heq2 =>
      exact keepBC_trans (keepBC_callApi_pair uid heq2) (keepBC_sendStartStage ctx id uid w2)
    next e w2 heq2 =>
      exact keepBC_callApi_pair uid heq2

/-- `sendStart` never writes `is_blocked` or `block_count`. -/
theorem keepBC_sendStart (ctx : Ctx) (id : String) (msg : Msg) (w : W) (uid : String)
    (hs : (alook w.users uid).isSome) :
    keepBC uid w (sendStart ctx id msg w).2 := by
  simp only [sendStart]
  rcases hg : getUserW id w with ⟨u, w1⟩
  have h1 : keepBC uid w w1 := by
    have hx := getUserW_alook_some id uid w hs
    rw [hg] at hx
    exact keepBC_of_keep4 (keep4_of_alook_eq hx)
  split
  · rcases hs2 : sendInfoCardToTopic ctx u msg.fromUser (pvToStr u.topic_id) none w1
      with ⟨r2, w2⟩
    have h2 : keepBC uid w1 w2 := by
      have hx := keep4_sendInfoCard ctx u msg.fromUser (pvToStr u.topic_id) none uid w1
      rw [hs2] at hx
      exact keepBC_of_keep4 hx
    exact keepBC_trans h1 (keepBC_trans h2 (keepBC_callApi _ _ _ _))
  · exact keepBC_trans h1 (keepBC_sendStartWelcome ctx id _ _ uid w1)

/-- The verification-stage tail of `sendStart` only appends to the trace. -/
theorem traceExt_sendStartStage (ctx : Ctx) (id : String) (w : W) :
    traceExt w (sendStartStage ctx id w).2 := by
  simp only [sendStartStage]
  split
  · exact ⟨_, rfl⟩
  · split
    · exact ⟨_, rfl⟩
    · exact traceExt_updUserW _ _ _

/-- The welcome-message phase only appends to the trace. -/
theorem traceExt_sendStartWelcome (ctx : Ctx) (id : String) (media : PV) (txt : String)
    (w : W) : traceExt w (sendStartWelcome ctx id media txt w).2 := by
  simp only [sendStartWelcome]
  by_cases hme : pvTruthy media = true ∧ pvTruthy (pvField media "type") = true
  · rw [if_pos hme]
    split
    next v w2 heq2 =>
      exact traceExt_trans (traceExt_callApi_pair heq2) (traceExt_sendStartStage ctx id w2)
    next e w2 heq2 =>
      have h2 : traceExt w w2 := traceExt_callApi_pair heq2
      simp only [bindE]
      split
      next v w3 heq3 =>
        exact traceExt_trans h2 (traceExt_trans (traceExt_callApi_pair heq3)
          (traceExt_sendStartStage ctx id w3))
      next e3 w3 heq3 =>
        exact traceExt_trans h2 (traceExt_callApi_pair heq3)
  · rw [if_neg hme]
    simp only [bindE]
    split
    next v w2 heq2 =>
      exact traceExt_trans (traceExt_callApi_pair heq2) (traceExt_sendStartStage ctx id w2)
    next e w2 heq2 =>
      exact traceExt_callApi_pair heq2

/-- `sendStart` only appends to the trace. -/
theorem traceExt_sendStart (ctx : Ctx) (id : String) (msg : Msg) (w : W) :
    traceExt w (sendStart ctx id msg w).2 := by
  simp only [sendStart]
  rcases hg : getUserW id w with ⟨u, w1⟩
  have h1 : traceExt w w1 := by
    have hx := traceExt_getUserW id w
    rw [hg] at hx
    exact hx
  split
  · rcases hs2 : sendInfoCardToTopic ctx u msg.fromUser (pvToStr u.topic_id) none w1
      with ⟨r2, w2⟩
    have h2 : traceExt w1 w2 := by
      have hx := traceExt_sendInfoCard ctx u msg.fromUser (pvToStr u.topic_id) none w1
      rw [hs2] at hx
      exact hx
    exact traceExt_trans h1 (traceExt_trans h2 (traceExt_callApi _ _ _))
  · exact traceExt_trans h1 (traceExt_sendStartWelcome ctx id _ _ w1)

theorem mem_of_traceExt {w w' : W} {c : ApiCall} (h : traceExt w w') (hm : c ∈ w.trace) :
    c ∈ w'.trace := by
  obtain ⟨t, ht⟩ := h
  rw [ht]
  exact List.mem_append_left t hm

/-- The unblock write of `handlePrivate` (line 335) sets both columns to 0
and touches nothing else of the row. -/
theorem alook_updUser_clear (id : String) (users : Users) (r : Row)
    (hr : alook users id = some r) :
    alook (updUser id [("is_blocked", PV.i 0), ("block_count", PV.i 0)] users) id
      = some { r with is_blocked := PV.i 0, block_count := PV.i 0 } := by
  have hcols : updCols id [("is_blocked", PV.i 0), ("block_count", PV.i 0)] users
      = ["is_blocked", "block_count"] := by
    simp [updCols, updRewriteInfo, alook, updWhitelist]
  rw [updUser_eq, hcols]
  simp only [List.isEmpty]
  rw [if_neg Bool.false_ne_true]
  rw [@alook_map_self
    (fun r => (["is_blocked", "block_count"] : List String).foldl
      (fun r k => setCol r k (updConv ((alook (updRewriteInfo id
        [("is_blocked", PV.i 0), ("block_count", PV.i 0)] users) k).getD PV.nul))) r)
    id users, hr]
  simp [updRewriteInfo, alook, setCol, updConv]

/-- Routing of `handlePrivate` for a blocked non-admin, non-`/start`
message (lines 333-339): silently dropped, world unchanged. -/
theorem handlePrivate_blocked_drop (ctx : Ctx) (msg : Msg) (w : W) (r : Row)
    (hr : alook w.users msg.chatId = some r)
    (hadm : msg.chatId ∉ parseIdSet ctx.ADMIN_IDS)
    (hbl : pvTruthy r.is_blocked = true)
    (hst : ¬ jsStartsWith "/start" (msg.text.getD "") = true) :
    handlePrivate ctx msg w = (.ok 0, w) := by
  simp only [handlePrivate]
  rw [if_neg fun h : _ ∧ _ => hadm h.2, if_neg fun h : _ ∧ _ => hadm h.2,
      getUserW_found msg.chatId w r hr]
  simp only [viewRow]
  rw [if_pos hbl, if_neg hst]

/-- Routing of `handlePrivate` for a blocked non-admin `/start` (lines
334-338): clear the block columns, remove the blacklist card, re-run
`sendStart`. -/
theorem handlePrivate_blocked_start (ctx : Ctx) (msg : Msg) (w : W) (r : Row)
    (hr : alook w.users msg.chatId = some r)
    (hadm : msg.chatId ∉ parseIdSet ctx.ADMIN_IDS)
    (hbl : pvTruthy r.is_blocked = true)
    (hst : jsStartsWith "/start" (msg.text.getD "") = true) :
    handlePrivate ctx msg w =
      sendStart ctx msg.chatId msg
        (manageBlacklist ctx (viewRow msg.chatId r) msg.fromUser false
          (updUserW msg.chatId [("is_blocked", PV.i 0), ("block_count", PV.i 0)] w)) := by
  simp only [handlePrivate]
  rw [if_neg fun h : _ ∧ _ => hadm h.2, if_neg fun h : _ ∧ _ => hadm h.2,
      getUserW_found msg.chatId w r hr]
  simp only [viewRow]
  rw [if_pos hbl, if_pos hst]

/-- `sendStart` for a verified user with a bound topic (lines 385-394):
refresh the info card and confirm the session; no admission stage runs. -/
theorem sendStart_verified (ctx : Ctx) (id : String) (msg : Msg) (w : W) (r : Row)
    (hr : alook w.users id = some r)
    (ht : pvTruthy r.topic_id = true) (hv : r.user_state = PV.s "verified") :
    sendStart ctx id msg w =
      callApi (.sendMessage id "✅ <b>会话已连接</b>\n您可以直接发送消息，管理员会收到。") ctx
        (sendInfoCardToTopic ctx (viewRow id r) msg.fromUser (pvToStr r.topic_id) none w).2 := by
  simp only [sendStart]
  rw [getUserW_found id w r hr]
  simp only [viewRow]
  rw [if_pos ⟨ht, by simp [pvIsStr, hv]⟩]

/-- `mblCore` in unblocking mode with a known board and card (lines
740-747): delete the card and clear its id. -/
theorem mblCore_unblock (ctx : Ctx) (u : UserObj) (tg : TgUser) (bid : String) (w : W)
    (hbid : ¬ bid = "")
    (hmid : pvTruthy ((alook u.user_info "blacklist_msg_id").getD PV.nul) = true) :
    mblCore ctx u tg false bid w =
      updUserW u.user_id [("user_info", PV.o [("blacklist_msg_id", PV.nul)])]
        (ignoreE (callApi (.deleteMessage ctx.ADMIN_GROUP_ID
          (pvNatOf ((alook u.user_info "blacklist_msg_id").getD PV.nul))) ctx w)) := by
  simp only [mblCore]
  rw [if_neg hbid, if_neg Bool.false_ne_true, if_pos hmid]

-- ===========================================================================
-- C6: inbound messages from a blocked user
-- ===========================================================================

/-- C6 (amended): a blocked non-admin user's inbound private message is
silently dropped — zero API calls, world unchanged — unless it is a
`/start` command, which clears `is_blocked` and `block_count` to 0 in the
store, deletes the blacklist card when a blacklist board is configured and
a card id is recorded, and re-runs `sendStart`; for a verified user with a
bound topic `sendStart` only reconnects the session — the user does NOT
re-enter the admission pipeline, their `user_state` stays `"verified"`. -/
theorem C6_blocked_user_amended (ctx : Ctx) (msg : Msg) (w : W) (r : Row)
    (hr : alook w.users msg.chatId = some r)
    (hadm : msg.chatId ∉ parseIdSet ctx.ADMIN_IDS)
    (hbl : pvTruthy r.is_blocked = true) :
    (¬ jsStartsWith "/start" (msg.text.getD "") = true →
        handlePrivate ctx msg w = (.ok 0, w))
  ∧ (jsStartsWith "/start" (msg.text.getD "") = true →
      (alook (handlePrivate ctx msg w).2.users msg.chatId).map Row.is_blocked
          = some (PV.i 0)
    ∧ (alook (handlePrivate ctx msg w).2.users msg.chatId).map Row.block_count
          = some (PV.i 0)
    ∧ (¬ ctx.cfg "blocked_topic_id" = "" →
        pvTruthy ((alook (pvObjFields r.user_info_json) "blacklist_msg_id").getD PV.nul)
            = true →
        ApiCall.deleteMessage ctx.ADMIN_GROUP_ID
            (pvNatOf ((alook (pvObjFields r.user_info_json) "blacklist_msg_id").getD PV.nul))
          ∈ (handlePrivate ctx msg w).2.trace)
    ∧ (pvTruthy r.topic_id = true → r.user_state = PV.s "verified" →
        (alook (handlePrivate ctx msg w).2.users msg.chatId).map Row.user_state
          = some (PV.s "verified"))) := by
  refine ⟨fun hst => handlePrivate_blocked_drop ctx msg w r hr hadm hbl hst, fun hst => ?_⟩
  rw [handlePrivate_blocked_start ctx msg w r hr hadm hbl hst]
  have hA : alook (updUserW msg.chatId
      [("is_blocked", PV.i 0), ("block_count", PV.i 0)] w).users msg.chatId
      = some { r with is_blocked := PV.i 0, block_count := PV.i 0 } :=
    alook_updUser_clear msg.chatId w.users r hr
  have hB : keep4 msg.chatId
      (updUserW msg.chatId [("is_blocked", PV.i 0), ("block_count", PV.i 0)] w)
      (manageBlacklist ctx (viewRow msg.chatId r) msg.fromUser false
        (updUserW msg.chatId [("is_blocked", PV.i 0), ("block_count", PV.i 0)] w)) :=
    keep4_manageBlacklist ctx (viewRow msg.chatId r) msg.fromUser false msg.chatId _
  rcases hw2 : alook (manageBlacklist ctx (viewRow msg.chatId r) msg.fromUser false
      (updUserW msg.chatId [("is_blocked", PV.i 0), ("block_count", PV.i 0)] w)).users
      msg.chatId with _ | r2
  · exfalso
    have hx := hB.2.1
    rw [hw2, hA] at hx
    simp at hx
  · have hstate : r2.user_state = r.user_state := by
      have hx := hB.1
      rw [hw2, hA] at hx
      simpa using hx
    have hblk : r2.is_blocked = PV.i 0 := by
      have hx := hB.2.1
      rw [hw2, hA] at hx
      simpa using hx
    have hcnt : r2.block_count = PV.i 0 := by
      have hx := hB.2.2.1
      rw [hw2, hA] at hx
      simpa using hx
    have htop : r2.topic_id = r.topic_id := by
      have hx := hB.2.2.2
      rw [hw2, hA] at hx
      simpa using hx
    have hC : keepBC msg.chatId
        (manageBlacklist ctx (viewRow msg.chatId r) msg.fromUser false
          (updUserW msg.chatId [("is_blocked", PV.i 0), ("block_count", PV.i 0)] w))
        (sendStart ctx msg.chatId msg
          (manageBlacklist ctx (viewRow msg.chatId r) msg.fromUser false
            (updUserW msg.chatId [("is_blocked", PV.i 0), ("block_count", PV.i 0)] w))).2 :=
      keepBC_sendStart ctx msg.chatId msg _ msg.chatId (by rw [hw2]; rfl)
    refine ⟨?_, ?_, ?_, ?_⟩
    · rw [hC.1, hw2]
      simp [hblk]
    · rw [hC.2, hw2]
      simp [hcnt]
    · intro hcfg hmid
      have hmb : manageBlacklist ctx (viewRow msg.chatId r) msg.fromUser false
          (updUserW msg.chatId [("is_blocked", PV.i 0), ("block_count", PV.i 0)] w)
          = updUserW msg.chatId [("user_info", PV.o [("blacklist_msg_id", PV.nul)])]
              (ignoreE (callApi (.deleteMessage ctx.ADMIN_GROUP_ID
                (pvNatOf ((alook (pvObjFields r.user_info_json) "blacklist_msg_id").getD
                  PV.nul))) ctx
                (updUserW msg.chatId
                  [("is_blocked", PV.i 0), ("block_count", PV.i 0)] w))) := by
        show manageBlacklist ctx (viewRow msg.chatId r) msg.fromUser false _ = _
        simp only [manageBlacklist]
        rw [if_neg fun h : _ ∧ _ => Bool.false_ne_true h.2]
        exact mblCore_unblock ctx (viewRow msg.chatId r) msg.fromUser
          (ctx.cfg "blocked_topic_id") _ hcfg hmid
      have hmem : ApiCall.deleteMessage ctx.ADMIN_GROUP_ID
          (pvNatOf ((alook (pvObjFields r.user_info_json) "blacklist_msg_id").getD PV.nul))
          ∈ (manageBlacklist ctx (viewRow msg.chatId r) msg.fromUser false
            (updUserW msg.chatId [("is_blocked", PV.i 0), ("block_count", PV.i 0)] w)).trace := by
        rw [hmb]
        show _ ∈ w.trace ++ [ApiCall.deleteMessage _ _]
        exact List.mem_append_right _ (List.mem_singleton.mpr rfl)
      exact mem_of_traceExt (traceExt_sendStart ctx msg.chatId msg _) hmem
    · intro ht hv
      rw [sendStart_verified ctx msg.chatId msg _ r2 hw2 (htop ▸ ht) (hstate ▸ hv)]
      have hk : keep4 msg.chatId
          (manageBlacklist ctx (viewRow msg.chatId r) msg.fromUser false
            (updUserW msg.chatId [("is_blocked", PV.i 0), ("block_count", PV.i 0)] w))
          (sendInfoCardToTopic ctx (viewRow msg.chatId r2) msg.fromUser
            (pvToStr r2.topic_id) none
            (manageBlacklist ctx (viewRow msg.chatId r) msg.fromUser false
              (updUserW msg.chatId [("is_blocked", PV.i 0), ("block_count", PV.i 0)] w))).2 :=
        keep4_sendInfoCard ctx (viewRow msg.chatId r2) msg.fromUser (pvToStr r2.topic_id)
          none msg.chatId _
      show (alook (sendInfoCardToTopic ctx (viewRow msg.chatId r2) msg.fromUser
          (pvToStr r2.topic_id) none _).2.users msg.chatId).map Row.user_state = _
      rw [hk.1, hw2]
      simp [hstate, hv]

/-- Witness for C6 at the concrete blocked user 5: the hypotheses hold and
the `/start` branch of the amended theorem applies. -/
theorem C6_blocked_user_amended_witness :
    alook wBlocked.users msgStart.chatId = some rowBlocked
  ∧ msgStart.chatId ∉ parseIdSet ctxBlocked.ADMIN_IDS
  ∧ pvTruthy rowBlocked.is_blocked = true
  ∧ ((¬ jsStartsWith "/start" (msgStart.text.getD "") = true →
        handlePrivate ctxBlocked msgStart wBlocked = (.ok 0, wBlocked))
    ∧ (jsStartsWith "/start" (msgStart.text.getD "") = true →
        (alook (handlePrivate ctxBlocked msgStart wBlocked).2.users msgStart.chatId).map
            Row.is_blocked = some (PV.i 0)
      ∧ (alook (handlePrivate ctxBlocked msgStart wBlocked).2.users msgStart.chatId).map
            Row.block_count = some (PV.i 0)
      ∧ (¬ ctxBlocked.cfg "blocked_topic_id" = "" →
          pvTruthy ((alook (pvObjFields rowBlocked.user_info_json)
              "blacklist_msg_id").getD PV.nul) = true →
          ApiCall.deleteMessage ctxBlocked.ADMIN_GROUP_ID
              (pvNatOf ((alook (pvObjFields rowBlocked.user_info_json)
                "blacklist_msg_id").getD PV.nul))
            ∈ (handlePrivate ctxBlocked msgStart wBlocked).2.trace)
      ∧ (pvTruthy rowBlocked.topic_id = true →
          rowBlocked.user_state = PV.s "verified" →
          (alook (handlePrivate ctxBlocked msgStart wBlocked).2.users msgStart.chatId).map
            Row.user_state = some (PV.s "verified")))) :=
  ⟨rfl, by decide, by decide,
    C6_blocked_user_amended ctxBlocked msgStart wBlocked rowBlocked rfl (by decide) (by decide)⟩

/-- Counterexample to C6 as stated: blocked, verified user 5 with a bound
topic sends `/start` under a configuration whose admission pipeline is
Turnstile (`enable_verify` on, worker URL set).  The claim says the user
"re-enters the admission pipeline from the start", but the final
`user_state` is still "verified" — `sendStart` short-circuits to the
session-reconnect branch and never enters an admission stage. -/
theorem C6_counterexample_blocked_start_stays_verified :
    pvTruthy rowBlocked.is_blocked = true
  ∧ getBoolC ctxBlocked "enable_verify" = true
  ∧ ¬ stripTrailingSlash ctxBlocked.WORKER_URL = ""
  ∧ (alook (handlePrivate ctxBlocked msgStart wBlocked).2.users "5").map Row.user_state
      = some (PV.s "verified")
  ∧ ¬ (alook (handlePrivate ctxBlocked msgStart wBlocked).2.users "5").map Row.user_state
      = some (PV.s "pending_turnstile") := by
  refine ⟨by decide, by decide, by decide, rfl, fun hc => ?_⟩
  have : some (PV.s "verified") = some (PV.s "pending_turnstile") := by
    rw [← hc]
    rfl
  simp at this

-- ===========================================================================
-- C5: block-keyword accrual
-- ===========================================================================

/-- Routing of `handlePrivate` (lines 341-381) for a verified, unblocked
non-admin user with a non-`/start` message: the policy pipeline of
`handleVerifiedMsg` runs on the stored row. -/
theorem handlePrivate_verified_route (ctx : Ctx) (msg : Msg) (w : W) (r : Row)
    (hr : alook w.users msg.chatId = some r)
    (hadm : msg.chatId ∉ parseIdSet ctx.ADMIN_IDS)
    (hauth : isAuthAdmin ctx msg.chatId = false)
    (hnb : pvTruthy r.is_blocked = false)
    (hver : r.user_state = PV.s "verified")
    (hst : ¬ jsStartsWith "/start" (msg.text.getD "") = true) :
    handlePrivate ctx msg w = handleVerifiedMsg ctx msg (viewRow msg.chatId r) w := by
  simp only [handlePrivate]
  rw [if_neg fun h : _ ∧ _ => hadm h.2, if_neg fun h : _ ∧ _ => hadm h.2,
      getUserW_found msg.chatId w r hr]
  simp only [viewRow]
  rw [if_neg (by simp [hnb]),
      if_neg (by simp; exact fun h1 _ _ => (hadm h1).elim),
      if_neg (by simp; intro hx; rw [hver] at hx; simp [pvIsStr] at hx),
      if_neg hst,
      if_neg (by simp [hauth])]

/-- Stage A of `handleVerifiedMsg` (lines 460-478) on a keyword hit: one
store write sets the incremented count and the blocking flag together, then
either the ban flow or a warning runs — the later stages never run. -/
theorem handleVerifiedMsg_keyword_hit (ctx : Ctx) (msg : Msg) (u : UserObj) (w : W)
    (hk : blockKeywordHit ctx (jsOrS (msg.text.getD "") (msg.caption.getD "")) = true) :
    handleVerifiedMsg ctx msg u w =
      (if pvAsInt u.block_count + 1 ≥ blockThresholdOf (ctx.cfg "block_threshold") then
        callApi (.sendMessage u.user_id "❌ 您已被系统自动封禁") ctx
          (manageBlacklist ctx u msg.fromUser true
            (updUserW u.user_id
              [("block_count", PV.i (pvAsInt u.block_count + 1)),
               ("is_blocked", PV.b (pvAsInt u.block_count + 1 ≥
                 blockThresholdOf (ctx.cfg "block_threshold")))] w))
      else
        callApi (.sendMessage u.user_id ("⚠️ 含有违禁词，请勿发送 ("
            ++ toString (pvAsInt u.block_count + 1) ++ "/"
            ++ toString (blockThresholdOf (ctx.cfg "block_threshold")) ++ ")")) ctx
          (updUserW u.user_id
            [("block_count", PV.i (pvAsInt u.block_count + 1)),
             ("is_blocked", PV.b (pvAsInt u.block_count + 1 ≥
               blockThresholdOf (ctx.cfg "block_threshold")))] w)) := by
  simp only [handleVerifiedMsg]
  rw [if_pos hk]

/-- The accrual write of `handleVerifiedMsg` (line 465): both columns of
the target row change in the same UPDATE, booleans stored as 0/1. -/
theorem alook_updUser_accrue (id : String) (users : Users) (r : Row) (c : Int) (b : Bool)
    (hr : alook users id = some r) :
    alook (updUser id [("block_count", PV.i c), ("is_blocked", PV.b b)] users) id
      = some { r with block_count := PV.i c, is_blocked := PV.i (if b then 1 else 0) } := by
  have hcols : updCols id [("block_count", PV.i c), ("is_blocked", PV.b b)] users
      = ["block_count", "is_blocked"] := by
    simp [updCols, updRewriteInfo, alook, updWhitelist]
  rw [updUser_eq, hcols]
  simp only [List.isEmpty]
  rw [if_neg Bool.false_ne_true]
  rw [@alook_map_self
    (fun r => (["block_count", "is_blocked"] : List String).foldl
      (fun r k => setCol r k (updConv ((alook (updRewriteInfo id
        [("block_count", PV.i c), ("is_blocked", PV.b b)] users) k).getD PV.nul))) r)
    id users, hr]
  simp [updRewriteInfo, alook, setCol, updConv]

/-- One delivery of a keyword-hitting message from a verified, unblocked
user: the row's count increments and the flag is set exactly when the new
count reaches the threshold, in one write. -/
theorem accrual_step (ctx : Ctx) (msg : Msg) (w : W) (rn : Row)
    (hadm : msg.chatId ∉ parseIdSet ctx.ADMIN_IDS)
    (hauth : isAuthAdmin ctx msg.chatId = false)
    (hst : ¬ jsStartsWith "/start" (msg.text.getD "") = true)
    (hk : blockKeywordHit ctx (jsOrS (msg.text.getD "") (msg.caption.getD "")) = true)
    (hr : alook w.users msg.chatId = some rn)
    (hver : rn.user_state = PV.s "verified")
    (hnb : pvTruthy rn.is_blocked = false) :
    ∃ r', alook (handlePrivate ctx msg w).2.users msg.chatId = some r'
      ∧ r'.user_state = rn.user_state
      ∧ r'.block_count = PV.i (pvAsInt rn.block_count + 1)
      ∧ r'.is_blocked = PV.i (if pvAsInt rn.block_count + 1
            ≥ blockThresholdOf (ctx.cfg "block_threshold") then 1 else 0) := by
  rw [handlePrivate_verified_route ctx msg w rn hr hadm hauth hnb hver hst,
      handleVerifiedMsg_keyword_hit ctx msg (viewRow msg.chatId rn) w hk]
  simp only [viewRow]
  have hacc : alook (updUserW msg.chatId
      [("block_count", PV.i (pvAsInt rn.block_count + 1)),
       ("is_blocked", PV.b (decide (pvAsInt rn.block_count + 1
         ≥ blockThresholdOf (ctx.cfg "block_threshold"))))] w).users msg.chatId
      = some { rn with
                 block_count := PV.i (pvAsInt rn.block_count + 1),
                 is_blocked := PV.i (if decide (pvAsInt rn.block_count + 1
                   ≥ blockThresholdOf (ctx.cfg "block_threshold")) then 1 else 0) } :=
    alook_updUser_accrue msg.chatId w.users rn (pvAsInt rn.block_count + 1)
      (decide (pvAsInt rn.block_count + 1 ≥ blockThresholdOf (ctx.cfg "block_threshold"))) hr
  by_cases hge : pvAsInt rn.block_count + 1 ≥ blockThresholdOf (ctx.cfg "block_threshold")
  · rw [if_pos hge]
    have hk4 := keep4_manageBlacklist ctx (viewRow msg.chatId rn) msg.fromUser true
      msg.chatId (updUserW msg.chatId
        [("block_count", PV.i (pvAsInt rn.block_count + 1)),
         ("is_blocked", PV.b (decide (pvAsInt rn.block_count + 1
           ≥ blockThresholdOf (ctx.cfg "block_threshold"))))] w)
    rcases hw2 : alook (manageBlacklist ctx (viewRow msg.chatId rn) msg.fromUser true
        (updUserW msg.chatId
          [("block_count", PV.i (pvAsInt rn.block_count + 1)),
           ("is_blocked", PV.b (decide (pvAsInt rn.block_count + 1
             ≥ blockThresholdOf (ctx.cfg "block_threshold"))))] w)).users msg.chatId
        with _ | r2
    · exfalso
      have hx := hk4.1
      rw [hw2, hacc] at hx
      simp at hx
    · refine ⟨r2, ?_, ?_, ?_, ?_⟩
      · show alook (manageBlacklist ctx (viewRow msg.chatId rn) msg.fromUser true
            (updUserW msg.chatId
              [("block_count", PV.i (pvAsInt rn.block_count + 1)),
               ("is_blocked", PV.b (decide (pvAsInt rn.block_count + 1
                 ≥ blockThresholdOf (ctx.cfg "block_threshold"))))] w)).users msg.chatId
            = some r2
        exact hw2
      · have hx := hk4.1
        rw [hw2, hacc] at hx
        simpa using hx
      · have hx := hk4.2.2.1
        rw [hw2, hacc] at hx
        simpa using hx
      · have hx := hk4.2.1
        rw [hw2, hacc] at hx
        simp at hx
        rw [hx]
  · rw [if_neg hge]
    refine ⟨_, hacc, rfl, rfl, ?_⟩
    simp [hge]

/-- The accrual invariant: after n deliveries of the same keyword-hitting
message, the count is min(n, T) and the flag is set iff n ≥ T. -/
theorem accrual_invariant (ctx : Ctx) (msg : Msg) (w : W) (r0 : Row)
    (hadm : msg.chatId ∉ parseIdSet ctx.ADMIN_IDS)
    (hauth : isAuthAdmin ctx msg.chatId = false)
    (hst : ¬ jsStartsWith "/start" (msg.text.getD "") = true)
    (hk : blockKeywordHit ctx (jsOrS (msg.text.getD "") (msg.caption.getD "")) = true)
    (hr0 : alook w.users msg.chatId = some r0)
    (hver : r0.user_state = PV.s "verified")
    (hb0 : r0.is_blocked = PV.i 0)
    (hc0 : r0.block_count = PV.i 0)
    (hT : 1 ≤ blockThresholdOf (ctx.cfg "block_threshold")) :
    ∀ n : Nat, ∃ rn, alook (runN ctx msg n w).users msg.chatId = some rn
      ∧ rn.user_state = PV.s "verified"
      ∧ rn.block_count = PV.i (min (n : Int) (blockThresholdOf (ctx.cfg "block_threshold")))
      ∧ rn.is_blocked = PV.i (if (n : Int) ≥ blockThresholdOf (ctx.cfg "block_threshold")
          then 1 else 0) := by
  intro n
  induction n with
  | zero =>
    refine ⟨r0, hr0, hver, ?_, ?_⟩
    · rw [hc0]
      congr 1
      omega
    · rw [hb0]
      congr 1
      rw [if_neg (by omega)]
  | succ n ih =>
    obtain ⟨rn, hrn, hsver, hscnt, hsblk⟩ := ih
    by_cases hTn : (n : Int) ≥ blockThresholdOf (ctx.cfg "block_threshold")
    · have hblk1 : rn.is_blocked = PV.i 1 := by
        rw [hsblk, if_pos hTn]
      have hdrop : handlePrivate ctx msg (runN ctx msg n w) = (.ok 0, runN ctx msg n w) :=
        handlePrivate_blocked_drop ctx msg (runN ctx msg n w) rn hrn hadm
          (by rw [hblk1]; rfl) hst
      refine ⟨rn, ?_, hsver, ?_, ?_⟩
      · show alook (handlePrivate ctx msg (runN ctx msg n w)).2.users msg.chatId = some rn
        rw [hdrop]
        exact hrn
      · rw [hscnt]
        congr 1
        omega
      · rw [hsblk]
        congr 1
        rw [if_pos hTn, if_pos (by omega)]
    · have hnb : pvTruthy rn.is_blocked = false := by
        rw [hsblk, if_neg hTn]
        rfl
      obtain ⟨r', ha, hb, hc, hd⟩ :=
        accrual_step ctx msg (runN ctx msg n w) rn hadm hauth hst hk hrn hsver hnb
      have hcnt' : pvAsInt rn.block_count + 1 = (n : Int) + 1 := by
        rw [hscnt]
        simp only [pvAsInt]
        omega
      refine ⟨r', ha, by rw [hb, hsver], ?_, ?_⟩
      · rw [hc, hcnt']
        congr 1
        omega
      · rw [hd, hcnt']
        by_cases hge : ((n : Int) + 1) ≥ blockThresholdOf (ctx.cfg "block_threshold")
        · rw [if_pos hge, if_pos (by push_cast; omega)]
        · rw [if_neg hge, if_neg (by push_cast; omega)]

/-- C5: on every keyword hit by a verified, unblocked user, one store write
increments `block_count` and sets `is_blocked` exactly when the new count
reaches the configured threshold; after n deliveries of such a message the
count is min(n, T) and the user is blocked iff n ≥ T. -/
theorem C5_block_accrual (ctx : Ctx) (msg : Msg) (w : W) (r0 : Row) (n : Nat)
    (hadm : msg.chatId ∉ parseIdSet ctx.ADMIN_IDS)
    (hauth : isAuthAdmin ctx msg.chatId = false)
    (hst : ¬ jsStartsWith "/start" (msg.text.getD "") = true)
    (hk : blockKeywordHit ctx (jsOrS (msg.text.getD "") (msg.caption.getD "")) = true)
    (hr0 : alook w.users msg.chatId = some r0)
    (hver : r0.user_state = PV.s "verified")
    (hb0 : r0.is_blocked = PV.i 0)
    (hc0 : r0.block_count = PV.i 0)
    (hT : 1 ≤ blockThresholdOf (ctx.cfg "block_threshold")) :
    (∀ w' rn, alook w'.users msg.chatId = some rn → rn.user_state = PV.s "verified" →
        pvTruthy rn.is_blocked = false →
        ∃ r', alook (handlePrivate ctx msg w').2.users msg.chatId = some r'
          ∧ r'.user_state = rn.user_state
          ∧ r'.block_count = PV.i (pvAsInt rn.block_count + 1)
          ∧ r'.is_blocked = PV.i (if pvAsInt rn.block_count + 1
              ≥ blockThresholdOf (ctx.cfg "block_threshold") then 1 else 0))
  ∧ (∃ rN, alook (runN ctx msg n w).users msg.chatId = some rN
      ∧ rN.block_count = PV.i (min (n : Int) (blockThresholdOf (ctx.cfg "block_threshold")))
      ∧ (pvTruthy rN.is_blocked = true ↔
          (n : Int) ≥ blockThresholdOf (ctx.cfg "block_threshold"))) := by
  refine ⟨fun w' rn h1 h2 h3 =>
    accrual_step ctx msg w' rn hadm hauth hst hk h1 h2 h3, ?_⟩
  obtain ⟨rN, ha, hb, hc, hd⟩ :=
    accrual_invariant ctx msg w r0 hadm hauth hst hk hr0 hver hb0 hc0 hT n
  refine ⟨rN, ha, hc, ?_⟩
  rw [hd]
  by_cases hTn : (n : Int) ≥ blockThresholdOf (ctx.cfg "block_threshold")
  · rw [if_pos hTn]
    simp [pvTruthy, hTn]
  · rw [if_neg hTn]
    simp [pvTruthy, hTn]

/-- Witness for C5: keyword `spam`, threshold 3, four deliveries; the
hypotheses hold for user 5 and the accrual theorem applies at n = 4. -/
theorem C5_block_accrual_witness :
    msgSpam.chatId ∉ parseIdSet ctxAccrual.ADMIN_IDS
  ∧ blockKeywordHit ctxAccrual (jsOrS (msgSpam.text.getD "") (msgSpam.caption.getD ""))
      = true
  ∧ alook wVerified.users msgSpam.chatId = some { user_state := PV.s "verified" }
  ∧ 1 ≤ blockThresholdOf (ctxAccrual.cfg "block_threshold")
  ∧ (∃ rN, alook (runN ctxAccrual msgSpam 4 wVerified).users msgSpam.chatId = some rN
      ∧ rN.block_count
          = PV.i (min ((4 : Nat) : Int) (blockThresholdOf (ctxAccrual.cfg "block_threshold")))
      ∧ (pvTruthy rN.is_blocked = true ↔
          ((4 : Nat) : Int) ≥ blockThresholdOf (ctxAccrual.cfg "block_threshold"))) :=
  ⟨by decide, by decide, rfl, by decide,
    (C5_block_accrual ctxAccrual msgSpam wVerified { user_state := PV.s "verified" } 4
      (by decide) (by decide) (by decide) (by decide) rfl rfl rfl rfl (by decide)).2⟩

-- ===========================================================================
-- C7: policy pipeline order
-- ===========================================================================

theorem relayAttempted_append (t1 t2 : List ApiCall) :
    relayAttempted (t1 ++ t2) = (relayAttempted t1 || relayAttempted t2) := by
  simp [relayAttempted, List.any_append]

theorem relayFreeExt_refl (w : W) : relayFreeExt w w := ⟨[], by simp, rfl⟩

theorem relayFreeExt_trans {w1 w2 w3 : W} (a : relayFreeExt w1 w2) (b : relayFreeExt w2 w3) :
    relayFreeExt w1 w3 := by
  obtain ⟨t1, h1, f1⟩ := a
  obtain ⟨t2, h2, f2⟩ := b
  exact ⟨t1 ++ t2, by rw [h2, h1, List.append_assoc],
    by rw [relayAttempted_append, f1, f2]; rfl⟩

theorem relayFreeExt_of_eq {w w' : W} (h : w'.trace = w.trace) : relayFreeExt w w' :=
  ⟨[], by simp [h], rfl⟩

theorem relayFreeExt_send (a b : String) (ctx : Ctx) (w : W) :
    relayFreeExt w (callApi (.sendMessage a b) ctx w).2 := ⟨[.sendMessage a b], rfl, rfl⟩

theorem relayFreeExt_create (a : String) (ctx : Ctx) (w : W) :
    relayFreeExt w (callApi (.createForumTopic a) ctx w).2 :=
  ⟨[.createForumTopic a], rfl, rfl⟩

theorem relayFreeExt_delete (a : String) (n : Nat) (ctx : Ctx) (w : W) :
    relayFreeExt w (callApi (.deleteMessage a n) ctx w).2 := ⟨[.deleteMessage a n], rfl, rfl⟩

theorem relayFreeExt_send_pair {a b : String} {ctx : Ctx} {w : W} {res : Except String Nat}
    {w' : W} (h : callApi (.sendMessage a b) ctx w = (res, w')) : relayFreeExt w w' := by
  have hx := relayFreeExt_send a b ctx w
  rw [h] at hx
  exact hx

theorem relayFreeExt_create_pair {a : String} {ctx : Ctx} {w : W} {res : Except String Nat}
    {w' : W} (h : callApi (.createForumTopic a) ctx w = (res, w')) : relayFreeExt w w' := by
  have hx := relayFreeExt_create a ctx w
  rw [h] at hx
  exact hx

/-- The blacklist card flow issues no relay call. -/
theorem relayFree_mblCore (ctx : Ctx) (u : UserObj) (tg : TgUser) (bk : Bool)
    (bid : String) (w : W) : relayFreeExt w (mblCore ctx u tg bk bid w) := by
  simp only [mblCore]
  by_cases hz : bid = ""
  · rw [if_pos hz]; exact relayFreeExt_refl w
  · rw [if_neg hz]
    by_cases hb : bk = true
    · rw [if_pos hb]
      split
      next m w1 heq =>
        exact relayFreeExt_trans (relayFreeExt_send_pair heq) (relayFreeExt_of_eq rfl)
      next e w1 heq =>
        exact relayFreeExt_send_pair heq
    · rw [if_neg hb]
      by_cases hm : pvTruthy ((alook u.user_info "blacklist_msg_id").getD .nul) = true
      · rw [if_pos hm]
        exact relayFreeExt_trans (relayFreeExt_delete _ _ ctx w) (relayFreeExt_of_eq rfl)
      · rw [if_neg hm]; exact relayFreeExt_refl w

theorem relayFree_manageBlacklist (ctx : Ctx) (u : UserObj) (tg : TgUser) (bk : Bool)
    (w : W) : relayFreeExt w (manageBlacklist ctx u tg bk w) := by
  simp only [manageBlacklist]
  by_cases hb : ctx.cfg "blocked_topic_id" = "" ∧ bk = true
  · rw [if_pos hb]
    split
    next e w1 heq => exact relayFreeExt_create_pair heq
    next t w1 heq =>
      exact relayFreeExt_trans (relayFreeExt_create_pair heq)
        (relayFreeExt_trans (relayFreeExt_of_eq rfl) (relayFree_mblCore _ _ _ _ _ _))
  · rw [if_neg hb]; exact relayFree_mblCore _ _ _ _ _ _

theorem newCalls_of_append {pre : List ApiCall} {post : List ApiCall} {t : List ApiCall}
    (h : post = pre ++ t) : newCalls pre post = t := by
  rw [newCalls, h, List.drop_left]

/-- The auto-reply stage (lines 494-500) only appends to the trace. -/
theorem traceExt_tailAuto (ctx : Ctx) (id : String) (text : String) (w : W) :
    traceExt w (if text ≠ "" then
        match (pvArrElems (getJsonCfg ctx "keyword_responses")).find?
            (fun r => pvTruthy r ∧ safeRegexTest ctx.re (pvField r "keywords")
              (jsSlice0 text 2000)) with
        | some r => ignoreE (callApi (.sendMessage id (pvToStr (pvField r "response"))) ctx w)
        | none => w
      else w) := by
  split
  · split
    · exact ⟨_, rfl⟩
    · exact traceExt_refl w
  · exact traceExt_refl w

/-- The quiet-hours stage (lines 502-509) only appends to the trace. -/
theorem traceExt_tailBusy (ctx : Ctx) (id : String) (u : UserObj) (w : W) :
    traceExt w (if getBoolC ctx "busy_mode" = true then
        if ctx.nowMs - pvAsInt ((alook u.user_info "last_busy_reply").getD .nul) > 300000 then
          updUserW id [("user_info", .o [("last_busy_reply", .i ctx.nowMs)])]
            (ignoreE (callApi (.sendMessage id ("🌙 " ++ ctx.cfg "busy_msg")) ctx w))
        else w
      else w) := by
  split
  · split
    · exact ⟨_, rfl⟩
    · exact traceExt_refl w
  · exact traceExt_refl w

/-- The delivery phase's first API call is always the `forwardMessage`
relay attempt (line 575). -/
theorem deliverToTopic_first (ctx : Ctx) (msg : Msg) (u : UserObj) (uMeta : UMeta)
    (tid : String) (w : W) :
    ∃ t, (deliverToTopic ctx msg u uMeta tid w).2.trace
      = w.trace ++ ApiCall.forwardMessage u.user_id msg.message_id tid :: t := by
  simp only [deliverToTopic]
  rcases hf : callApi (.forwardMessage u.user_id msg.message_id tid) ctx w with ⟨res, w1⟩
  have h1 : w1.trace = w.trace ++ [ApiCall.forwardMessage u.user_id msg.message_id tid] := by
    have hx : (callApi (.forwardMessage u.user_id msg.message_id tid) ctx w).2.trace
        = w.trace ++ [ApiCall.forwardMessage u.user_id msg.message_id tid] := rfl
    rw [hf] at hx
    exact hx
  have hrest : ∀ w2 : W, traceExt w1 w2 →
      ∃ t, w2.trace = w.trace ++ ApiCall.forwardMessage u.user_id msg.message_id tid :: t := by
    intro w2 hx
    obtain ⟨t, ht⟩ := hx
    exact ⟨t, by rw [ht, h1, List.append_assoc]; rfl⟩
  cases res with
  | ok v => exact hrest _ (traceExt_deliverFanout _ _ _ _ _ _)
  | error e =>
    simp only []
    rcases h2 : callApi (.copyMessage ctx.ADMIN_GROUP_ID u.user_id msg.message_id) ctx w1
      with ⟨res2, w2⟩
    cases res2 with
    | ok v =>
      exact hrest _ (traceExt_trans (traceExt_callApi_pair h2)
        (traceExt_deliverFanout _ _ _ _ _ _))
    | error e2 =>
      have hc : ∀ w : W, traceExt w
          ((if e2 ≠ "" ∧ (strIncludes e2 "thread" = true ∨ strIncludes e2 "not found" = true) then
              callApi (.sendMessage u.user_id "⚠️ 会话已过期，请重发") ctx
                (updUserW u.user_id [("topic_id", PV.nul)] w)
            else ((Except.ok 0 : Except String Nat), w))).2 := by
        intro w
        by_cases hx : e2 ≠ "" ∧ (strIncludes e2 "thread" = true ∨ strIncludes e2 "not found" = true)
        · rw [if_pos hx]
          exact traceExt_trans (traceExt_updUserW _ _ _) (traceExt_callApi _ ctx _)
        · rw [if_neg hx]; exact traceExt_refl _
      exact hrest _ (traceExt_trans (traceExt_callApi_pair h2) (hc w2))

/-- Whenever the relay engine runs on a user with a bound topic, a relay
attempt appears among the calls added after `w0`. -/
theorem relayToTopic_attempts (ctx : Ctx) (msg : Msg) (u : UserObj) (w0 w : W)
    (htop : pvTruthy u.topic_id = true) (hext : traceExt w0 w) :
    relayAttempted (newCalls w0.trace (relayToTopic ctx msg u w).2.trace) = true := by
  have hrt : relayToTopic ctx msg u w
      = deliverToTopic ctx msg u (getUMeta msg.fromUser u msg.date) (pvToStr u.topic_id) w := by
    simp only [relayToTopic]
    rw [if_pos htop]
  obtain ⟨t0, ht0⟩ := hext
  obtain ⟨t1, htr⟩ :=
    deliverToTopic_first ctx msg u (getUMeta msg.fromUser u msg.date) (pvToStr u.topic_id) w
  rw [hrt, newCalls_of_append (show (deliverToTopic ctx msg u
      (getUMeta msg.fromUser u msg.date) (pvToStr u.topic_id) w).2.trace
      = w0.trace ++ (t0 ++ ApiCall.forwardMessage u.user_id msg.message_id
          (pvToStr u.topic_id) :: t1) from by rw [htr, ht0, List.append_assoc]),
    relayAttempted_append]
  simp [relayAttempted]

theorem relayFree_keywordBan (ctx : Ctx) (msg : Msg) (u : UserObj) (w : W)
    (d : List (String × PV)) (txt : String) :
    relayFreeExt w (callApi (.sendMessage u.user_id txt) ctx
      (manageBlacklist ctx u msg.fromUser true (updUserW u.user_id d w))).2 :=
  relayFreeExt_trans (relayFreeExt_of_eq (show (updUserW u.user_id d w).trace = w.trace from rfl))
    (relayFreeExt_trans
      (relayFree_manageBlacklist ctx u msg.fromUser true (updUserW u.user_id d w))
      (relayFreeExt_send u.user_id txt ctx
        (manageBlacklist ctx u msg.fromUser true (updUserW u.user_id d w))))

theorem relayFree_keywordWarn (ctx : Ctx) (u : UserObj) (w : W)
    (d : List (String × PV)) (txt : String) :
    relayFreeExt w (callApi (.sendMessage u.user_id txt) ctx (updUserW u.user_id d w)).2 :=
  relayFreeExt_trans (relayFreeExt_of_eq (show (updUserW u.user_id d w).trace = w.trace from rfl))
    (relayFreeExt_send u.user_id txt ctx (updUserW u.user_id d w))

/-- C7 (amended): the policy stages run in the order block-keywords,
typed-content switches, auto-reply, quiet-hours, relay.  A keyword hit or a
rejected content type short-circuits the rest (in particular no relay
attempt is made), but a matching auto-reply rule does NOT short-circuit:
its response is sent fire-and-forget and the pipeline falls through to the
quiet-hours notice and the relay, so an auto-replied message from a user
with a bound topic is still relayed. -/
theorem C7_pipeline_amended (ctx : Ctx) (msg : Msg) (u : UserObj) (w : W) :
    (blockKeywordHit ctx (jsOrS (msg.text.getD "") (msg.caption.getD "")) = true →
        relayAttempted (newCalls w.trace (handleVerifiedMsg ctx msg u w).2.trace) = false)
  ∧ (blockKeywordHit ctx (jsOrS (msg.text.getD "") (msg.caption.getD "")) = false →
      ∀ ty, MSG_TYPES.find? (fun t => t.check msg) = some ty →
        (¬ getBoolC ctx ty.key = true ∧ ¬ isAuthAdmin ctx u.user_id = true) →
        handleVerifiedMsg ctx msg u w
          = callApi (.sendMessage u.user_id ("⚠️ 系统不接收 " ++ ty.name)) ctx w)
  ∧ (blockKeywordHit ctx (jsOrS (msg.text.getD "") (msg.caption.getD "")) = false →
      MSG_TYPES.find? (fun t => t.check msg) = none →
      handleVerifiedMsg ctx msg u w = handleVerifiedTail ctx msg u
        (jsOrS (msg.text.getD "") (msg.caption.getD "")) w)
  ∧ (∀ text : String, pvTruthy u.topic_id = true →
      relayAttempted (newCalls w.trace
        (handleVerifiedTail ctx msg u text w).2.trace) = true)
  ∧ (∀ (text : String) (r : PV), text ≠ "" →
      (pvArrElems (getJsonCfg ctx "keyword_responses")).find?
        (fun r => pvTruthy r ∧ safeRegexTest ctx.re (pvField r "keywords")
          (jsSlice0 text 2000)) = some r →
      ApiCall.sendMessage u.user_id (pvToStr (pvField r "response"))
        ∈ (handleVerifiedTail ctx msg u text w).2.trace)
  ∧ (∀ text : String, getBoolC ctx "busy_mode" = true →
      ctx.nowMs - pvAsInt ((alook u.user_info "last_busy_reply").getD .nul) > 300000 →
      ApiCall.sendMessage u.user_id ("🌙 " ++ ctx.cfg "busy_msg")
        ∈ (handleVerifiedTail ctx msg u text w).2.trace) := by
  refine ⟨?_, ?_, ?_, ?_, ?_, ?_⟩
  · intro hk
    rw [handleVerifiedMsg_keyword_hit ctx msg u w hk]
    by_cases hge : pvAsInt u.block_count + 1 ≥ blockThresholdOf (ctx.cfg "block_threshold")
    · rw [if_pos hge]
      obtain ⟨t, ht, hf⟩ := relayFree_keywordBan ctx msg u w
        [("block_count", PV.i (pvAsInt u.block_count + 1)),
         ("is_blocked", PV.b (pvAsInt u.block_count + 1 ≥
           blockThresholdOf (ctx.cfg "block_threshold")))]
        "❌ 您已被系统自动封禁"
      rw [newCalls_of_append ht]
      exact hf
    · rw [if_neg hge]
      obtain ⟨t, ht, hf⟩ := relayFree_keywordWarn ctx u w
        [("block_count", PV.i (pvAsInt u.block_count + 1)),
         ("is_blocked", PV.b (pvAsInt u.block_count + 1 ≥
           blockThresholdOf (ctx.cfg "block_threshold")))]
        ("⚠️ 含有违禁词，请勿发送 (" ++ toString (pvAsInt u.block_count + 1) ++ "/"
          ++ toString (blockThresholdOf (ctx.cfg "block_threshold")) ++ ")")
      rw [newCalls_of_append ht]
      exact hf
  · intro hk0 ty hty hrej
    simp only [handleVerifiedMsg]
    rw [if_neg (by simp [hk0]), hty]
    simp only []
    rw [if_pos hrej]
  · intro hk0 hty
    simp only [handleVerifiedMsg]
    rw [if_neg (by simp [hk0]), hty]
  · intro text htop
    simp only [handleVerifiedTail]
    exact relayToTopic_attempts ctx msg u w _ htop
      (traceExt_trans (traceExt_tailAuto ctx u.user_id text w)
        (traceExt_tailBusy ctx u.user_id u _))
  · intro text r htxt hfind
    simp only [handleVerifiedTail]
    rw [hfind, if_pos htxt]
    refine mem_of_traceExt (traceExt_relayToTopic ctx msg u _) ?_
    refine mem_of_traceExt (traceExt_tailBusy ctx u.user_id u _) ?_
    show _ ∈ w.trace ++ [ApiCall.sendMessage u.user_id (pvToStr (pvField r "response"))]
    exact List.mem_append_right _ (List.mem_singleton.mpr rfl)
  · intro text hbusy hstale
    simp only [handleVerifiedTail]
    rw [if_pos hbusy, if_pos hstale]
    refine mem_of_traceExt (traceExt_relayToTopic ctx msg u _) ?_
    show _ ∈ _ ++ [ApiCall.sendMessage u.user_id ("🌙 " ++ ctx.cfg "busy_msg")]
    exact List.mem_append_right _ (List.mem_singleton.mpr rfl)

/-- Counterexample to C7 as stated: user 5 (verified, topic 77) sends
"price?", which matches the auto-reply rule `price → "call us"`.  The claim
says such a message "receives that rule's response and is not relayed", but
the run both sends the response and issues a `forwardMessage` relay. -/
theorem C7_counterexample_autoreply_still_relays :
    ((pvArrElems (getJsonCfg ctxPipeline "keyword_responses")).find?
        (fun r => pvTruthy r ∧ safeRegexTest ctxPipeline.re (pvField r "keywords")
          (jsSlice0 (jsOrS (msgPrice.text.getD "") (msgPrice.caption.getD "")) 2000))).isSome
      = true
  ∧ ApiCall.sendMessage "5" "call us"
      ∈ (handleVerifiedMsg ctxPipeline msgPrice (viewRow "5" rowTopic) wTopic).2.trace
  ∧ relayAttempted (newCalls wTopic.trace
      (handleVerifiedMsg ctxPipeline msgPrice (viewRow "5" rowTopic) wTopic).2.trace)
      = true :=
  ⟨by decide, by decide, by decide⟩

/-- Witness for C7 at the concrete pipeline scenario: the auto-reply
response is sent and the relay is still attempted. -/
theorem C7_pipeline_amended_witness :
    ("price?" : String) ≠ ""
  ∧ (pvArrElems (getJsonCfg ctxPipeline "keyword_responses")).find?
      (fun r => pvTruthy r ∧ safeRegexTest ctxPipeline.re (pvField r "keywords")
        (jsSlice0 "price?" 2000))
      = some (PV.o [("keywords", PV.s "price"), ("response", PV.s "call us")])
  ∧ pvTruthy (viewRow "5" rowTopic).topic_id = true
  ∧ ApiCall.sendMessage "5" (pvToStr (pvField
        (PV.o [("keywords", PV.s "price"), ("response", PV.s "call us")]) "response"))
      ∈ (handleVerifiedTail ctxPipeline msgPrice (viewRow "5" rowTopic) "price?" wTopic).2.trace
  ∧ relayAttempted (newCalls wTopic.trace
      (handleVerifiedTail ctxPipeline msgPrice (viewRow "5" rowTopic) "price?" wTopic).2.trace)
      = true :=
  ⟨by decide, by rfl, by decide,
    (C7_pipeline_amended ctxPipeline msgPrice (viewRow "5" rowTopic) wTopic).2.2.2.2.1
      "price?" (PV.o [("keywords", PV.s "price"), ("response", PV.s "call us")])
      (by decide) (by rfl),
    (C7_pipeline_amended ctxPipeline msgPrice (viewRow "5" rowTopic) wTopic).2.2.2.1
      "price?" (by decide)⟩

-- ===========================================================================
-- C4: topic-binding concurrency
-- ===========================================================================

theorem invP_swap {t0 : Int} {lock : Option Int} {topic : Option String} {created : Nat}
    {a b : TaskSt} (h : invP t0 lock topic created a b) : invP t0 lock topic created b a := by
  obtain ⟨s1, s2, l1, m, c1, c2, c3, n1, n2, u1, u2, e, d1, d2, dd⟩ := h
  exact ⟨s2, s1, l1, fun hx => m ⟨hx.2, hx.1⟩, c2, c1, fun hl => (c3 hl).symm,
    n2, n1, u2, u1, by rw [e, Nat.add_right_comm], d2, d1, fun hx => dd ⟨hx.2, hx.1⟩⟩

theorem invP_step (t0 time : Int) (lock : Option Int) (topic : Option String)
    (created : Nat) (a b : TaskSt)
    (hI : invP t0 lock topic created a b) (ht1 : t0 ≤ time) (ht2 : time < t0 + 5000) :
    invP t0 (taskStep lock topic created a time).1
      (taskStep lock topic created a time).2.1
      (taskStep lock topic created a time).2.2.1
      (taskStep lock topic created a time).2.2.2 b := by
  obtain ⟨s1, s2, l1, m, c1, c2, c3, n1, n2, u1, u2, e, d1, d2, dd⟩ := hI
  cases hpc : a.pc with
  | start =>
    simp only [taskStep, hpc]
    rw [s1, if_neg (by decide)]
    by_cases hl : lockHeldB lock time = true
    · rw [if_pos hl]
      have hlock : lock ≠ none := by
        cases lock with
        | none => simp [lockHeldB] at hl
        | some d => simp
      have hcb : crit b := by
        rcases c3 hlock with hca | hcb
        · simp [crit, hpc] at hca
        · exact hcb
      have hbnd : ¬ b.pc = .dropped := by
        intro hx
        simp [crit, hx] at hcb
      show invP t0 lock topic created { snap := PV.nul, pc := TPc.dropped } b
      refine ⟨rfl, s2, l1, ?_, ?_, c2, ?_, ?_, n2, ?_, u2, ?_, ?_, d2, ?_⟩
      · intro hx
        simp [crit] at hx
      · intro hx
        simp [crit] at hx
      · intro _
        exact Or.inr hcb
      · intro hx
        simp at hx
      · intro hx
        simp at hx
      · rw [e, hpc]
        simp
      · intro hx
        simp at hx
      · intro hx
        exact hbnd hx.2
    · rw [if_neg hl]
      have hncb : ¬ crit b := by
        intro hcb
        rcases hd : lock with _ | d
        · exact (c2 hcb) hd
        · have hge := l1 d hd
          have : lockHeldB lock time = true := by
            rw [hd]
            simp only [lockHeldB]
            exact decide_eq_true (by omega)
          exact hl this
      show invP t0 (some (time + 5000)) topic created
        { snap := PV.nul, pc := TPc.readUser } b
      refine ⟨rfl, s2, ?_, ?_, ?_, ?_, ?_, ?_, n2, ?_, u2, ?_, ?_, d2, ?_⟩
      · intro d hd
        have hdv : d = time + 5000 := by simpa using hd.symm
        omega
      · intro hx
        exact hncb hx.2
      · intro _
        simp
      · intro hcb
        exact absurd hcb hncb
      · intro _
        exact Or.inl (by simp [crit])
      · intro hx
        simp at hx
      · intro hx
        simp at hx
      · rw [e, hpc]
        simp
      · intro hx
        simp at hx
      · intro hx
        simp at hx
  | readUser =>
    have hca : crit a := by simp [crit, hpc]
    have hncb : ¬ crit b := fun hcb => m ⟨hca, hcb⟩
    simp only [taskStep, hpc]
    cases htp : topic with
    | some T =>
      rw [htp] at n2 u2 e d2
      show invP t0 none (some T) created { snap := a.snap, pc := TPc.done } b
      refine ⟨s1, s2, ?_, ?_, ?_, ?_, ?_, ?_, ?_, ?_, u2, ?_, ?_, d2, ?_⟩
      · intro d hd
        simp at hd
      · intro hx
        simp [crit] at hx
      · intro hx
        simp [crit] at hx
      · intro hcb
        exact absurd hcb hncb
      · intro hx
        simp at hx
      · intro hx
        simp at hx
      · intro hx
        exact n2 hx
      · intro hx
        simp at hx
      · rw [e, hpc]
        simp
      · intro _
        simp
      · intro hx
        simp at hx
    | none =>
      rw [htp] at n2 u2 e d2
      show invP t0 lock none created { snap := a.snap, pc := TPc.createCall } b
      refine ⟨s1, s2, l1, ?_, ?_, c2, ?_, ?_, n2, ?_, u2, ?_, ?_, d2, ?_⟩
      · intro hx
        exact hncb hx.2
      · intro _
        exact c1 hca
      · intro _
        exact Or.inl (by simp [crit])
      · intro _
        rfl
      · intro hx
        simp at hx
      · rw [e, hpc]
        simp
      · intro hx
        simp at hx
      · intro hx
        simp at hx
  | createCall =>
    have hca : crit a := by simp [crit, hpc]
    have hncb : ¬ crit b := fun hcb => m ⟨hca, hcb⟩
    have htp : topic = none := n1 (Or.inl hpc)
    have hwb : ¬ b.pc = .writeTopic := by
      intro hx
      exact hncb (by simp [crit, hx])
    rw [htp] at n2 u2 e d2
    simp only [taskStep, hpc]
    show invP t0 lock topic (created + 1) { snap := a.snap, pc := TPc.writeTopic } b
    rw [htp]
    refine ⟨s1, s2, l1, ?_, ?_, c2, ?_, ?_, n2, ?_, u2, ?_, ?_, d2, ?_⟩
    · intro hx
      exact hncb hx.2
    · intro _
      exact c1 hca
    · intro _
      exact Or.inl (by simp [crit])
    · intro _
      rfl
    · intro hx
      simp at hx
    · rw [e, hpc]
      simp [hwb]
    · intro hx
      simp at hx
    · intro hx
      simp at hx
  | writeTopic =>
    have hca : crit a := by simp [crit, hpc]
    have hncb : ¬ crit b := fun hcb => m ⟨hca, hcb⟩
    have htp : topic = none := n1 (Or.inr hpc)
    have hwb : ¬ b.pc = .writeTopic := by
      intro hx
      exact hncb (by simp [crit, hx])
    have hcb2 : ¬ (b.pc = .createCall ∨ b.pc = .writeTopic) := by
      intro hx
      rcases hx with hx | hx
      · exact hncb (by simp [crit, hx])
      · exact hwb hx
    rw [htp] at e
    simp only [taskStep, hpc]
    show invP t0 lock (some "T") created { snap := a.snap, pc := TPc.unlock } b
    refine ⟨s1, s2, l1, ?_, ?_, c2, ?_, ?_, ?_, ?_, ?_, ?_, ?_, ?_, ?_⟩
    · intro hx
      exact hncb hx.2
    · intro _
      exact c1 hca
    · intro _
      exact Or.inl (by simp [crit])
    · intro hx
      simp at hx
    · intro hx
      exact absurd hx hcb2
    · intro _
      simp
    · intro hx
      simp
    · rw [e, hpc]
      simp [hwb]
    · intro hx
      simp at hx
    · intro hx
      simp
    · intro hx
      simp at hx
  | unlock =>
    have hca : crit a := by simp [crit, hpc]
    have hncb : ¬ crit b := fun hcb => m ⟨hca, hcb⟩
    have htp : topic ≠ none := u1 hpc
    simp only [taskStep, hpc]
    show invP t0 none topic created { snap := a.snap, pc := TPc.done } b
    refine ⟨s1, s2, ?_, ?_, ?_, ?_, ?_, ?_, n2, ?_, u2, ?_, ?_, d2, ?_⟩
    · intro d hd
      simp at hd
    · intro hx
      simp [crit] at hx
    · intro hx
      simp [crit] at hx
    · intro hcb
      exact absurd hcb hncb
    · intro hx
      simp at hx
    · intro hx
      simp at hx
    · intro hx
      simp at hx
    · rw [e, hpc]
      simp
    · intro _
      exact htp
    · intro hx
      simp at hx
  | done =>
    simp only [taskStep, hpc]
    show invP t0 lock topic created a b
    exact ⟨s1, s2, l1, m, c1, c2, c3, n1, n2, u1, u2, e, d1, d2, dd⟩
  | dropped =>
    simp only [taskStep, hpc]
    show invP t0 lock topic created a b
    exact ⟨s1, s2, l1, m, c1, c2, c3, n1, n2, u1, u2, e, d1, d2, dd⟩

theorem sysInv_step (t0 : Int) (sys : CSys) (who : Bool) (time : Int)
    (hI : sysInv t0 sys) (h1 : t0 ≤ time) (h2 : time < t0 + 5000) :
    sysInv t0 (sysStep sys who time) := by
  cases who
  · exact invP_swap (invP_step t0 time sys.lock sys.topic sys.created sys.t2 sys.t1
      (invP_swap hI) h1 h2)
  · exact invP_step t0 time sys.lock sys.topic sys.created sys.t1 sys.t2 hI h1 h2

theorem sysInv_run (t0 : Int) (s : List (Bool × Int)) (sys : CSys)
    (hI : sysInv t0 sys) (hs : ∀ p ∈ s, t0 ≤ p.2 ∧ p.2 < t0 + 5000) :
    sysInv t0 (sysRun sys s) := by
  induction s generalizing sys with
  | nil => exact hI
  | cons p rest ih =>
    obtain ⟨who, time⟩ := p
    have hp := hs (who, time) (List.mem_cons_self _ _)
    exact ih (sysStep sys who time) (sysInv_step t0 sys who time hI hp.1 hp.2)
      (fun q hq => hs q (List.mem_cons_of_mem _ hq))

theorem sysInv_init (t0 : Int) : sysInv t0 (sysInit .nul .nul) := by
  refine ⟨rfl, rfl, ?_, ?_, ?_, ?_, ?_, ?_, ?_, ?_, ?_, by decide, ?_, ?_, ?_⟩
  · intro d hd
    simp [sysInit] at hd
  · intro hx
    simp [sysInit, crit] at hx
  · intro hx
    simp [sysInit, crit] at hx
  · intro hx
    simp [sysInit, crit] at hx
  · intro hx
    simp [sysInit] at hx
  · intro hx
    simp [sysInit] at hx
  · intro hx
    simp [sysInit] at hx
  · intro hx
    simp [sysInit] at hx
  · intro hx
    simp [sysInit] at hx
  · intro hx
    simp [sysInit] at hx
  · intro hx
    simp [sysInit] at hx
  · intro hx
    simp [sysInit] at hx

theorem invP_created_le {t0 : Int} {lock : Option Int} {topic : Option String}
    {created : Nat} {a b : TaskSt} (hI : invP t0 lock topic created a b) :
    created ≤ 1 := by
  obtain ⟨s1, s2, l1, m, c1, c2, c3, n1, n2, u1, u2, e, d1, d2, dd⟩ := hI
  by_cases hw1 : a.pc = .writeTopic
  · have htp : topic = none := n1 (Or.inr hw1)
    have hwb : ¬ b.pc = .writeTopic := by
      intro hx
      exact m ⟨by simp [crit, hw1], by simp [crit, hx]⟩
    rw [e, htp, hw1]
    simp [hwb]
  · by_cases hw2 : b.pc = .writeTopic
    · have htp : topic = none := n2 (Or.inr hw2)
      rw [e, htp, hw2]
      simp [hw1]
    · rw [e]
      simp only [hw1, hw2, if_false]
      split
      · omega
      · omega

theorem invP_both_finished {t0 : Int} {lock : Option Int} {topic : Option String}
    {created : Nat} {a b : TaskSt} (hI : invP t0 lock topic created a b)
    (hf1 : finishedT a) (hf2 : finishedT b) : created = 1 := by
  obtain ⟨s1, s2, l1, m, c1, c2, c3, n1, n2, u1, u2, e, d1, d2, dd⟩ := hI
  have hw1 : ¬ a.pc = .writeTopic := by
    rcases hf1 with hx | hx <;> rw [hx] <;> simp
  have hw2 : ¬ b.pc = .writeTopic := by
    rcases hf2 with hx | hx <;> rw [hx] <;> simp
  have htp : topic ≠ none := by
    rcases hf1 with hx | hx
    · exact d1 hx
    · rcases hf2 with hy | hy
      · exact d2 hy
      · exact absurd ⟨hx, hy⟩ dd
  rw [e]
  simp [hw1, hw2, htp]

theorem allQuiet_step (sys : CSys) (who : Bool) (time : Int) (h : allQuiet sys) :
    allQuiet (sysStep sys who time) := by
  obtain ⟨h1, h2, h3, h4, h5, h6, h7⟩ := h
  cases who
  · rcases h4 with hp | hp
    · simp only [sysStep, taskStep, hp]
      rw [if_pos h2]
      exact ⟨h1, h2, h3, Or.inr rfl, h5, h6, h7⟩
    · simp only [sysStep, taskStep, hp]
      exact ⟨h1, h2, h3, Or.inr hp, h5, h6, h7⟩
  · rcases h3 with hp | hp
    · simp only [sysStep, taskStep, hp]
      rw [if_pos h1]
      exact ⟨h1, h2, Or.inr rfl, h4, h5, h6, h7⟩
    · simp only [sysStep, taskStep, hp]
      exact ⟨h1, h2, Or.inr hp, h4, h5, h6, h7⟩

theorem allQuiet_run (s : List (Bool × Int)) (sys : CSys) (h : allQuiet sys) :
    allQuiet (sysRun sys s) := by
  induction s generalizing sys with
  | nil => exact h
  | cons p rest ih =>
    obtain ⟨who, time⟩ := p
    exact ih (sysStep sys who time) (allQuiet_step sys who time h)

/-- The binding phase of `relayToTopic` drops the message when another
in-flight invocation holds the `topic_create` lock (line 547). -/
theorem relayToTopic_drop (ctx : Ctx) (msg : Msg) (u : UserObj) (w : W)
    (hsnap : pvTruthy u.topic_id = false)
    (hlock : lockHas w.locks ctx.nowMs ("topic_create:" ++ u.user_id) = true) :
    relayToTopic ctx msg u w = (.ok 0, w) := by
  simp only [relayToTopic]
  rw [if_neg (by simp [hsnap]), if_pos hlock]

/-- With a non-null snapshot the binding phase is skipped entirely: the
message goes straight to delivery on the existing topic (line 543). -/
theorem relayToTopic_existing (ctx : Ctx) (msg : Msg) (u : UserObj) (w : W)
    (htop : pvTruthy u.topic_id = true) :
    relayToTopic ctx msg u w = deliverToTopic ctx msg u
      (getUMeta msg.fromUser u msg.date) (pvToStr u.topic_id) w := by
  simp only [relayToTopic]
  rw [if_pos htop]

/-- After acquiring the lock the row is re-read; a topic that appeared in
the meantime is used and no creation call is made (lines 549-552). -/
theorem relayToTopic_reread (ctx : Ctx) (msg : Msg) (u : UserObj) (w : W) (r' : Row)
    (hsnap : pvTruthy u.topic_id = false)
    (hlock : lockHas w.locks ctx.nowMs ("topic_create:" ++ u.user_id) = false)
    (hr : alook w.users u.user_id = some r')
    (htr : pvTruthy r'.topic_id = true) :
    relayToTopic ctx msg u w = deliverToTopic ctx msg u
      (getUMeta msg.fromUser u msg.date) (pvToStr r'.topic_id)
      { w with
          locks := lockDel ("topic_create:" ++ u.user_id)
            (lockSet ("topic_create:" ++ u.user_id) 5000 ctx.nowMs w.locks) } := by
  simp only [relayToTopic]
  rw [if_neg (by simp [hsnap]), if_neg (by simp [hlock]),
      getUserW_found u.user_id
        { w with locks := lockSet ("topic_create:" ++ u.user_id) 5000 ctx.nowMs w.locks }
        r' hr]
  simp only [viewRow]
  rw [if_pos htr]

/-- C4: at most one forum topic is ever bound to a user.  In the two-task
interleaving model of the binding phase (awaits are the atomic boundaries,
the schedule stays within the 5 s lock TTL): at most one creation ever
happens, two finished tasks of a new user created exactly one topic, and
tasks whose snapshot already has a topic create none.  In the sequential
embedding: a held lock drops the message, a non-null snapshot skips the
binding phase, and the post-lock re-read uses a topic that appeared in the
meantime instead of creating one. -/
theorem C4_topic_binding (ctx : Ctx) (msg : Msg) (u : UserObj) (w : W)
    (t0 : Int) (s : List (Bool × Int))
    (hs : ∀ p ∈ s, t0 ≤ p.2 ∧ p.2 < t0 + 5000) :
    ((sysRun (sysInit .nul .nul) s).created ≤ 1)
  ∧ (finishedT (sysRun (sysInit .nul .nul) s).t1 →
      finishedT (sysRun (sysInit .nul .nul) s).t2 →
      (sysRun (sysInit .nul .nul) s).created = 1)
  ∧ (∀ snap₁ snap₂, pvTruthy snap₁ = true → pvTruthy snap₂ = true →
      (sysRun (sysInit snap₁ snap₂) s).created = 0)
  ∧ (pvTruthy u.topic_id = false →
      lockHas w.locks ctx.nowMs ("topic_create:" ++ u.user_id) = true →
      relayToTopic ctx msg u w = (.ok 0, w))
  ∧ (pvTruthy u.topic_id = true →
      relayToTopic ctx msg u w = deliverToTopic ctx msg u
        (getUMeta msg.fromUser u msg.date) (pvToStr u.topic_id) w)
  ∧ (∀ r', pvTruthy u.topic_id = false →
      lockHas w.locks ctx.nowMs ("topic_create:" ++ u.user_id) = false →
      alook w.users u.user_id = some r' → pvTruthy r'.topic_id = true →
      relayToTopic ctx msg u w = deliverToTopic ctx msg u
        (getUMeta msg.fromUser u msg.date) (pvToStr r'.topic_id)
        { w with
            locks := lockDel ("topic_create:" ++ u.user_id)
              (lockSet ("topic_create:" ++ u.user_id) 5000 ctx.nowMs w.locks) }) := by
  have hrun : sysInv t0 (sysRun (sysInit .nul .nul) s) :=
    sysInv_run t0 s (sysInit .nul .nul) (sysInv_init t0) hs
  refine ⟨invP_created_le hrun, fun hf1 hf2 => invP_both_finished hrun hf1 hf2,
    ?_, relayToTopic_drop ctx msg u w, relayToTopic_existing ctx msg u w,
    fun r' h1 h2 h3 h4 => relayToTopic_reread ctx msg u w r' h1 h2 h3 h4⟩
  intro snap₁ snap₂ h1 h2
  exact (allQuiet_run s (sysInit snap₁ snap₂)
    ⟨h1, h2, Or.inl rfl, Or.inl rfl, rfl, rfl, rfl⟩).2.2.2.2.1

/-- Witness for C4: a concrete interleaved schedule (task 1 acquires the
lock, task 2's message is dropped, task 1 creates, writes and unlocks)
yields exactly one creation; user 5's bound topic 77 goes straight to
delivery. -/
theorem C4_topic_binding_witness :
    (∀ p ∈ ([(true, 0), (false, 1), (true, 1), (true, 2), (true, 3), (true, 4)] :
        List (Bool × Int)), (0 : Int) ≤ p.2 ∧ p.2 < 0 + 5000)
  ∧ ((sysRun (sysInit .nul .nul)
      [(true, 0), (false, 1), (true, 1), (true, 2), (true, 3), (true, 4)]).created ≤ 1)
  ∧ ((sysRun (sysInit .nul .nul)
      [(true, 0), (false, 1), (true, 1), (true, 2), (true, 3), (true, 4)]).created = 1)
  ∧ relayToTopic ctxPipeline msgPrice (viewRow "5" rowTopic) wTopic
      = deliverToTopic ctxPipeline msgPrice (viewRow "5" rowTopic)
        (getUMeta msgPrice.fromUser (viewRow "5" rowTopic) msgPrice.date)
        (pvToStr (viewRow "5" rowTopic).topic_id) wTopic := by
  have hc := C4_topic_binding ctxPipeline msgPrice (viewRow "5" rowTopic) wTopic 0
    [(true, 0), (false, 1), (true, 1), (true, 2), (true, 3), (true, 4)] (by decide)
  exact ⟨by decide, hc.1, hc.2.1 (Or.inl rfl) (Or.inr rfl), hc.2.2.2.2.1 (by decide)⟩
